import Mathlib

/-!
# Network monitor: hub registry, session handler, reconnect backoff, probe engine

A shallow embedding of the Go sources

* `shared/types.go`, `shared/server_types.go` (records and message-type constants),
* `internal/server/storage.go` (client, request and configuration files on a file system
  with cleaned paths and writes that can fail, and the lock),
* `internal/server/clients.go` (session handler and client registry, as whole handlers
  and statement by statement under any interleaving of the session goroutines),
* `internal/client/connection.go` (connection, its goroutines, reconnect loop),
* `internal/client/monitor.go` (probe engine: one probe, `Start` and `Stop`),

followed by theorems about them.

Modelling conventions.

* A Go `map` is an association list with distinct keys (`GoMap`); iteration
  order over it is whatever order the list has.
* A `*ClientConnection` is an index (`ConnId`) into a heap `conns`.
* `time.Now()`, `uuid.New()`, transport reads, dial results and HTTP trace
  callbacks are inputs of the functions that consume them.
* A call that can panic or wait forever returns an `Outcome`.
* A JSON object is represented by the fields `json.Unmarshal` stores from it.
* A path is the list of its elements after `filepath.Clean`; `filepath.Join` cleans, so an
  id that carries `/`, `.` or `..` can name a file outside the directory it is joined to.
  A save returns the store after the call and whether its error is nil.
-/

namespace NetworkMonitor

/-! ## shared/types.go -/

/-- A `time.Time`: nanoseconds elapsed since January 1, year 1, 00:00:00 UTC (Go's zero
    time) and the zone offset, in seconds east of UTC, the value is presented in. -/
structure Time where
  nsec : Int
  offset : Int
  deriving DecidableEq, Repr

/-- The zero value `time.Time{}`. -/
def Time.zero : Time := { nsec := 0, offset := 0 }

/-- `t.IsZero()`: the instant is January 1, year 1, 00:00:00 UTC. -/
def Time.IsZero (t : Time) : Bool := decide (t.nsec = 0)

/-- A calendar date. -/
structure Date where
  year : Int
  month : Int
  day : Int
  deriving DecidableEq, Repr

/-- Civil date of day number `d`, where day 0 is January 1 of year 1 (proleptic Gregorian). -/
def Date.ofDays (d : Int) : Date :=
  let z := d + 306
  let era := z / 146097
  let doe := z - era * 146097
  let yoe := (doe - doe / 1460 + doe / 36524 - doe / 146096) / 365
  let doy := doe - (365 * yoe + yoe / 4 - yoe / 100)
  let mp := (5 * doy + 2) / 153
  let day := doy - (153 * mp + 2) / 5 + 1
  let month := if mp < 10 then mp + 3 else mp - 9
  let year := yoe + era * 400 + (if month ≤ 2 then 1 else 0)
  { year := year, month := month, day := day }

/-- The decimal digit for a number below ten. -/
def digitChar : Nat → Char
  | 0 => '0' | 1 => '1' | 2 => '2' | 3 => '3' | 4 => '4'
  | 5 => '5' | 6 => '6' | 7 => '7' | 8 => '8' | _ => '9'

/-- The decimal digits of `n` in front of `acc`, most significant first; `fuel` bounds the
    number of digits. -/
def digitsAux : Nat → Nat → List Char → List Char
  | 0, _, acc => acc
  | fuel + 1, n, acc =>
    if n < 10 then digitChar n :: acc
    else digitsAux fuel (n / 10) (digitChar (n % 10) :: acc)

/-- The decimal digits of `n`. -/
def decimal (n : Nat) : List Char := digitsAux (n + 1) n []

/-- The characters `appendInt(b, x, width)` of package `time` appends: a minus sign for a
    negative `x`, then the decimal digits of its absolute value, with zeros in front up to
    `width` digits. -/
def appendInt (x : Int) (width : Nat) : List Char :=
  (if x < 0 then ['-'] else []) ++
    (List.replicate (width - (decimal x.natAbs).length) '0' ++ decimal x.natAbs)

/-- The text of a date in the layout `2006-01-02`. -/
def Date.format (d : Date) : String :=
  String.mk (appendInt d.year 4 ++ ('-' :: (appendInt d.month 2 ++ ('-' :: appendInt d.day 2))))

/-- `t.Date()`: the calendar date of `t` in the zone `t` is presented in. -/
def Time.Date (t : Time) : Date :=
  Date.ofDays ((t.nsec + t.offset * 1000000000) / 86400000000000)

/-- `t.Format("2006-01-02")`: the text of the calendar date of `t` in the zone `t` is
    presented in. -/
def Time.Format (t : Time) : String := t.Date.format

/-- `t.Sub(u).Milliseconds()` and `time.Since(u).Milliseconds()` with `t` the clock reading:
    the elapsed whole milliseconds, truncated toward zero. -/
def Time.msSince (t u : Time) : Int := Int.tdiv (t.nsec - u.nsec) 1000000

/-- `ClientStatus` is a string type. -/
abbrev ClientStatus := String

def StatusOnline : ClientStatus := "online"

def StatusOffline : ClientStatus := "offline"

/-- `shared.NetworkRequest`. -/
structure NetworkRequest where
  ID : String
  URL : String
  Method : String
  StatusCode : Int
  StartTime : Time
  EndTime : Time
  DNSTime : Int
  TCPTime : Int
  TLSTime : Int
  RequestTime : Int
  ResponseTime : Int
  TotalTime : Int
  Error : String
  ErrorType : String
  TargetName : String
  deriving DecidableEq, Repr

/-- The zero value `shared.NetworkRequest{}`. -/
def NetworkRequest.zero : NetworkRequest :=
  { ID := "", URL := "", Method := "", StatusCode := 0, StartTime := Time.zero,
    EndTime := Time.zero, DNSTime := 0, TCPTime := 0, TLSTime := 0, RequestTime := 0,
    ResponseTime := 0, TotalTime := 0, Error := "", ErrorType := "", TargetName := "" }

/-- `shared.ClientInfo`; `DisconnectedAt` is a `*time.Time`. -/
structure ClientInfo where
  ID : String
  Name : String
  IPAddress : String
  Status : ClientStatus
  ConnectedAt : Time
  DisconnectedAt : Option Time
  LastSeen : Time
  Version : String
  OSInfo : String
  deriving DecidableEq, Repr

/-- The zero value `shared.ClientInfo{}`. -/
def ClientInfo.zero : ClientInfo :=
  { ID := "", Name := "", IPAddress := "", Status := "", ConnectedAt := Time.zero,
    DisconnectedAt := none, LastSeen := Time.zero, Version := "", OSInfo := "" }

/-- A decoded JSON object (`map[string]interface{}`), represented by the values that
    `json.Unmarshal` stores from it into a `ClientInfo`, a `NetworkRequest` or a
    `ServerConfig`: a field is `none` when the object has no usable value under that key,
    and then the target field is left as it was. `disconnectedAt` targets a pointer:
    `some none` is JSON `null`. -/
structure JsonObject where
  id : Option String
  name : Option String
  ipAddress : Option String
  status : Option String
  connectedAt : Option Time
  disconnectedAt : Option (Option Time)
  lastSeen : Option Time
  version : Option String
  osInfo : Option String
  url : Option String
  method : Option String
  statusCode : Option Int
  startTime : Option Time
  endTime : Option Time
  dnsTime : Option Int
  tcpTime : Option Int
  tlsTime : Option Int
  requestTime : Option Int
  responseTime : Option Int
  totalTime : Option Int
  error : Option String
  errorType : Option String
  targetName : Option String
  maxClients : Option Int
  historyDays : Option Int
  listenAddress : Option String
  refreshInterval : Option Int
  deriving DecidableEq, Repr

/-- The object `{}`. -/
def JsonObject.empty : JsonObject :=
  { id := none, name := none, ipAddress := none, status := none, connectedAt := none,
    disconnectedAt := none, lastSeen := none, version := none, osInfo := none, url := none,
    method := none, statusCode := none, startTime := none, endTime := none, dnsTime := none,
    tcpTime := none, tlsTime := none, requestTime := none, responseTime := none,
    totalTime := none, error := none, errorType := none, targetName := none,
    maxClients := none, historyDays := none, listenAddress := none, refreshInterval := none }

/-- `json.Unmarshal(bytes, &info)` for the bytes of object `o`: present fields overwrite. -/
def JsonObject.decodeClientInfo (o : JsonObject) (info : ClientInfo) : ClientInfo :=
  { ID := o.id.getD info.ID
    Name := o.name.getD info.Name
    IPAddress := o.ipAddress.getD info.IPAddress
    Status := o.status.getD info.Status
    ConnectedAt := o.connectedAt.getD info.ConnectedAt
    DisconnectedAt := o.disconnectedAt.getD info.DisconnectedAt
    LastSeen := o.lastSeen.getD info.LastSeen
    Version := o.version.getD info.Version
    OSInfo := o.osInfo.getD info.OSInfo }

/-- `json.Unmarshal(bytes, &request)` for the bytes of object `o`. -/
def JsonObject.decodeNetworkRequest (o : JsonObject) (r : NetworkRequest) : NetworkRequest :=
  { ID := o.id.getD r.ID
    URL := o.url.getD r.URL
    Method := o.method.getD r.Method
    StatusCode := o.statusCode.getD r.StatusCode
    StartTime := o.startTime.getD r.StartTime
    EndTime := o.endTime.getD r.EndTime
    DNSTime := o.dnsTime.getD r.DNSTime
    TCPTime := o.tcpTime.getD r.TCPTime
    TLSTime := o.tlsTime.getD r.TLSTime
    RequestTime := o.requestTime.getD r.RequestTime
    ResponseTime := o.responseTime.getD r.ResponseTime
    TotalTime := o.totalTime.getD r.TotalTime
    Error := o.error.getD r.Error
    ErrorType := o.errorType.getD r.ErrorType
    TargetName := o.targetName.getD r.TargetName }

/-- The JSON object `json.Marshal` produces for a `ClientInfo`: every field is written,
    except `disconnectedAt` (`omitempty`), which is left out when the pointer is nil. -/
def ClientInfo.toJson (c : ClientInfo) : JsonObject :=
  { JsonObject.empty with
    id := some c.ID
    name := some c.Name
    ipAddress := some c.IPAddress
    status := some c.Status
    connectedAt := some c.ConnectedAt
    disconnectedAt := c.DisconnectedAt.map some
    lastSeen := some c.LastSeen
    version := some c.Version
    osInfo := some c.OSInfo }

/-- The JSON object `json.Marshal` produces for a `NetworkRequest`: every field is written. -/
def NetworkRequest.toJson (r : NetworkRequest) : JsonObject :=
  { JsonObject.empty with
    id := some r.ID
    url := some r.URL
    method := some r.Method
    statusCode := some r.StatusCode
    startTime := some r.StartTime
    endTime := some r.EndTime
    dnsTime := some r.DNSTime
    tcpTime := some r.TCPTime
    tlsTime := some r.TLSTime
    requestTime := some r.RequestTime
    responseTime := some r.ResponseTime
    totalTime := some r.TotalTime
    error := some r.Error
    errorType := some r.ErrorType
    targetName := some r.TargetName }

/-- `shared.ServerConfig` (shared/server_types.go). -/
structure ServerConfig where
  MaxClients : Int
  HistoryDays : Int
  ListenAddress : String
  RefreshInterval : Int
  deriving DecidableEq, Repr

/-- The zero value `shared.ServerConfig{}`. -/
def ServerConfig.zero : ServerConfig :=
  { MaxClients := 0, HistoryDays := 0, ListenAddress := "", RefreshInterval := 0 }

/-- The JSON object `json.Marshal` produces for a `ServerConfig`. -/
def ServerConfig.toJson (c : ServerConfig) : JsonObject :=
  { JsonObject.empty with
    maxClients := some c.MaxClients
    historyDays := some c.HistoryDays
    listenAddress := some c.ListenAddress
    refreshInterval := some c.RefreshInterval }

/-- `json.Unmarshal(bytes, &config)` for the bytes of object `o`. -/
def JsonObject.decodeServerConfig (o : JsonObject) (c : ServerConfig) : ServerConfig :=
  { MaxClients := o.maxClients.getD c.MaxClients
    HistoryDays := o.historyDays.getD c.HistoryDays
    ListenAddress := o.listenAddress.getD c.ListenAddress
    RefreshInterval := o.refreshInterval.getD c.RefreshInterval }

/-- The dynamic value of an `interface{}` filled by `json.Unmarshal`: a JSON object, or
    anything else (null, boolean, number, string, array). -/
inductive JsonValue where
  | object (o : JsonObject)
  | other
  deriving DecidableEq, Repr

/-- `shared.ClientMessage`; the field `Type` is written `MsgType`. -/
structure ClientMessage where
  MsgType : String
  ClientID : String
  Timestamp : Time
  Data : JsonValue
  deriving DecidableEq, Repr

def TypeHeartbeat : String := "heartbeat"

def TypeNetworkRequest : String := "network_request"

def TypeClientConnect : String := "client_connect"

def TypeClientDisconnect : String := "client_disconnect"

/-- `shared.Target`. -/
structure Target where
  Name : String
  URL : String
  Interval : Int
  Enabled : Bool
  deriving DecidableEq, Repr

/-! ## Go maps -/

/-- A Go `map[K]V`: an association list whose keys are distinct. -/
def GoMap (α : Type) (β : Type) : Type := AList (fun _ : α => β)

/-- The map with no entry, `make(map[K]V)`. -/
def GoMap.empty {α β : Type} : GoMap α β := (∅ : AList (fun _ : α => β))

/-- The lookup `v, found := m[k]`. -/
def GoMap.lookup {α β : Type} [DecidableEq α] (k : α) (m : GoMap α β) : Option β :=
  AList.lookup k m

/-- The assignment `m[k] = v`. -/
def GoMap.insert {α β : Type} [DecidableEq α] (k : α) (v : β) (m : GoMap α β) : GoMap α β :=
  AList.insert k v m

/-- The deletion `delete(m, k)`. -/
def GoMap.erase {α β : Type} [DecidableEq α] (k : α) (m : GoMap α β) : GoMap α β :=
  AList.erase k m

/-- The entries of the map, in the order a `range` loop visits them. -/
def GoMap.toList {α β : Type} (m : GoMap α β) : List (α × β) :=
  (AList.entries m).map (fun e => (e.1, e.2))

/-- The keys of the map. -/
def GoMap.keys {α β : Type} (m : GoMap α β) : List α := m.toList.map Prod.fst

/-! ## Outcomes of calls that may not return -/

/-- How a call ends: it returns, it panics, or it waits forever. -/
inductive Outcome (α : Type) where
  | done (a : α)
  | panics
  | blocks
  deriving DecidableEq, Repr

/-- Sequencing: the continuation runs only when the first call returned. -/
def Outcome.andThen {α β : Type} (o : Outcome α) (f : α → Outcome β) : Outcome β :=
  match o with
  | .done a => f a
  | .panics => .panics
  | .blocks => .blocks

/-! ## The file system -/

/-- A cleaned absolute path: the names of its elements, from the root down. The path
    separator is `/`. -/
abbrev Path := List String

/-- The pieces of a string between its separators. -/
def splitSlash : List Char → List (List Char)
  | [] => [[]]
  | c :: cs =>
    if c = '/' then [] :: splitSlash cs
    else
      match splitSlash cs with
      | [] => [[c]]
      | piece :: pieces => (c :: piece) :: pieces

/-- Whether a string contains the path separator. -/
def hasSeparator (name : String) : Bool := name.toList.contains '/'

/-- One more element below a cleaned absolute path, cleaned again as `filepath.Clean` does:
    an empty element and `.` change nothing, `..` removes the last element if there is one,
    and any other element is appended. -/
def Path.push (p : Path) (elem : String) : Path :=
  if elem = "" ∨ elem = "." then p
  else if elem = ".." then p.dropLast
  else p ++ [elem]

/-- `filepath.Join(dir, name)` for a cleaned absolute `dir`: the elements of `name` are
    added one by one. -/
def Path.Join (dir : Path) (name : String) : Path :=
  ((splitSlash name.toList).map String.mk).foldl Path.push dir

/-- The name of `p` in directory `d`, when `p` lies directly in `d`. -/
def Path.nameIn (d p : Path) : Option String :=
  match p.getLast? with
  | some name => if p.dropLast = d then some name else none
  | none => none

/-! ## internal/server/storage.go -/

/-- The bytes of a file, as `json.Unmarshal` sees them: a JSON object that decodes without
    error into the record type read from that file, or anything else. -/
inductive FileContent where
  | json (o : JsonObject)
  | corrupt
  deriving DecidableEq, Repr

/-- A `sync.RWMutex`: the number of read locks held and whether the write lock is held. -/
structure RWMutex where
  readers : Nat
  writer : Bool
  deriving DecidableEq, Repr

/-- `RLock`: waits while the write lock is held. -/
def RWMutex.RLock (l : RWMutex) : Outcome RWMutex :=
  if l.writer then .blocks else .done { l with readers := l.readers + 1 }

/-- `RUnlock`, called by the holder of a read lock. -/
def RWMutex.RUnlock (l : RWMutex) : RWMutex := { l with readers := l.readers - 1 }

/-- `Lock`: waits while the write lock or any read lock is held, whoever holds it. -/
def RWMutex.Lock (l : RWMutex) : Outcome RWMutex :=
  if l.writer || decide (0 < l.readers) then .blocks else .done { l with writer := true }

/-- `Unlock`, called by the holder of the write lock. -/
def RWMutex.Unlock (l : RWMutex) : RWMutex := { l with writer := false }

/-- Whether no lock is held. -/
def RWMutex.free (l : RWMutex) : Bool := !l.writer && decide (l.readers = 0)

/-- A `Storage` with the file system it works on: the data directory, the directories
    that exist (the root always does), the files by path, and the lock. Names are taken
    to be within the limits of the file system (length, no NUL byte), timestamps to be in
    the range JSON can carry, and the disk and the permissions to allow every operation
    whose path is valid; no path is both a file and a directory. -/
structure Storage where
  dataDir : Path
  dirs : List Path
  files : GoMap Path FileContent
  mutex : RWMutex

/-- The field `clientsDir`: `filepath.Join(dataDir, "clients")`. -/
def Storage.clientsDir (s : Storage) : Path := s.dataDir.Join "clients"

/-- The field `requestsDir`: `filepath.Join(dataDir, "requests")`. -/
def Storage.requestsDir (s : Storage) : Path := s.dataDir.Join "requests"

/-- The path in the field `configFile`: `filepath.Join(dataDir, "config.json")`. -/
def Storage.configPath (s : Storage) : Path := s.dataDir.Join "config.json"

/-- Whether `p` is a directory. -/
def Storage.isDir (s : Storage) (p : Path) : Bool := decide (p = []) || decide (p ∈ s.dirs)

/-- Whether `p` is a file. -/
def Storage.isFile (s : Storage) (p : Path) : Bool := (s.files.lookup p).isSome

/-- Whether `os.Stat(p)` finds a file or a directory. -/
def Storage.pathExists (s : Storage) (p : Path) : Bool := s.isDir p || s.isFile p

/-- `os.MkdirAll(p, 0755)`: an error (`none`) when `p` or a path above it is a file;
    otherwise every directory down to `p` that is missing is made. -/
def Storage.MkdirAll (s : Storage) (p : Path) : Option Storage :=
  if p.inits.any s.isFile then none
  else some { s with dirs := s.dirs ++ p.inits.filter (fun q => !s.isDir q) }

/-- `os.WriteFile(p, data, 0644)`: the file is created or replaced when the directory it
    lies in exists and `p` is not itself a directory; otherwise an error (`none`). -/
def Storage.WriteFile (s : Storage) (p : Path) (content : FileContent) : Option Storage :=
  if s.isDir p.dropLast && !s.isDir p then some { s with files := s.files.insert p content }
  else none

/-- `os.ReadFile(p)`: the content of the file `p`; an error (`none`) when `p` is a
    directory or does not exist. -/
def Storage.ReadFile (s : Storage) (p : Path) : Option FileContent :=
  if s.isDir p then none else s.files.lookup p

/-- The files `os.ReadDir(d)` lists (entries that are not directories): name and content.
    The order is the order of the underlying map; no statement below depends on it. -/
def Storage.filesIn (s : Storage) (d : Path) : List (String × FileContent) :=
  s.files.toList.filterMap (fun e => (Path.nameIn d e.1).map (fun name => (name, e.2)))

/-- The directories `os.ReadDir(d)` lists, by path. -/
def Storage.dirsIn (s : Storage) (d : Path) : List Path :=
  s.dirs.filter (fun p => (Path.nameIn d p).isSome)

/-- `NewStorage(dataDir)` on a file system that has no file yet: the data directory and
    its two subdirectories are made. -/
def NewStorage (dataDir : Path) : Storage :=
  { dataDir := dataDir
    dirs := dataDir.inits.tail ++ [dataDir.Join "clients", dataDir.Join "requests"]
    files := GoMap.empty
    mutex := { readers := 0, writer := false } }

/-- The path `SaveClientInfo` writes and `GetClientInfo` reads for a client id. -/
def Storage.clientFile (s : Storage) (clientID : String) : Path :=
  s.clientsDir.Join (clientID ++ ".json")

/-- `Storage.SaveClientInfo`, called with the lock free: writes the bytes of
    `json.MarshalIndent(client)` to `filepath.Join(clientsDir, client.ID+".json")`. The
    result is the store after the call and whether the returned error is nil. The lock is
    taken and released around the write. -/
def Storage.SaveClientInfo (s : Storage) (client : ClientInfo) : Storage × Bool :=
  match s.WriteFile (s.clientFile client.ID) (.json client.toJson) with
  | some s1 => (s1, true)
  | none => (s, false)

/-- `Storage.GetClientInfo`, called with the lock free: reads
    `filepath.Join(clientsDir, clientID+".json")` and decodes it into a zero `ClientInfo`;
    an error (`none`) when the file cannot be read or does not decode. -/
def Storage.GetClientInfo (s : Storage) (clientID : String) : Option ClientInfo :=
  match s.ReadFile (s.clientFile clientID) with
  | some (.json o) => some (o.decodeClientInfo ClientInfo.zero)
  | some .corrupt => none
  | none => none

/-- `filepath.Ext(name) == ".json"`. -/
def hasJsonExt (name : String) : Bool := ".json".toList.isSuffixOf name.toList

/-- `Storage.GetAllClientInfo`: every file of `clientsDir` with extension `.json` that
    decodes. When `clientsDir` cannot be listed the result is nil, with an error. -/
def Storage.GetAllClientInfo (s : Storage) : List ClientInfo :=
  if s.isDir s.clientsDir then
    (s.filesIn s.clientsDir).filterMap (fun e =>
      if hasJsonExt e.1 then
        match e.2 with
        | .json o => some (o.decodeClientInfo ClientInfo.zero)
        | .corrupt => none
      else none)
  else []

/-- The path `SaveNetworkRequest` writes for a client id and a request: the client
    directory below `requestsDir`, the date directory below it, the file below that, each
    made with `filepath.Join`. -/
def Storage.requestFile (s : Storage) (clientID : String) (request : NetworkRequest) : Path :=
  ((s.requestsDir.Join clientID).Join request.StartTime.Format).Join (request.ID ++ ".json")

/-- `Storage.SaveNetworkRequest`, called with the lock free: makes the client directory and
    the date directory and writes the bytes of `json.MarshalIndent(request)` to the request
    file; it returns at the first error. The result is the store after the call and
    whether the returned error is nil. -/
def Storage.SaveNetworkRequest (s : Storage) (clientID : String) (request : NetworkRequest) :
    Storage × Bool :=
  let clientDir := s.requestsDir.Join clientID
  match s.MkdirAll clientDir with
  | none => (s, false)
  | some s1 =>
    let dateDir := clientDir.Join request.StartTime.Format
    match s1.MkdirAll dateDir with
    | none => (s1, false)
    | some s2 =>
      let filename := dateDir.Join (request.ID ++ ".json")
      match s2.WriteFile filename (.json request.toJson) with
      | none => (s2, false)
      | some s3 => (s3, true)

/-- The date directories `GetNetworkRequests` visits for a client: the directories that
    `os.ReadDir(clientDir)` lists. There is none when `clientDir` does not exist, and none,
    with an error, when it is a file. The order is the order in which they were made; no
    statement below depends on it. -/
def Storage.dateDirs (s : Storage) (clientID : String) : List Path :=
  if s.isDir (s.requestsDir.Join clientID) then s.dirsIn (s.requestsDir.Join clientID) else []

/-- The files `os.ReadDir` lists in one date directory: name and content. -/
def Storage.requestsIn (s : Storage) (dateDir : Path) : List (String × FileContent) :=
  s.filesIn dateDir

/-- The inner loop of `GetNetworkRequests` over the files of one date directory:
    `allRequests` is appended to, and the loop is left once `len(allRequests) >= limit`
    holds after an append. -/
def scanRequestFiles (limit : Int) :
    List (String × FileContent) → List NetworkRequest → List NetworkRequest
  | [], allRequests => allRequests
  | (name, content) :: files, allRequests =>
    if !hasJsonExt name then scanRequestFiles limit files allRequests
    else
      match content with
      | .corrupt => scanRequestFiles limit files allRequests
      | .json o =>
        let appended := allRequests ++ [o.decodeNetworkRequest NetworkRequest.zero]
        if (appended.length : Int) ≥ limit then appended
        else scanRequestFiles limit files appended

/-- The outer loop of `GetNetworkRequests` over the date directories: after each directory
    the loop is left if `len(allRequests) >= limit`. -/
def scanDateDirs (limit : Int) :
    List (List (String × FileContent)) → List NetworkRequest → List NetworkRequest
  | [], allRequests => allRequests
  | files :: dirs, allRequests =>
    let scanned := scanRequestFiles limit files allRequests
    if (scanned.length : Int) ≥ limit then scanned else scanDateDirs limit dirs scanned

/-- `Storage.GetNetworkRequests`, called with the lock free: the slice it returns. -/
def Storage.GetNetworkRequests (s : Storage) (clientID : String) (limit : Int) :
    List NetworkRequest :=
  scanDateDirs limit ((s.dateDirs clientID).map s.requestsIn) []

/-- The request stored in the file `path`, decoded; `none` when there is no file there or
    it does not decode. -/
def Storage.requestAt (s : Storage) (path : Path) : Option NetworkRequest :=
  match s.ReadFile path with
  | some (.json o) => some (o.decodeNetworkRequest NetworkRequest.zero)
  | some .corrupt => none
  | none => none

/-- The content of the configuration file, if it can be read. -/
def Storage.configFile (s : Storage) : Option FileContent := s.ReadFile s.configPath

/-- The defaults `GetServerConfig` creates when there is no configuration file. -/
def defaultServerConfig : ServerConfig :=
  { MaxClients := 100, HistoryDays := 30, ListenAddress := ":8080", RefreshInterval := 60 }

/-- `Storage.SaveServerConfig`: takes the write lock, writes the bytes of
    `json.MarshalIndent(config)` to the configuration file, releases the lock. The result
    is the store after the call and whether the returned error is nil. -/
def Storage.SaveServerConfig (s : Storage) (config : ServerConfig) : Outcome (Storage × Bool) :=
  s.mutex.Lock.andThen fun locked =>
    match ({ s with mutex := locked }).WriteFile s.configPath (.json config.toJson) with
    | some s1 => .done ({ s1 with mutex := s1.mutex.Unlock }, true)
    | none => .done ({ s with mutex := locked.Unlock }, false)

/-- `Storage.GetServerConfig`: takes a read lock, released by the deferred `RUnlock` when
    the method returns. When `os.Stat` finds nothing at the configuration path it calls
    `SaveServerConfig` with the defaults while still holding the read lock. Otherwise it
    reads the file and decodes it into a zero `ServerConfig`; on a read or decode error it
    returns `ServerConfig{}` and the error; an error of `SaveServerConfig` is returned
    with the defaults. -/
def Storage.GetServerConfig (s : Storage) : Outcome (Storage × Except String ServerConfig) :=
  s.mutex.RLock.andThen fun rlocked =>
    let s1 := { s with mutex := rlocked }
    if !s1.pathExists s1.configPath then
      (s1.SaveServerConfig defaultServerConfig).andThen fun r =>
        if r.2 then .done ({ r.1 with mutex := r.1.mutex.RUnlock }, .ok defaultServerConfig)
        else .done ({ r.1 with mutex := r.1.mutex.RUnlock }, .error "write config.json")
    else
      match s1.ReadFile s1.configPath with
      | none => .done ({ s1 with mutex := s1.mutex.RUnlock }, .error "read config.json")
      | some .corrupt =>
        .done ({ s1 with mutex := s1.mutex.RUnlock }, .error "json: cannot unmarshal")
      | some (.json o) =>
        .done ({ s1 with mutex := s1.mutex.RUnlock }, .ok (o.decodeServerConfig ServerConfig.zero))

/-- A call of one of the methods of `Storage`, with its arguments. -/
inductive StorageCall where
  | SaveClientInfo (client : ClientInfo)
  | GetClientInfo (clientID : String)
  | GetAllClientInfo
  | SaveNetworkRequest (clientID : String) (request : NetworkRequest)
  | GetNetworkRequests (clientID : String) (limit : Int)
  | GetServerConfig
  | SaveServerConfig (config : ServerConfig)
  deriving DecidableEq, Repr

/-- `s.mutex.Lock(); defer s.mutex.Unlock()` around a body that writes files and calls no
    method of the store. -/
def Storage.withLock (s : Storage) (body : Storage → Storage) : Outcome Storage :=
  s.mutex.Lock.andThen fun locked =>
    let s1 := body { s with mutex := locked }
    .done { s1 with mutex := s1.mutex.Unlock }

/-- `s.mutex.RLock(); defer s.mutex.RUnlock()` around a body that only reads files and
    calls no method of the store. -/
def Storage.withRLock (s : Storage) : Outcome Storage :=
  s.mutex.RLock.andThen fun rlocked => .done { s with mutex := rlocked.RUnlock }

/-- The store after a method call, with the lock operations of each method as in the
    source: `SaveClientInfo` and `SaveNetworkRequest` take the write lock around their
    body, `GetClientInfo`, `GetAllClientInfo` and `GetNetworkRequests` a read lock, and
    `GetServerConfig` and `SaveServerConfig` are the functions above. -/
def Storage.call (s : Storage) : StorageCall → Outcome Storage
  | .SaveClientInfo client => s.withLock fun s1 => (s1.SaveClientInfo client).1
  | .GetClientInfo _ => s.withRLock
  | .GetAllClientInfo => s.withRLock
  | .SaveNetworkRequest clientID request =>
    s.withLock fun s1 => (s1.SaveNetworkRequest clientID request).1
  | .GetNetworkRequests _ _ => s.withRLock
  | .GetServerConfig => s.GetServerConfig.andThen fun r => .done r.1
  | .SaveServerConfig config => (s.SaveServerConfig config).andThen fun r => .done r.1

/-! ## internal/server/clients.go -/

/-- A `*ClientConnection`. -/
abbrev ConnId := Nat

/-- State of a connection's `receiveLoop` goroutine. `defer c.clientMgr.RemoveClient(c.clientID)`
    evaluates its argument when the `defer` statement runs, at loop entry; the running
    loop carries that value. -/
inductive LoopState where
  | notStarted
  | running (deferredID : String)
  | exited
  deriving DecidableEq, Repr

/-- `ClientConnection`: `stopChanClosed` records `close(c.stopChan)`, `wsClosed` records
    `c.ws.Close()`; the two goroutines counted by `wg` are `sendLoopRunning` and
    `receiveLoopState`. -/
structure ClientConnection where
  clientID : String
  clientInfo : ClientInfo
  stopChanClosed : Bool
  wsClosed : Bool
  sendLoopRunning : Bool
  receiveLoopState : LoopState
  deriving DecidableEq, Repr

/-- `NewClientConnection`: `clientID` and `clientInfo` keep their zero values. -/
def NewClientConnection : ClientConnection :=
  { clientID := "", clientInfo := ClientInfo.zero, stopChanClosed := false, wsClosed := false,
    sendLoopRunning := false, receiveLoopState := .notStarted }

/-- `ClientConnection.Start`: launches both loops; the receive loop registers its deferred
    `RemoveClient(c.clientID)` with the current `clientID`. -/
def ClientConnection.Start (c : ClientConnection) : ClientConnection :=
  { c with sendLoopRunning := true, receiveLoopState := .running c.clientID }

/-- `ClientConnection.Stop`, as called by `AddClient`, its only caller, which holds the
    registry lock `m.mutex` from its first statement to its deferred `Unlock`.
    `close(c.stopChan)` panics on a channel that is already closed. `c.wg.Wait()` returns
    once `sendLoop` and `receiveLoop` have both run their deferred `wg.Done()`. `sendLoop`
    returns on the closed stop channel. The deferred calls of `receiveLoop` run in reverse
    order: first `RemoveClient`, which begins with `m.mutex.Lock()`, then `wg.Done()`. While
    `AddClient` waits inside `Stop` the lock is not released, so a receive loop that has not
    exited yet never reaches `wg.Done()` and `Wait` never returns. -/
def ClientConnection.Stop (c : ClientConnection) : Outcome ClientConnection :=
  if c.stopChanClosed then .panics
  else
    match c.receiveLoopState with
    | .running _ => .blocks
    | _ => .done { c with stopChanClosed := true, wsClosed := true, sendLoopRunning := false }

/-- `ClientManager`: the `clients` map, the storage, and the heap `conns` the map's
    pointers refer to. -/
structure ClientManager where
  clients : GoMap String ConnId
  storage : Storage
  conns : ConnId → ClientConnection

/-- `NewClientManager(storage)`; no connection has been accepted yet. -/
def NewClientManager (storage : Storage) : ClientManager :=
  { clients := GoMap.empty, storage := storage, conns := fun _ => NewClientConnection }

/-- `ClientManager.AddClient`, under `m.mutex`: stops the existing connection of `clientID`,
    if any, and once `Stop` has returned stores `conn` under `clientID`. -/
def ClientManager.AddClient (m : ClientManager) (clientID : String) (conn : ConnId) :
    Outcome ClientManager :=
  match m.clients.lookup clientID with
  | some existing =>
    (m.conns existing).Stop.andThen fun stopped =>
      .done { m with
        conns := Function.update m.conns existing stopped
        clients := m.clients.insert clientID conn }
  | none => .done { m with clients := m.clients.insert clientID conn }

/-- `ClientManager.RemoveClient`. -/
def ClientManager.RemoveClient (m : ClientManager) (clientID : String) : ClientManager :=
  { m with clients := m.clients.erase clientID }

/-- `ClientManager.GetClient`: the live connection's info, else the stored record. -/
def ClientManager.GetClient (m : ClientManager) (clientID : String) : ClientInfo × Bool :=
  match m.clients.lookup clientID with
  | some conn => ((m.conns conn).clientInfo, true)
  | none =>
    match m.storage.GetClientInfo clientID with
    | none => (ClientInfo.zero, false)
    | some client => (client, true)

/-- The `clients` slice `GetClients` builds first: the info of every registered connection. -/
def ClientManager.onlineClients (m : ClientManager) : List ClientInfo :=
  m.clients.toList.map (fun e => (m.conns e.2).clientInfo)

/-- `ClientManager.GetClients`: the registered connections' infos, then every stored record
    whose id is not the id of one of those infos. -/
def ClientManager.GetClients (m : ClientManager) : List ClientInfo :=
  let clients := m.onlineClients
  clients ++ m.storage.GetAllClientInfo.filter
    (fun client => !(clients.any (fun online => decide (online.ID = client.ID))))

/-- Assignment through the pointer `c`. -/
def ClientManager.setConn (m : ClientManager) (c : ConnId) (v : ClientConnection) :
    ClientManager :=
  { m with conns := Function.update m.conns c v }

/-- `handleClientMessage`; `now` is the reading of `time.Now()`. -/
def ClientConnection.handleClientMessage (m : ClientManager) (c : ConnId) (msg : ClientMessage)
    (now : Time) : Outcome ClientManager :=
  if msg.MsgType = TypeClientConnect then
    match msg.Data with
    | .object o =>
      let info := { o.decodeClientInfo (m.conns c).clientInfo with
                    Status := StatusOnline, LastSeen := now }
      let m1 := m.setConn c { m.conns c with clientInfo := info }
      (m1.AddClient (m1.conns c).clientID c).andThen fun m2 =>
        .done { m2 with storage := (m2.storage.SaveClientInfo (m2.conns c).clientInfo).1 }
    | .other => .done m
  else if msg.MsgType = TypeHeartbeat then
    match msg.Data with
    | .object o =>
      let info := { o.decodeClientInfo (m.conns c).clientInfo with
                    Status := StatusOnline, LastSeen := now }
      let m1 := m.setConn c { m.conns c with clientInfo := info }
      .done { m1 with storage := (m1.storage.SaveClientInfo info).1 }
    | .other => .done m
  else if msg.MsgType = TypeClientDisconnect then
    match msg.Data with
    | .object o =>
      let info := { o.decodeClientInfo (m.conns c).clientInfo with Status := StatusOffline }
      let m1 := m.setConn c { m.conns c with clientInfo := info }
      let m2 := { m1 with storage := (m1.storage.SaveClientInfo info).1 }
      .done (m2.RemoveClient (m2.conns c).clientID)
    | .other => .done m
  else if msg.MsgType = TypeNetworkRequest then
    match msg.Data with
    | .object o =>
      let request := o.decodeNetworkRequest NetworkRequest.zero
      .done { m with storage := (m.storage.SaveNetworkRequest (m.conns c).clientID request).1 }
    | .other => .done m
  else .done m

/-- What one `c.ws.ReadMessage()` followed by `json.Unmarshal` yields: a transport error,
    bytes that are not a `ClientMessage`, or a message. -/
inductive ReadResult where
  | failure
  | garbage
  | message (msg : ClientMessage)
  deriving DecidableEq, Repr

/-- The receive loop returns: the deferred `RemoveClient` runs with the id captured at loop
    entry, then `wg.Done()`. -/
def ClientConnection.receiveLoopExit (m : ClientManager) (c : ConnId) (deferredID : String) :
    ClientManager :=
  (m.RemoveClient deferredID).setConn c { m.conns c with receiveLoopState := .exited }

/-- The step of `receiveLoop` that sets the client id if it is not set yet. -/
def ClientConnection.setClientID (m : ClientManager) (c : ConnId) (msg : ClientMessage) :
    ClientManager :=
  if (m.conns c).clientID = "" then m.setConn c { m.conns c with clientID := msg.ClientID }
  else m

/-- One iteration of `receiveLoop` of connection `c`, for the given read result. A loop
    that is not running does nothing. -/
def ClientConnection.receiveLoop (m : ClientManager) (c : ConnId) (r : ReadResult)
    (now : Time) : Outcome ClientManager :=
  match (m.conns c).receiveLoopState with
  | .running deferredID =>
    if (m.conns c).stopChanClosed then .done (ClientConnection.receiveLoopExit m c deferredID)
    else
      match r with
      | .failure => .done (ClientConnection.receiveLoopExit m c deferredID)
      | .garbage => .done m
      | .message msg =>
        ClientConnection.handleClientMessage (ClientConnection.setClientID m c msg) c msg now
  | _ => .done m

/-- `API.handleWebSocket`: a new connection at the fresh pointer `c` is created and started.
    A pointer already in use is not allocated again. -/
def API.handleWebSocket (m : ClientManager) (c : ConnId) : ClientManager :=
  match (m.conns c).receiveLoopState with
  | .notStarted => m.setConn c NewClientConnection.Start
  | _ => m

/-- What can happen to the hub when no other goroutine runs in between: a connection is
    accepted, or a receive loop runs one whole iteration. -/
inductive HubEvent where
  | accept (c : ConnId)
  | receive (c : ConnId) (r : ReadResult) (now : Time)
  deriving DecidableEq, Repr

/-- The hub after one event. -/
def hubStep (m : ClientManager) : HubEvent → Outcome ClientManager
  | .accept c => .done (API.handleWebSocket m c)
  | .receive c r now => ClientConnection.receiveLoop m c r now

/-- The hub after a sequence of events, when each of them returned. -/
def hubRun (m : ClientManager) : List HubEvent → Outcome ClientManager
  | [] => .done m
  | e :: es => (hubStep m e).andThen fun m1 => hubRun m1 es

/-- The data directory `NewServer` passes to `NewStorage`, for the home directory
    `/home/hub`. -/
def serverDataDir : Path := ["home", "hub", ".config", "NetworkMonitor", "server"]

/-- The hub at start-up: empty registry, empty store. -/
def hubInit : ClientManager := NewClientManager (NewStorage serverDataDir)

/-- A statement of `handleClientMessage`, with the values it uses. The handler runs
    without holding a lock; other goroutines run between its statements. -/
inductive Stmt where
  | unmarshalInfo (o : JsonObject)
  | setStatus (status : ClientStatus)
  | setLastSeen (now : Time)
  | addClient
  | saveClientInfo
  | removeClient
  | saveNetworkRequest (request : NetworkRequest)
  deriving DecidableEq, Repr

/-- The statements `handleClientMessage` runs for a message, in source order; `now` is the
    reading of `time.Now()`. -/
def handlerBody (msg : ClientMessage) (now : Time) : List Stmt :=
  match msg.Data with
  | .other => []
  | .object o =>
    if msg.MsgType = TypeClientConnect then
      [.unmarshalInfo o, .setStatus StatusOnline, .setLastSeen now, .addClient, .saveClientInfo]
    else if msg.MsgType = TypeHeartbeat then
      [.unmarshalInfo o, .setStatus StatusOnline, .setLastSeen now, .saveClientInfo]
    else if msg.MsgType = TypeClientDisconnect then
      [.unmarshalInfo o, .setStatus StatusOffline, .saveClientInfo, .removeClient]
    else if msg.MsgType = TypeNetworkRequest then
      [.saveNetworkRequest (o.decodeNetworkRequest NetworkRequest.zero)]
    else []

/-- One statement of the handler of connection `c`. -/
def execStmt (m : ClientManager) (c : ConnId) : Stmt → Outcome ClientManager
  | .unmarshalInfo o =>
    .done (m.setConn c { m.conns c with clientInfo := o.decodeClientInfo (m.conns c).clientInfo })
  | .setStatus status =>
    .done (m.setConn c
      { m.conns c with clientInfo := { (m.conns c).clientInfo with Status := status } })
  | .setLastSeen now =>
    .done (m.setConn c
      { m.conns c with clientInfo := { (m.conns c).clientInfo with LastSeen := now } })
  | .addClient => m.AddClient (m.conns c).clientID c
  | .saveClientInfo =>
    .done { m with storage := (m.storage.SaveClientInfo (m.conns c).clientInfo).1 }
  | .removeClient => .done (m.RemoveClient (m.conns c).clientID)
  | .saveNetworkRequest request =>
    .done { m with storage := (m.storage.SaveNetworkRequest (m.conns c).clientID request).1 }

/-- Statements of the handler of connection `c` run one after the other. -/
def runStmts (m : ClientManager) (c : ConnId) : List Stmt → Outcome ClientManager
  | [] => .done m
  | stmt :: rest => (execStmt m c stmt).andThen fun m1 => runStmts m1 c rest

/-- The hub with its session goroutines: `pending c` is what the receive loop of
    connection `c` has left to run of the handler of the message it has read; it is empty
    while the loop waits for a message. -/
structure HubState where
  hub : ClientManager
  pending : ConnId → List Stmt

/-- What one goroutine of the hub does next: a connection is accepted; the receive loop of
    a connection that is not handling a message runs to the point where it has read one
    and set the client id; or the receive loop of a connection runs the next statement of
    its handler. -/
inductive Move where
  | accept (c : ConnId)
  | read (c : ConnId) (r : ReadResult) (now : Time)
  | exec (c : ConnId)
  deriving DecidableEq, Repr

/-- The hub after one move. A move that is not possible changes nothing. -/
def hubMove (h : HubState) : Move → Outcome HubState
  | .accept c => .done { h with hub := API.handleWebSocket h.hub c }
  | .read c r now =>
    match h.pending c, (h.hub.conns c).receiveLoopState with
    | [], .running deferredID =>
      if (h.hub.conns c).stopChanClosed then
        .done { h with hub := ClientConnection.receiveLoopExit h.hub c deferredID }
      else
        match r with
        | .failure => .done { h with hub := ClientConnection.receiveLoopExit h.hub c deferredID }
        | .garbage => .done h
        | .message msg =>
          .done { hub := ClientConnection.setClientID h.hub c msg
                  pending := Function.update h.pending c (handlerBody msg now) }
    | _, _ => .done h
  | .exec c =>
    match h.pending c with
    | [] => .done h
    | stmt :: rest =>
      (execStmt h.hub c stmt).andThen fun m1 =>
        .done { hub := m1, pending := Function.update h.pending c rest }

/-- The hub at start-up, with no session. -/
def hubStart : HubState := { hub := hubInit, pending := fun _ => [] }

/-- States the hub reaches from start-up by moves that return, in any interleaving of its
    goroutines. A statement that never returns (`AddClient` waiting in `Stop`) keeps the
    lock of the registry, so that the registry is not read again once it has begun. -/
inductive Reachable : HubState → Prop where
  | init : Reachable hubStart
  | step {h h1 : HubState} (mv : Move) :
      Reachable h → hubMove h mv = .done h1 → Reachable h1

/-- The status a session's info has once the statements `stmts` have run, when it is
    `status` now. -/
def statusAfter : List Stmt → ClientStatus → ClientStatus
  | [], status => status
  | .unmarshalInfo o :: rest, status => statusAfter rest (o.status.getD status)
  | .setStatus status :: rest, _ => statusAfter rest status
  | _ :: rest, status => statusAfter rest status

/-- Invariant of the hub. A receive loop that is running was started with the empty id in
    its deferred `RemoveClient` and its stop channel is open; only a running loop is
    handling a message; a handler that has `AddClient` ahead leaves the status online. A
    registered connection has been started, its stop channel is open, it is not stored
    under the empty id once its loop has exited, and one stored under a non-empty id has
    that id as its `clientID`, and its handler is about to unregister it or leaves its
    status online. -/
def HubInv (h : HubState) : Prop :=
  (∀ c d, (h.hub.conns c).receiveLoopState = .running d →
    d = "" ∧ (h.hub.conns c).stopChanClosed = false) ∧
  (∀ c, h.pending c ≠ [] → ∃ d, (h.hub.conns c).receiveLoopState = .running d) ∧
  (∀ c, Stmt.addClient ∈ h.pending c →
    statusAfter (h.pending c) (h.hub.conns c).clientInfo.Status = StatusOnline) ∧
  (∀ k c, h.hub.clients.lookup k = some c →
    (h.hub.conns c).receiveLoopState ≠ .notStarted ∧
    (h.hub.conns c).stopChanClosed = false ∧
    ((h.hub.conns c).receiveLoopState = .exited → k ≠ "") ∧
    (k ≠ "" → (h.hub.conns c).clientID = k ∧
      (Stmt.removeClient ∈ h.pending c ∨
        statusAfter (h.pending c) (h.hub.conns c).clientInfo.Status = StatusOnline)))

/-! ## internal/client/connection.go: the reconnect loop of `ManageConnection` -/

/-- A `time.Duration`: an `int64` count of nanoseconds. -/
abbrev Duration := Int

/-- The value of an integer as an `int64` (two's complement wrap-around). -/
def wrapInt64 (x : Int) : Int := (x + 2 ^ 63) % 2 ^ 64 - 2 ^ 63

def Second : Duration := 1000000000

def Minute : Duration := 60 * Second

/-- What the reconnect loop does, in order: `time.Sleep(d)`, `c.Disconnect()`, and
    `c.Connect()` in iteration `attempt` returning nil (`ok`) or an error. -/
inductive ReconnectEvent where
  | sleep (d : Duration)
  | disconnect
  | connect (attempt : Nat) (ok : Bool)
  deriving DecidableEq, Repr

/-- `backoff *= 2; if backoff > maxBackoff { backoff = maxBackoff }`. -/
def nextBackoff (backoff : Duration) : Duration :=
  let doubled := wrapInt64 (backoff * 2)
  if doubled > Minute then Minute else doubled

/-- The loop `for i := 0; i < 10; i++` of `ManageConnection`, from iteration `i` with
    `remaining = 10 - i` iterations left; `dial i` tells whether `c.Connect()` returns nil in
    iteration `i`. -/
def retryLoop (dial : Nat → Bool) : Nat → Nat → Duration → List ReconnectEvent
  | 0, _, _ => []
  | remaining + 1, i, backoff =>
    if dial i then [.connect i true]
    else .connect i false :: .sleep backoff :: retryLoop dial remaining (i + 1) (nextBackoff backoff)

/-- One reconnect episode of `ManageConnection`, the body of `case <-c.reconnectChan`. -/
def reconnectEpisode (dial : Nat → Bool) : List ReconnectEvent :=
  .sleep (5 * Second) :: .disconnect :: retryLoop dial 10 0 Second

/-- The durations slept, in order. -/
def sleeps : List ReconnectEvent → List Duration
  | [] => []
  | .sleep d :: es => d :: sleeps es
  | _ :: es => sleeps es

/-- The number of `c.Connect()` calls. -/
def connectAttempts : List ReconnectEvent → Nat
  | [] => 0
  | .connect _ _ :: es => connectAttempts es + 1
  | _ :: es => connectAttempts es

/-- The backoff waits of an episode: what the retry loop sleeps after failed attempts. -/
def backoffWaits (dial : Nat → Bool) : List Duration := sleeps (retryLoop dial 10 0 Second)

/-! ## internal/client/connection.go: the connection and its goroutines -/

/-- What happens on the agent's transports, in order: a message is written to transport
    `ws`, or transport `ws` is closed. -/
inductive WireEvent where
  | wrote (ws : Nat) (msg : ClientMessage)
  | closed (ws : Nat)
  deriving DecidableEq, Repr

/-- `Connection`. `ws` names the transport `c.ws` points to (the number of successful
    dials so far); `sendChan` is the content of the buffered channel, oldest first;
    `stopChanClosed` records `close(c.stopChan)`; `reconnectChan` tells whether the
    one-slot channel holds a signal; `sendLoops` and `receiveLoops` count the goroutines of
    each kind that have been started and have not returned; `wire` is the history of the
    transports. -/
structure Connection where
  clientInfo : ClientInfo
  ws : Nat
  sendChan : List ClientMessage
  stopChanClosed : Bool
  reconnectChan : Bool
  connected : Bool
  sendLoops : Nat
  receiveLoops : Nat
  wire : List WireEvent
  deriving DecidableEq, Repr

/-- The capacity of `sendChan`: `make(chan shared.ClientMessage, 100)`. -/
def sendChanCap : Nat := 100

/-- `NewConnection`; `clientID` is the id derived from the host name and `osInfo` the
    `GOOS/GOARCH` string. -/
def NewConnection (clientID clientName osInfo : String) : Connection :=
  { clientInfo :=
      { ClientInfo.zero with
        ID := clientID, Name := clientName, Status := StatusOffline, Version := "1.0.0",
        OSInfo := osInfo }
    ws := 0, sendChan := [], stopChanClosed := false, reconnectChan := false,
    connected := false, sendLoops := 0, receiveLoops := 0, wire := [] }

/-- `Connection.SendMessage`: the `select` with a `default` case sends if the channel has
    room and otherwise drops the message (and prints a warning). -/
def Connection.SendMessage (c : Connection) (msgType : String) (data : JsonValue) (now : Time) :
    Connection :=
  let msg : ClientMessage :=
    { MsgType := msgType, ClientID := c.clientInfo.ID, Timestamp := now, Data := data }
  if c.sendChan.length < sendChanCap then { c with sendChan := c.sendChan ++ [msg] } else c

/-- `Connection.triggerReconnect`: marks the connection as not connected and puts a signal
    into `reconnectChan` unless one is pending. -/
def Connection.triggerReconnect (c : Connection) : Connection :=
  { c with connected := false, reconnectChan := true }

/-- `Connection.Connect`; `dialOk` tells whether the URL parses and the dial succeeds. The
    result says whether the returned error is nil. -/
def Connection.Connect (c : Connection) (dialOk : Bool) (now : Time) : Connection × Bool :=
  if c.connected then (c, true)
  else if !dialOk then (c, false)
  else
    let info := { c.clientInfo with Status := StatusOnline, ConnectedAt := now, LastSeen := now }
    let c1 : Connection :=
      { c with
        ws := c.ws + 1, connected := true, clientInfo := info
        sendLoops := c.sendLoops + 1, receiveLoops := c.receiveLoops + 1 }
    (c1.SendMessage TypeClientConnect (.object info.toJson) now, true)

/-- `Connection.Disconnect`. It holds `c.mutex` from its first statement to its return.
    After closing the stop channel and the transport it waits in `c.wg.Wait()` for every
    loop that is alive. `loopsSeeStop` tells whether each of them next runs its `select` and
    takes the `stopChan` case; otherwise some loop next needs `c.mutex` (a sender that has
    received a message, a receiver whose read fails on the closed transport and calls
    `triggerReconnect`), which is not released while `Disconnect` waits. -/
def Connection.Disconnect (c : Connection) (now : Time) (loopsSeeStop : Bool) :
    Outcome Connection :=
  if !c.connected then .done c
  else
    let info := { c.clientInfo with DisconnectedAt := some now, Status := StatusOffline }
    let c1 := ({ c with clientInfo := info }).SendMessage TypeClientDisconnect
      (.object info.toJson) now
    if c1.stopChanClosed then .panics
    else
      let c2 : Connection :=
        { c1 with stopChanClosed := true, wire := c1.wire ++ [.closed c1.ws], connected := false }
      if (c2.sendLoops = 0 ∧ c2.receiveLoops = 0) ∨ loopsSeeStop = true then
        .done { c2 with sendLoops := 0, receiveLoops := 0, stopChanClosed := false, sendChan := [] }
      else .blocks

/-- The `select` case one iteration of `sendLoop` takes: the stop channel, a message from
    `sendChan` (written successfully or not), or a heartbeat tick. -/
inductive SendLoopCase where
  | stop
  | message (writeOk : Bool)
  | heartbeat (writeOk : Bool) (now : Time)
  deriving DecidableEq, Repr

/-- One iteration of one `sendLoop` goroutine. A case that is not ready (no goroutine, no
    message, stop channel open) changes nothing. -/
def Connection.sendLoop (c : Connection) : SendLoopCase → Connection
  | .stop =>
    if 0 < c.sendLoops ∧ c.stopChanClosed = true then { c with sendLoops := c.sendLoops - 1 }
    else c
  | .message writeOk =>
    if c.sendLoops = 0 then c
    else
      match c.sendChan with
      | [] => c
      | msg :: rest =>
        let c1 := { c with sendChan := rest }
        if !c1.connected then c1
        else if writeOk then { c1 with wire := c1.wire ++ [.wrote c1.ws msg] }
        else { c1.triggerReconnect with sendLoops := c1.sendLoops - 1 }
  | .heartbeat writeOk now =>
    if c.sendLoops = 0 then c
    else if !c.connected then c
    else
      let info := { c.clientInfo with LastSeen := now }
      let c1 := { c with clientInfo := info }
      let heartbeat : ClientMessage :=
        { MsgType := TypeHeartbeat, ClientID := info.ID, Timestamp := now,
          Data := .object info.toJson }
      if writeOk then { c1 with wire := c1.wire ++ [.wrote c1.ws heartbeat] }
      else { c1.triggerReconnect with sendLoops := c1.sendLoops - 1 }

/-- What one iteration of `receiveLoop` does: it takes the `stopChan` case, finds the
    connection not connected and sleeps, or a read returns (with a message or an error). -/
inductive ReceiveLoopCase where
  | stop
  | idle
  | read (ok : Bool)
  deriving DecidableEq, Repr

/-- One iteration of one `receiveLoop` goroutine. `handleServerMessage` only prints. -/
def Connection.receiveLoop (c : Connection) : ReceiveLoopCase → Connection
  | .stop =>
    if 0 < c.receiveLoops ∧ c.stopChanClosed = true then
      { c with receiveLoops := c.receiveLoops - 1 }
    else c
  | .idle => c
  | .read ok =>
    if c.receiveLoops = 0 then c
    else if ok then c
    else { c.triggerReconnect with receiveLoops := c.receiveLoops - 1 }

/-- What can happen to the agent's connection. `initialConnect` is the first statement of
    `ManageConnection` (`Connect`, and `triggerReconnect` if it fails); `takeSignal` is the
    receive from `reconnectChan` that starts a reconnect episode, whose `Disconnect` and
    `Connect` calls are the events `disconnect` and `connect`. `disconnect` and `send` are
    also what `Client.Stop` and `processNetworkRequests` call. -/
inductive AgentEvent where
  | initialConnect (dialOk : Bool) (now : Time)
  | takeSignal
  | connect (dialOk : Bool) (now : Time)
  | disconnect (now : Time) (loopsSeeStop : Bool)
  | send (msgType : String) (data : JsonValue) (now : Time)
  | sender (branch : SendLoopCase)
  | receiver (branch : ReceiveLoopCase)
  deriving DecidableEq, Repr

/-- The connection after one event. -/
def agentStep (c : Connection) : AgentEvent → Outcome Connection
  | .initialConnect dialOk now =>
    let r := c.Connect dialOk now
    .done (if r.2 then r.1 else r.1.triggerReconnect)
  | .takeSignal => .done (if c.reconnectChan then { c with reconnectChan := false } else c)
  | .connect dialOk now => .done (c.Connect dialOk now).1
  | .disconnect now loopsSeeStop => c.Disconnect now loopsSeeStop
  | .send msgType data now => .done (c.SendMessage msgType data now)
  | .sender branch => .done (c.sendLoop branch)
  | .receiver branch => .done (c.receiveLoop branch)

/-- The connection after a sequence of events, when each of them returned. -/
def agentRun (c : Connection) : List AgentEvent → Outcome Connection
  | [] => .done c
  | e :: es => (agentStep c e).andThen fun c1 => agentRun c1 es

/-- States the connection reaches from `NewConnection` by events that return. -/
inductive AgentReachable (clientID clientName osInfo : String) : Connection → Prop where
  | init : AgentReachable clientID clientName osInfo (NewConnection clientID clientName osInfo)
  | step {c c1 : Connection} (e : AgentEvent) :
      AgentReachable clientID clientName osInfo c → agentStep c e = .done c1 →
      AgentReachable clientID clientName osInfo c1

/-- The messages written to the transports, in order. -/
def writtenMessages : List WireEvent → List ClientMessage
  | [] => []
  | .wrote _ msg :: es => msg :: writtenMessages es
  | .closed _ :: es => writtenMessages es

/-! ## internal/client/monitor.go: `makeRequest` and `recordError` -/

/-- The dynamic type of a Go `error` value, as far as the type switch of `makeRequest`
    tells types apart. -/
inductive ErrorClass where
  | opError
  | urlError
  | otherNetError
  | other
  deriving DecidableEq, Repr

/-- Whether the type satisfies the interface `net.Error`. `*net.OpError` does, and so does
    `*url.Error`, which has the methods `Timeout` and `Temporary`. -/
def ErrorClass.implementsNetError : ErrorClass → Bool
  | .opError => true
  | .urlError => true
  | .otherNetError => true
  | .other => false

/-- A Go `error` value: its dynamic type, what `Timeout()` returns, what `Error()` returns. -/
structure GoError where
  dynType : ErrorClass
  timeout : Bool
  text : String
  deriving DecidableEq, Repr

/-- The type switch of `makeRequest`; the cases are tried in source order. -/
def errorTypeOf (e : GoError) : String :=
  if e.dynType = .opError then
    if e.timeout then "timeout" else "network"
  else if e.dynType.implementsNetError then
    if e.timeout then "timeout" else "network"
  else if e.dynType = .urlError then
    if e.timeout then "timeout" else "url"
  else "unknown"

/-- A callback of the `httptrace.ClientTrace` fired while `m.client.Do(req)` runs; `now` is
    the clock reading inside the callback, `err` the error the callback is given. -/
inductive TraceEvent where
  | DNSStart (now : Time)
  | DNSDone (now : Time) (err : Option GoError)
  | ConnectStart (now : Time)
  | ConnectDone (now : Time) (err : Option GoError)
  | TLSHandshakeStart (now : Time)
  | TLSHandshakeDone (now : Time) (err : Option GoError)
  | WroteRequest (now : Time) (err : Option GoError)
  | GotFirstResponseByte (now : Time)
  deriving DecidableEq, Repr

/-- Everything outside `makeRequest` that one call depends on: the error of
    `http.NewRequest` if any, the clock readings, the trace callbacks fired by
    `m.client.Do` in order, and the result of `m.client.Do` (an error or the response's
    status code). Clock readings taken within one statement are one reading. -/
structure ProbeOutcome where
  requestErr : Option GoError
  startNow : Time
  events : List TraceEvent
  response : Except GoError Int
  endNow : Time
  sinceNow : Time

/-- The variables a running `makeRequest` shares with its callbacks, the samples pushed
    onto `m.resultChan` so far (oldest first), and the number of `uuid.New()` calls made.
    The channel's reader is taken to keep up, so that no send waits for room. -/
structure ProbeState where
  result : NetworkRequest
  dnsStart : Time
  connectStart : Time
  tlsStart : Time
  requestStart : Time
  responseStart : Time
  resultChan : List NetworkRequest
  uuids : Nat

/-- `Monitor.recordError`: pushes a sample describing the error; `uuid` is the value of
    `uuid.New().String()`. -/
def Monitor.recordError (target : Target) (err : GoError) (errorType : String) (uuid : String)
    (now : Time) : NetworkRequest :=
  { NetworkRequest.zero with
    ID := uuid
    URL := target.URL
    Method := "GET"
    StartTime := now
    EndTime := now
    Error := err.text
    ErrorType := errorType
    TargetName := target.Name }

/-- `recordError` called from a callback when the callback's error is not nil. -/
def ProbeState.recordIfErr (st : ProbeState) (target : Target) (uuid : Nat → String)
    (err : Option GoError) (errorType : String) (now : Time) : ProbeState :=
  match err with
  | some e =>
    { st with
      resultChan := st.resultChan ++ [Monitor.recordError target e errorType (uuid st.uuids) now]
      uuids := st.uuids + 1 }
  | none => st

/-- One callback of the trace installed by `makeRequest`. -/
def traceStep (target : Target) (uuid : Nat → String) (st : ProbeState) :
    TraceEvent → ProbeState
  | .DNSStart now => { st with dnsStart := now }
  | .DNSDone now err =>
    let st1 :=
      if !st.dnsStart.IsZero then
        { st with result := { st.result with DNSTime := now.msSince st.dnsStart } }
      else st
    st1.recordIfErr target uuid err "dns" now
  | .ConnectStart now => { st with connectStart := now }
  | .ConnectDone now err =>
    let st1 :=
      if !st.connectStart.IsZero then
        { st with result := { st.result with TCPTime := now.msSince st.connectStart } }
      else st
    st1.recordIfErr target uuid err "connect" now
  | .TLSHandshakeStart now => { st with tlsStart := now }
  | .TLSHandshakeDone now err =>
    let st1 :=
      if !st.tlsStart.IsZero then
        { st with result := { st.result with TLSTime := now.msSince st.tlsStart } }
      else st
    st1.recordIfErr target uuid err "tls" now
  | .WroteRequest now err =>
    { st.recordIfErr target uuid err "request_write" now with requestStart := now }
  | .GotFirstResponseByte now =>
    let st1 := { st with responseStart := now }
    if !st1.requestStart.IsZero then
      { st1 with result := { st1.result with RequestTime := now.msSince st1.requestStart } }
    else st1

/-- `Monitor.makeRequest`: the samples one call pushes onto `m.resultChan`, oldest first;
    `uuid n` is the value of the `n`-th `uuid.New().String()` of the call. -/
def Monitor.makeRequest (target : Target) (uuid : Nat → String) (p : ProbeOutcome) :
    List NetworkRequest :=
  match p.requestErr with
  | some err => [Monitor.recordError target err "request_creation" (uuid 0) p.startNow]
  | none =>
    let result0 : NetworkRequest :=
      { NetworkRequest.zero with
        ID := uuid 0, URL := target.URL, Method := "GET", StartTime := p.startNow,
        TargetName := target.Name }
    let st0 : ProbeState :=
      { result := result0, dnsStart := Time.zero, connectStart := Time.zero,
        tlsStart := Time.zero, requestStart := Time.zero, responseStart := Time.zero,
        resultChan := [], uuids := 1 }
    let st := p.events.foldl (traceStep target uuid) st0
    let r1 := { st.result with EndTime := p.endNow, TotalTime := p.endNow.msSince p.startNow }
    let r2 :=
      if !st.responseStart.IsZero then
        { r1 with ResponseTime := p.sinceNow.msSince st.responseStart }
      else r1
    let r3 :=
      match p.response with
      | .error err => { r2 with Error := err.text, ErrorType := errorTypeOf err }
      | .ok statusCode => { r2 with StatusCode := statusCode }
    st.resultChan ++ [r3]

/-- Whether a callback is handed an error. -/
def TraceEvent.hasErr : TraceEvent → Bool
  | .DNSDone _ err => err.isSome
  | .ConnectDone _ err => err.isSome
  | .TLSHandshakeDone _ err => err.isSome
  | .WroteRequest _ err => err.isSome
  | _ => false

/-- The `errorType` strings the callbacks pass to `recordError`. -/
def hookErrorTypes : List String := ["dns", "connect", "tls", "request_write"]

/-- `Monitor`, as far as `Start` and `Stop` use it: the targets, whether the channel that
    `m.stopChan` points to has been closed, and the counter of `m.wg`, the number of
    `monitorTarget` goroutines that have been started and have not returned. -/
structure Monitor where
  targets : List Target
  stopChanClosed : Bool
  tasks : Nat
  deriving DecidableEq, Repr

/-- `NewMonitor`: no targets, a new stop channel, no goroutine. -/
def NewMonitor : Monitor := { targets := [], stopChanClosed := false, tasks := 0 }

/-- `Monitor.Stop`. `close(m.stopChan)` panics on a channel that is already closed.
    `m.wg.Wait()` returns once every `monitorTarget` goroutine has returned; `tasksSeeStop`
    tells whether each of them reaches its `select` and takes the `stopChan` case, rather
    than waiting forever in a send to a full `resultChan` that nobody reads. -/
def Monitor.Stop (m : Monitor) (tasksSeeStop : Bool) : Outcome Monitor :=
  if m.stopChanClosed then .panics
  else
    let m1 := { m with stopChanClosed := true }
    if m1.tasks = 0 ∨ tasksSeeStop = true then .done { m1 with tasks := 0 } else .blocks

/-- The period of the ticker that `monitorTarget` makes for a target:
    `time.Duration(target.Interval) * time.Second`, an `int64`. -/
def tickerPeriod (target : Target) : Duration := wrapInt64 (target.Interval * Second)

/-- `Monitor.Start`: calls `m.Stop()`, then sets the targets, makes a new stop channel and
    starts one `monitorTarget` goroutine for each enabled target. A goroutine whose ticker
    period is not positive panics in `time.NewTicker`, which ends the process. -/
def Monitor.Start (m : Monitor) (targets : List Target) (tasksSeeStop : Bool) : Outcome Monitor :=
  (m.Stop tasksSeeStop).andThen fun m1 =>
    if (targets.filter (fun target => target.Enabled)).any
        (fun target => decide (tickerPeriod target ≤ 0)) then .panics
    else
      .done { m1 with
        targets := targets, stopChanClosed := false
        tasks := m1.tasks + (targets.filter (fun target => target.Enabled)).length }

/-- A call of `Start` or `Stop`. -/
inductive MonitorCall where
  | Start (targets : List Target) (tasksSeeStop : Bool)
  | Stop (tasksSeeStop : Bool)
  deriving DecidableEq, Repr

/-- The monitor after one call. -/
def Monitor.call (m : Monitor) : MonitorCall → Outcome Monitor
  | .Start targets tasksSeeStop => m.Start targets tasksSeeStop
  | .Stop tasksSeeStop => m.Stop tasksSeeStop

/-- The monitor after a sequence of calls, each made when the one before has returned. -/
def Monitor.run (m : Monitor) : List MonitorCall → Outcome Monitor
  | [] => .done m
  | call :: calls => (m.call call).andThen fun m1 => m1.run calls

/-! ## Sample values -/

/-- An agent's info as it sends it with `client_connect`. -/
def sampleInfo : ClientInfo :=
  { ClientInfo.zero with
    ID := "A1", Name := "agent-1", Status := StatusOnline, ConnectedAt := ⟨1000, 0⟩,
    LastSeen := ⟨1000, 0⟩, Version := "1.0.0", OSInfo := "linux/amd64" }

def sampleConnect : ClientMessage :=
  { MsgType := TypeClientConnect, ClientID := "A1", Timestamp := ⟨1000, 0⟩,
    Data := .object sampleInfo.toJson }

def sampleHeartbeat : ClientMessage :=
  { MsgType := TypeHeartbeat, ClientID := "A1", Timestamp := ⟨31000, 0⟩,
    Data := .object { sampleInfo with LastSeen := ⟨31000, 0⟩ }.toJson }

/-- The agent's info marked offline, with no `DisconnectedAt`. -/
def sampleOfflineInfo : ClientInfo := { sampleInfo with Status := StatusOffline }

/-- A `client_disconnect` whose info carries no `disconnectedAt`. -/
def sampleDisconnect : ClientMessage :=
  { MsgType := TypeClientDisconnect, ClientID := "A1", Timestamp := ⟨61000, 0⟩,
    Data := .object sampleOfflineInfo.toJson }

/-- An agent's info whose id carries a path separator. -/
def sampleInfoSlash : ClientInfo := { sampleInfo with ID := "a/b" }

/-- A `client_connect` of the agent `a/b`. -/
def sampleConnectSlash : ClientMessage :=
  { MsgType := TypeClientConnect, ClientID := "a/b", Timestamp := ⟨1000, 0⟩,
    Data := .object sampleInfoSlash.toJson }

/-- The info of the agent `a/b` marked offline. -/
def sampleOfflineInfoSlash : ClientInfo := { sampleInfoSlash with Status := StatusOffline }

/-- A `client_disconnect` of the agent `a/b`. -/
def sampleDisconnectSlash : ClientMessage :=
  { MsgType := TypeClientDisconnect, ClientID := "a/b", Timestamp := ⟨61000, 0⟩,
    Data := .object sampleOfflineInfoSlash.toJson }

/-- Another agent's info. -/
def sampleInfoB : ClientInfo :=
  { ClientInfo.zero with
    ID := "B2", Name := "agent-2", Status := StatusOnline, ConnectedAt := ⟨500, 0⟩,
    LastSeen := ⟨500, 0⟩, Version := "1.0.0", OSInfo := "darwin/arm64" }

/-- An agent's info whose id is `./A1`. -/
def sampleInfoDotSlash : ClientInfo := { sampleInfoB with ID := "./A1" }

/-- A hub in which connection 1 is registered as `B2` and the store holds its record. -/
def sampleHub : ClientManager :=
  { clients := GoMap.empty.insert "B2" 1
    storage := ((NewStorage serverDataDir).SaveClientInfo sampleInfoB).1
    conns := Function.update (fun _ => NewClientConnection) 1
      { NewClientConnection.Start with clientID := "B2", clientInfo := sampleInfoB } }

/-- A hub whose registry is empty and whose store holds a file for `A1` that does not
    decode. -/
def sampleCorruptRecordHub : ClientManager :=
  NewClientManager
    { NewStorage serverDataDir with
      files := GoMap.empty.insert ((NewStorage serverDataDir).clientFile "A1") .corrupt }

/-- A hub whose registry is empty and whose store holds the record of `A1`, offline. -/
def sampleStoredHub : ClientManager :=
  NewClientManager ((NewStorage serverDataDir).SaveClientInfo sampleOfflineInfo).1

/-- A `client_connect` whose envelope names `k1` while its payload has id `A1`. -/
def sampleConnectK1 : ClientMessage := { sampleConnect with ClientID := "k1" }

/-- A `client_connect` whose envelope names `k2` while its payload has id `A1`. -/
def sampleConnectK2 : ClientMessage := { sampleConnect with ClientID := "k2" }

/-- A `client_connect` whose envelope carries no client id. -/
def sampleConnectNoId : ClientMessage := { sampleConnect with ClientID := "" }

/-- A sample probed at 23:30 UTC on 2024-02-29, reported with offset zero. -/
def sampleRequest : NetworkRequest :=
  { NetworkRequest.zero with
    ID := "7d1f0c52", URL := "http://example.org", Method := "GET", StatusCode := 200,
    StartTime := ⟨63844846200000000000, 0⟩, EndTime := ⟨63844846200040000000, 0⟩,
    TotalTime := 40, TargetName := "X" }

/-- The same sample, probed at the same instant, reported with offset +01:00, where the
    date is already 2024-03-01. -/
def sampleRequestPlusOne : NetworkRequest :=
  { sampleRequest with
    StartTime := ⟨63844846200000000000, 3600⟩, EndTime := ⟨63844846200040000000, 3600⟩ }

/-- The sample with the id `a/b`. -/
def sampleRequestSlash : NetworkRequest := { sampleRequest with ID := "a/b" }

/-- A store that holds `sampleRequest` for the agent `A1` and nothing else. -/
def sampleRequestStore : Storage :=
  ((NewStorage serverDataDir).SaveNetworkRequest "A1" sampleRequest).1

/-- A store whose configuration file does not decode. -/
def sampleCorruptConfigStore : Storage :=
  { NewStorage serverDataDir with
    files := (NewStorage serverDataDir).files.insert (NewStorage serverDataDir).configPath .corrupt }

/-- A `network_request` envelope carrying `sampleRequest`. -/
def sampleTelemetry : ClientMessage :=
  { MsgType := TypeNetworkRequest, ClientID := "A1", Timestamp := ⟨63844846200050000000, 0⟩,
    Data := .object sampleRequest.toJson }

/-- A `network_request` envelope carrying a sample whose id is `a/b`. -/
def sampleTelemetrySlash : ClientMessage :=
  { sampleTelemetry with Data := .object sampleRequestSlash.toJson }

/-- A `network_request` envelope carrying `sampleRequest` that names `B2` as its
    originator. -/
def sampleTelemetryB2 : ClientMessage := { sampleTelemetry with ClientID := "B2" }

/-- The agent of host `host-1`. -/
def sampleAgent : Connection := NewConnection "A1" "agent-1" "linux/amd64"

/-- The envelope `SendMessage` builds for `sampleRequest` at time 3000. -/
def sampleQueuedSample : ClientMessage :=
  { MsgType := TypeNetworkRequest, ClientID := "A1", Timestamp := ⟨3000, 0⟩,
    Data := .object sampleRequest.toJson }

/-- The `client_disconnect` envelope `Disconnect` builds for `sampleAgent` at time 9000. -/
def sampleAgentDisconnect : ClientMessage :=
  { MsgType := TypeClientDisconnect, ClientID := "A1", Timestamp := ⟨9000, 0⟩,
    Data := .object
      { sampleAgent.clientInfo with
        Status := StatusOffline, ConnectedAt := ⟨1000, 0⟩, LastSeen := ⟨1000, 0⟩,
        DisconnectedAt := some ⟨9000, 0⟩ }.toJson }

def sampleTarget : Target :=
  { Name := "X", URL := "http://bad.invalid", Interval := 1, Enabled := true }

def sampleUuid : Nat → String
  | 0 => "7d1f0c52"
  | _ => "c2a94e07"

/-- The `*net.DNSError` handed to `DNSDone` when the host does not resolve. -/
def sampleDNSError : GoError :=
  { dynType := .otherNetError, timeout := false, text := "lookup bad.invalid: no such host" }

/-- The `*url.Error` that `m.client.Do` returns when the host does not resolve. -/
def sampleDoError : GoError :=
  { dynType := .urlError, timeout := false,
    text := "Get \"http://bad.invalid\": dial tcp: lookup bad.invalid: no such host" }

/-- A probe of a host that does not resolve. -/
def sampleDNSFailure : ProbeOutcome :=
  { requestErr := none, startNow := ⟨1000000, 0⟩,
    events := [.DNSStart ⟨2000000, 0⟩, .DNSDone ⟨9000000, 0⟩ (some sampleDNSError)],
    response := .error sampleDoError, endNow := ⟨9500000, 0⟩, sinceNow := ⟨9600000, 0⟩ }

/-- A probe of a URL that does not parse. -/
def sampleMalformedURL : ProbeOutcome :=
  { requestErr := some { dynType := .urlError, timeout := false,
                         text := "parse \"http://bad host\": invalid character in host name" },
    startNow := ⟨1000000, 0⟩, events := [], response := .ok 0,
    endNow := ⟨1000000, 0⟩, sinceNow := ⟨1000000, 0⟩ }

/-- A probe that succeeds with status 200 over a fresh connection. -/
def sampleSuccess : ProbeOutcome :=
  { requestErr := none, startNow := ⟨1000000, 0⟩,
    events := [.DNSStart ⟨2000000, 0⟩, .DNSDone ⟨9000000, 0⟩ none, .ConnectStart ⟨9100000, 0⟩,
               .ConnectDone ⟨15000000, 0⟩ none, .WroteRequest ⟨15200000, 0⟩ none,
               .GotFirstResponseByte ⟨40000000, 0⟩],
    response := .ok 200, endNow := ⟨41000000, 0⟩, sinceNow := ⟨41000000, 0⟩ }

/-! # Theorems -/

/-! ## Go maps -/

/-- Nothing is found in the empty map. -/
@[simp]
theorem GoMap.lookup_empty {α β : Type} [DecidableEq α] (k : α) :
    (GoMap.empty : GoMap α β).lookup k = none := rfl

/-- An assigned key is found with its value. -/
@[simp]
theorem GoMap.lookup_insert {α β : Type} [DecidableEq α] (k : α) (v : β) (m : GoMap α β) :
    (m.insert k v).lookup k = some v := AList.lookup_insert m

/-- Assigning one key does not change what is found under another. -/
theorem GoMap.lookup_insert_ne {α β : Type} [DecidableEq α] {k k1 : α} (v : β) (m : GoMap α β)
    (h : k ≠ k1) : (m.insert k1 v).lookup k = m.lookup k := AList.lookup_insert_ne h

/-- A deleted key is not found. -/
@[simp]
theorem GoMap.lookup_erase {α β : Type} [DecidableEq α] (k : α) (m : GoMap α β) :
    (m.erase k).lookup k = none := AList.lookup_erase k m

/-- Deleting one key does not change what is found under another. -/
theorem GoMap.lookup_erase_ne {α β : Type} [DecidableEq α] {k k1 : α} (m : GoMap α β)
    (h : k ≠ k1) : (m.erase k1).lookup k = m.lookup k := AList.lookup_erase_ne h

/-- The keys of a map are distinct. -/
theorem GoMap.keys_nodup {α β : Type} (m : GoMap α β) : m.keys.Nodup := by
  have h : m.keys = AList.keys m := by
    simp [GoMap.keys, GoMap.toList, AList.keys, List.keys, List.map_map, Function.comp_def]
  rw [h]
  exact AList.keys_nodup m

/-- The entries of a map are what lookups find. -/
theorem GoMap.mem_toList {α β : Type} [DecidableEq α] (m : GoMap α β) (k : α) (v : β) :
    (k, v) ∈ m.toList ↔ m.lookup k = some v := by
  unfold GoMap.toList GoMap.lookup
  rw [← Option.mem_def, AList.mem_lookup_iff]
  constructor
  · intro h
    obtain ⟨e, he, heq⟩ := List.mem_map.mp h
    cases e
    cases heq
    exact he
  · intro h
    exact List.mem_map.mpr ⟨_, h, rfl⟩

/-- Assigning a new key adds one entry. -/
theorem GoMap.toList_insert_of_lookup_none {α β : Type} [DecidableEq α] (m : GoMap α β)
    (k : α) (v : β) (h : m.lookup k = none) : (m.insert k v).toList = (k, v) :: m.toList := by
  unfold GoMap.toList GoMap.insert
  rw [AList.insert_entries_of_neg]
  · rfl
  · exact AList.lookup_eq_none.mp h

/-- An assigned key is a key. -/
theorem GoMap.mem_keys_insert {α β : Type} [DecidableEq α] (m : GoMap α β) (k : α) (v : β) :
    k ∈ (m.insert k v).keys := by
  have : (k, v) ∈ (m.insert k v).toList := (GoMap.mem_toList _ k v).mpr (GoMap.lookup_insert k v m)
  exact List.mem_map.mpr ⟨_, this, rfl⟩

/-! ## The file system: basic facts -/

/-- A string without separator is one piece. -/
theorem splitSlash_of_not_mem (l : List Char) (h : '/' ∉ l) : splitSlash l = [l] := by
  induction l with
  | nil => rfl
  | cons c cs ih =>
    have hc : c ≠ '/' := fun e => h (by simp [e])
    have hcs : '/' ∉ cs := fun e => h (by simp [e])
    simp [splitSlash, hc, ih hcs]

/-- Joining a name that has no separator and is not empty, `.` or `..` appends it. -/
theorem Path.Join_of_plain (dir : Path) (name : String) (h : hasSeparator name = false)
    (h1 : name ≠ "") (h2 : name ≠ ".") (h3 : name ≠ "..") : dir.Join name = dir ++ [name] := by
  have hs : '/' ∉ name.toList := by simpa [hasSeparator] using h
  unfold Path.Join
  rw [splitSlash_of_not_mem _ hs]
  simp [Path.push, h1, h2, h3]

/-- The file name `<id>.json` of an id without separator has no separator, and is not
    empty, `.` or `..`. -/
theorem jsonName_plain (id : String) (h : hasSeparator id = false) :
    hasSeparator (id ++ ".json") = false ∧ id ++ ".json" ≠ "" ∧ id ++ ".json" ≠ "." ∧
    id ++ ".json" ≠ ".." := by
  have hs : '/' ∉ id.toList := by simpa [hasSeparator] using h
  have h5 : ".json".length = 5 := rfl
  refine ⟨?_, ?_, ?_, ?_⟩
  · have : '/' ∉ (id ++ ".json").toList := by
      rw [String.toList, String.data_append]
      intro e
      rcases List.mem_append.mp e with e | e
      · exact hs e
      · exact absurd e (by decide)
    simpa [hasSeparator] using this
  · intro e
    have := congrArg String.length e
    rw [String.length_append, h5] at this
    have h0 : "".length = 0 := rfl
    omega
  · intro e
    have := congrArg String.length e
    rw [String.length_append, h5] at this
    have h0 : ".".length = 1 := rfl
    omega
  · intro e
    have := congrArg String.length e
    rw [String.length_append, h5] at this
    have h0 : "..".length = 2 := rfl
    omega

/-- Below any directory, the file of an id without separator is named `<id>.json`. -/
theorem Path.Join_jsonName (dir : Path) (id : String) (h : hasSeparator id = false) :
    dir.Join (id ++ ".json") = dir ++ [id ++ ".json"] := by
  obtain ⟨h0, h1, h2, h3⟩ := jsonName_plain id h
  exact Path.Join_of_plain dir _ h0 h1 h2 h3

/-- A decimal digit is not the separator. -/
theorem digitChar_ne_slash (n : Nat) : digitChar n ≠ '/' := by
  unfold digitChar
  split <;> decide

/-- The digits of a number hold no separator. -/
theorem digitsAux_no_slash (fuel n : Nat) (acc : List Char) (h : '/' ∉ acc) :
    '/' ∉ digitsAux fuel n acc := by
  induction fuel generalizing n acc with
  | zero => simpa [digitsAux] using h
  | succ fuel ih =>
    unfold digitsAux
    split_ifs with hn
    · intro e
      rcases List.mem_cons.mp e with e | e
      · exact digitChar_ne_slash n e.symm
      · exact h e
    · apply ih
      intro e
      rcases List.mem_cons.mp e with e | e
      · exact digitChar_ne_slash _ e.symm
      · exact h e

/-- With fuel, there is at least one digit. -/
theorem digitsAux_length (fuel n : Nat) (acc : List Char) :
    acc.length + 1 ≤ (digitsAux (fuel + 1) n acc).length := by
  induction fuel generalizing n acc with
  | zero =>
    unfold digitsAux
    split_ifs <;> simp [digitsAux]
  | succ fuel ih =>
    unfold digitsAux
    split_ifs with hn
    · simp
    · have := ih (n / 10) (digitChar (n % 10) :: acc)
      simp only [List.length_cons] at this
      omega

/-- The characters of `appendInt` hold no separator, and there is at least one. -/
theorem appendInt_spec (x : Int) (width : Nat) :
    '/' ∉ appendInt x width ∧ 1 ≤ (appendInt x width).length := by
  have hd : '/' ∉ decimal x.natAbs := digitsAux_no_slash _ _ [] (by simp)
  have hl : 1 ≤ (decimal x.natAbs).length := by
    have := digitsAux_length x.natAbs x.natAbs []
    simpa [decimal] using this
  refine ⟨?_, ?_⟩
  · unfold appendInt
    intro e
    rcases List.mem_append.mp e with e | e
    · split_ifs at e
      · simp at e
      · simp at e
    · rcases List.mem_append.mp e with e | e
      · have := (List.mem_replicate.mp e).2
        exact absurd this (by decide)
      · exact hd e
  · unfold appendInt
    simp only [List.length_append]
    omega

/-- The text of a date has no separator, and is not empty, `.` or `..`: joined to a
    directory it names a directory directly below it. -/
theorem Date.format_plain (d : Date) :
    hasSeparator d.format = false ∧ d.format ≠ "" ∧ d.format ≠ "." ∧ d.format ≠ ".." := by
  obtain ⟨y1, y2⟩ := appendInt_spec d.year 4
  obtain ⟨m1, m2⟩ := appendInt_spec d.month 2
  obtain ⟨d1, d2⟩ := appendInt_spec d.day 2
  have hlen : 5 ≤ d.format.length := by
    unfold Date.format
    simp only [String.length, List.length_append, List.length_cons]
    omega
  refine ⟨?_, ?_, ?_, ?_⟩
  · have : '/' ∉ d.format.toList := by
      unfold Date.format
      simp only [String.toList, List.mem_append, List.mem_cons, not_or]
      exact ⟨y1, by decide, m1, by decide, d1⟩
    simpa [hasSeparator] using this
  · intro e
    rw [e] at hlen
    exact absurd hlen (by decide)
  · intro e
    rw [e] at hlen
    exact absurd hlen (by decide)
  · intro e
    rw [e] at hlen
    exact absurd hlen (by decide)

/-- Below any directory, the date directory of a timestamp is named by the text of its
    date. -/
theorem Path.Join_Format (dir : Path) (t : Time) : dir.Join t.Format = dir ++ [t.Format] := by
  obtain ⟨h0, h1, h2, h3⟩ := Date.format_plain t.Date
  exact Path.Join_of_plain dir _ h0 h1 h2 h3

/-- What a `WriteFile` that succeeds has done, and what made it succeed. -/
theorem WriteFile_some (s s1 : Storage) (p : Path) (content : FileContent)
    (h : s.WriteFile p content = some s1) :
    s1 = { s with files := s.files.insert p content } ∧
    s.isDir p.dropLast = true ∧ s.isDir p = false := by
  unfold Storage.WriteFile at h
  split_ifs at h with hc
  cases h
  simp only [Bool.and_eq_true, Bool.not_eq_true'] at hc
  exact ⟨rfl, hc.1, hc.2⟩

/-- `WriteFile` succeeds exactly when the directory exists and the path is no directory. -/
theorem WriteFile_isSome (s : Storage) (p : Path) (content : FileContent) :
    (s.WriteFile p content).isSome = true ↔ s.isDir p.dropLast = true ∧ s.isDir p = false := by
  unfold Storage.WriteFile
  split_ifs with hc
  · simpa using hc
  · simpa using hc

/-- A file that has been written is read back. -/
theorem ReadFile_WriteFile (s s1 : Storage) (p : Path) (content : FileContent)
    (h : s.WriteFile p content = some s1) : s1.ReadFile p = some content := by
  obtain ⟨h1, -, h3⟩ := WriteFile_some s s1 p content h
  subst h1
  have : Storage.isDir { s with files := s.files.insert p content } p = false := h3
  simp [Storage.ReadFile, this]

/-- Writing a file leaves every other path as it was. -/
theorem ReadFile_WriteFile_ne (s s1 : Storage) (p q : Path) (content : FileContent)
    (h : s.WriteFile p content = some s1) (hq : q ≠ p) : s1.ReadFile q = s.ReadFile q := by
  obtain ⟨h1, -, -⟩ := WriteFile_some s s1 p content h
  subst h1
  have : Storage.isDir { s with files := s.files.insert p content } q = s.isDir q := rfl
  simp only [Storage.ReadFile, this]
  rw [GoMap.lookup_insert_ne _ _ hq]

/-- What `SaveClientInfo` does: when the write succeeds the file of the id holds the
    record, and otherwise the store is as it was. -/
theorem SaveClientInfo_spec (s : Storage) (a : ClientInfo) :
    ((s.SaveClientInfo a).2 = true →
      (s.SaveClientInfo a).1 =
        { s with files := s.files.insert (s.clientFile a.ID) (.json a.toJson) } ∧
      s.isDir (s.clientFile a.ID).dropLast = true ∧ s.isDir (s.clientFile a.ID) = false) ∧
    ((s.SaveClientInfo a).2 = false → (s.SaveClientInfo a).1 = s) := by
  unfold Storage.SaveClientInfo
  cases h : s.WriteFile (s.clientFile a.ID) (.json a.toJson) with
  | none => simp
  | some s1 =>
    obtain ⟨h1, h2, h3⟩ := WriteFile_some _ _ _ _ h
    simp [h1, h2, h3]

/-- `SaveClientInfo` returns no error exactly when the directory of the file exists and
    the file's path is not a directory. -/
theorem SaveClientInfo_ok_iff (s : Storage) (a : ClientInfo) :
    (s.SaveClientInfo a).2 = true ↔
      s.isDir (s.clientFile a.ID).dropLast = true ∧ s.isDir (s.clientFile a.ID) = false := by
  rw [← WriteFile_isSome s _ (.json a.toJson)]
  unfold Storage.SaveClientInfo
  cases h : s.WriteFile (s.clientFile a.ID) (.json a.toJson) <;> simp

/-- `SaveClientInfo` changes neither the data directory, nor the directories, nor the lock. -/
theorem SaveClientInfo_fields (s : Storage) (a : ClientInfo) :
    (s.SaveClientInfo a).1.dataDir = s.dataDir ∧ (s.SaveClientInfo a).1.dirs = s.dirs ∧
    (s.SaveClientInfo a).1.mutex = s.mutex := by
  cases hb : (s.SaveClientInfo a).2 with
  | true => rw [((SaveClientInfo_spec s a).1 hb).1]; exact ⟨rfl, rfl, rfl⟩
  | false => rw [(SaveClientInfo_spec s a).2 hb]; exact ⟨rfl, rfl, rfl⟩

/-! ## Session handler and registry: basic facts -/

/-- What a `Stop` that returns has done, and what made it return. -/
theorem Stop_done_fields (c stopped : ClientConnection) (h : c.Stop = .done stopped) :
    stopped.clientID = c.clientID ∧ stopped.clientInfo = c.clientInfo ∧
    stopped.stopChanClosed = true ∧ stopped.wsClosed = true ∧
    stopped.receiveLoopState = c.receiveLoopState ∧ c.stopChanClosed = false ∧
    (∀ d, c.receiveLoopState ≠ .running d) := by
  unfold ClientConnection.Stop at h
  split at h
  · cases h
  · rename_i hs
    split at h
    · cases h
    · rename_i hr
      cases h
      refine ⟨rfl, rfl, rfl, rfl, rfl, by simpa using hs, ?_⟩
      intro d hd
      exact hr d hd

/-- An `AddClient` that returns has stored `c` under `k` and left the store, and every
    connection's id, info and loop state, as they were. -/
theorem AddClient_done (m m1 : ClientManager) (k : String) (c : ConnId)
    (h : m.AddClient k c = .done m1) :
    m1.clients = m.clients.insert k c ∧ m1.storage = m.storage ∧
    ∀ p, (m1.conns p).clientID = (m.conns p).clientID ∧
         (m1.conns p).clientInfo = (m.conns p).clientInfo ∧
         (m1.conns p).receiveLoopState = (m.conns p).receiveLoopState := by
  unfold ClientManager.AddClient at h
  split at h
  · rename_i existing hex
    cases hs : (m.conns existing).Stop with
    | done stopped =>
      rw [hs] at h
      simp only [Outcome.andThen, Outcome.done.injEq] at h
      subst h
      obtain ⟨h1, h2, -, -, h5, -⟩ := Stop_done_fields _ _ hs
      refine ⟨rfl, rfl, ?_⟩
      intro p
      by_cases hp : p = existing
      · subst hp; simp [h1, h2, h5]
      · simp [Function.update_noteq hp]
    | panics => rw [hs] at h; simp [Outcome.andThen] at h
    | blocks => rw [hs] at h; simp [Outcome.andThen] at h
  · simp only [Outcome.done.injEq] at h
    subst h
    exact ⟨rfl, rfl, fun _ => ⟨rfl, rfl, rfl⟩⟩

/-- With no connection stored under `k`, `AddClient` only stores `c`. -/
theorem AddClient_of_lookup_none (m : ClientManager) (k : String) (c : ConnId)
    (h : m.clients.lookup k = none) :
    m.AddClient k c = .done { m with clients := m.clients.insert k c } := by
  unfold ClientManager.AddClient
  rw [h]

/-- A running receive loop whose stop channel is open sets the client id and handles the
    message. -/
theorem receiveLoop_message (m : ClientManager) (c : ConnId) (msg : ClientMessage) (now : Time)
    (d : String) (hrun : (m.conns c).receiveLoopState = .running d)
    (hopen : (m.conns c).stopChanClosed = false) :
    ClientConnection.receiveLoop m c (.message msg) now =
      ClientConnection.handleClientMessage (ClientConnection.setClientID m c msg) c msg now := by
  unfold ClientConnection.receiveLoop
  simp [hrun, hopen]

/-- What setting the client id leaves unchanged, and the id it yields. -/
theorem setClientID_fields (m : ClientManager) (c : ConnId) (msg : ClientMessage) :
    (ClientConnection.setClientID m c msg).clients = m.clients ∧
    (ClientConnection.setClientID m c msg).storage = m.storage ∧
    (∀ p, ((ClientConnection.setClientID m c msg).conns p).clientInfo = (m.conns p).clientInfo) ∧
    (∀ p, ((ClientConnection.setClientID m c msg).conns p).receiveLoopState =
      (m.conns p).receiveLoopState) ∧
    (∀ p, ((ClientConnection.setClientID m c msg).conns p).stopChanClosed =
      (m.conns p).stopChanClosed) ∧
    ((ClientConnection.setClientID m c msg).conns c).clientID =
      (if (m.conns c).clientID = "" then msg.ClientID else (m.conns c).clientID) := by
  unfold ClientConnection.setClientID
  split_ifs with h
  · refine ⟨rfl, rfl, ?_, ?_, ?_, ?_⟩
    · intro p
      by_cases hp : p = c
      · subst hp; simp [ClientManager.setConn]
      · simp [ClientManager.setConn, Function.update_noteq hp]
    · intro p
      by_cases hp : p = c
      · subst hp; simp [ClientManager.setConn]
      · simp [ClientManager.setConn, Function.update_noteq hp]
    · intro p
      by_cases hp : p = c
      · subst hp; simp [ClientManager.setConn]
      · simp [ClientManager.setConn, Function.update_noteq hp]
    · simp [ClientManager.setConn]
  · exact ⟨rfl, rfl, fun _ => rfl, fun _ => rfl, fun _ => rfl, rfl⟩

/-- Setting the client id leaves the loop state as it was. -/
theorem setClientID_receiveLoopState (m : ClientManager) (c : ConnId) (msg : ClientMessage) :
    ((ClientConnection.setClientID m c msg).conns c).receiveLoopState =
      (m.conns c).receiveLoopState := by
  unfold ClientConnection.setClientID
  split_ifs with hid
  · simp [ClientManager.setConn]
  · rfl

/-- The state after `client_connect` when no connection is stored under the client id. -/
theorem handleClientMessage_connect_fresh (m : ClientManager) (c : ConnId) (msg : ClientMessage)
    (o : JsonObject) (now : Time)
    (hT : msg.MsgType = TypeClientConnect) (hD : msg.Data = .object o)
    (hnone : m.clients.lookup (m.conns c).clientID = none) :
    ClientConnection.handleClientMessage m c msg now = .done
      { clients := m.clients.insert (m.conns c).clientID c
        storage := (m.storage.SaveClientInfo
          { o.decodeClientInfo (m.conns c).clientInfo with
            Status := StatusOnline, LastSeen := now }).1
        conns := Function.update m.conns c
          { m.conns c with
            clientInfo := { o.decodeClientInfo (m.conns c).clientInfo with
                            Status := StatusOnline, LastSeen := now } } } := by
  unfold ClientConnection.handleClientMessage
  rw [if_pos hT, hD]
  dsimp only
  rw [AddClient_of_lookup_none]
  · simp [ClientManager.setConn, Outcome.andThen]
  · simpa [ClientManager.setConn] using hnone

/-- The state after `heartbeat`. -/
theorem handleClientMessage_heartbeat (m : ClientManager) (c : ConnId) (msg : ClientMessage)
    (o : JsonObject) (now : Time)
    (hT : msg.MsgType = TypeHeartbeat) (hD : msg.Data = .object o) :
    ClientConnection.handleClientMessage m c msg now = .done
      { clients := m.clients
        storage := (m.storage.SaveClientInfo
          { o.decodeClientInfo (m.conns c).clientInfo with
            Status := StatusOnline, LastSeen := now }).1
        conns := Function.update m.conns c
          { m.conns c with
            clientInfo := { o.decodeClientInfo (m.conns c).clientInfo with
                            Status := StatusOnline, LastSeen := now } } } := by
  have hne1 : ¬ msg.MsgType = TypeClientConnect := by rw [hT]; decide
  unfold ClientConnection.handleClientMessage
  rw [if_neg hne1, if_pos hT, hD]
  simp [ClientManager.setConn]

/-- Decoding the JSON of a `ClientInfo` into a zero value gives the value back: every field
    is written, and a nil `DisconnectedAt` is left out and stays nil. -/
theorem decodeClientInfo_toJson (a : ClientInfo) :
    a.toJson.decodeClientInfo ClientInfo.zero = a := by
  cases a with
  | mk ID Name IPAddress Status ConnectedAt DisconnectedAt LastSeen Version OSInfo =>
    cases DisconnectedAt <;> rfl

/-- Decoding the JSON of a `NetworkRequest` into a zero value gives the value back. -/
theorem decodeNetworkRequest_toJson (r : NetworkRequest) :
    r.toJson.decodeNetworkRequest NetworkRequest.zero = r := rfl

/-- Decoding the JSON of a `ServerConfig` into a zero value gives the value back. -/
theorem decodeServerConfig_toJson (c : ServerConfig) :
    c.toJson.decodeServerConfig ServerConfig.zero = c := rfl

/-- A record saved without error is read back under its id. -/
theorem GetClientInfo_SaveClientInfo (s : Storage) (a : ClientInfo)
    (h : (s.SaveClientInfo a).2 = true) : (s.SaveClientInfo a).1.GetClientInfo a.ID = some a := by
  obtain ⟨h1, -, h3⟩ := (SaveClientInfo_spec s a).1 h
  rw [h1]
  have hd : Storage.isDir { s with files := s.files.insert (s.clientFile a.ID) (.json a.toJson) }
      (s.clientFile a.ID) = false := h3
  have hf : Storage.clientFile
      { s with files := s.files.insert (s.clientFile a.ID) (.json a.toJson) } a.ID
      = s.clientFile a.ID := rfl
  simp [Storage.GetClientInfo, Storage.ReadFile, hf, hd, decodeClientInfo_toJson]

/-- The store reports an error for `X` exactly when the file of `X` cannot be read or does
    not decode. -/
theorem GetClientInfo_eq_none_iff (s : Storage) (X : String) :
    s.GetClientInfo X = none ↔ ∀ o, s.ReadFile (s.clientFile X) ≠ some (.json o) := by
  unfold Storage.GetClientInfo
  split <;> simp_all

/-! ## Displacement (C1) -/

/-- Displacing a session whose receive loop is running never returns. -/
theorem AddClient_blocks_of_running (m : ClientManager) (X : String) (old new : ConnId)
    (d : String) (hold : m.clients.lookup X = some old)
    (hopen : (m.conns old).stopChanClosed = false)
    (hrun : (m.conns old).receiveLoopState = .running d) :
    m.AddClient X new = .blocks := by
  simp [ClientManager.AddClient, hold, ClientConnection.Stop, hopen, hrun, Outcome.andThen]

/-- Displacing a session whose receive loop has exited: the new connection is the only one
    stored under `X`, and the old one has its stop channel and its transport closed. -/
theorem AddClient_displaces_exited (m : ClientManager) (X : String) (old new : ConnId)
    (hold : m.clients.lookup X = some old)
    (hopen : (m.conns old).stopChanClosed = false)
    (hexited : (m.conns old).receiveLoopState = .exited) :
    ∃ m1, m.AddClient X new = .done m1 ∧ m1.clients.lookup X = some new ∧
      m1.clients.keys.count X = 1 ∧
      (m1.conns old).stopChanClosed = true ∧ (m1.conns old).wsClosed = true := by
  have hrun : m.AddClient X new = .done
      { m with
        conns := Function.update m.conns old
          { m.conns old with stopChanClosed := true, wsClosed := true, sendLoopRunning := false }
        clients := m.clients.insert X new } := by
    simp [ClientManager.AddClient, hold, ClientConnection.Stop, hopen, hexited, Outcome.andThen]
  refine ⟨_, hrun, ?_, ?_, ?_, ?_⟩
  · simp
  · exact List.count_eq_one_of_mem (GoMap.keys_nodup _) (GoMap.mem_keys_insert _ _ _)
  · simp
  · simp

/-- C1 (evaluation at the failing input). Session 0 has registered as `A1` and its receive
    loop is running; session 1 has been accepted. `AddClient("A1", 1)` then never returns:
    `Stop` of session 0 waits for a receive loop that cannot finish while `AddClient` holds
    the registry lock. -/
theorem AddClient_displacing_running_session_blocks :
    ∃ m, hubRun hubInit [.accept 0, .receive 0 (.message sampleConnect) ⟨2000, 0⟩, .accept 1]
        = .done m ∧
      m.clients.lookup "A1" = some 0 ∧
      (m.conns 0).receiveLoopState = .running "" ∧
      m.AddClient "A1" 1 = .blocks :=
  ⟨_, rfl, by decide, by decide, rfl⟩

/-! ## Transport failure (C2) -/

/-- C2 (evaluation at the failing input). Session 0 registers as `A1`, then its read fails
    and the receive loop exits. The registry still holds session 0 under `A1`, and
    `GetClient("A1")` still answers with status `online`. -/
theorem receiveLoop_read_failure_keeps_registration :
    ∃ m, hubRun hubInit [.accept 0, .receive 0 (.message sampleConnect) ⟨2000, 0⟩,
          .receive 0 .failure ⟨3000, 0⟩] = .done m ∧
      (m.conns 0).receiveLoopState = .exited ∧
      m.clients.lookup "A1" = some 0 ∧
      m.GetClient "A1" = ({ sampleInfo with LastSeen := ⟨2000, 0⟩ }, true) ∧
      (m.GetClient "A1").1.Status = StatusOnline :=
  ⟨_, rfl, by decide, by decide, by decide, by decide⟩

/-! ## Explicit disconnect (C3) -/

/-- C3 (amended). A session `c` registered under `X`, whose own client id is `X`, handles a
    `client_disconnect` envelope whose payload is a JSON object `o`. The handler returns;
    afterwards the registry holds no entry for `X`; the session's info is the decoded
    payload with status `offline`; its `DisconnectedAt` is the payload's when the payload
    has one, else what the session's info held before. The store is the one
    `SaveClientInfo` leaves for that info: when the write returns no error the store holds
    the info under the info's id, and `GetClient(X)` returns it when its id is `X`; when
    the write fails the store is as it was. -/
theorem handleClientMessage_client_disconnect (m : ClientManager) (c : ConnId) (X : String)
    (msg : ClientMessage) (o : JsonObject) (now : Time)
    (_hreg : m.clients.lookup X = some c) (hid : (m.conns c).clientID = X)
    (hT : msg.MsgType = TypeClientDisconnect) (hD : msg.Data = .object o) :
    ∃ m1, ClientConnection.handleClientMessage m c msg now = .done m1 ∧
      m1.clients.lookup X = none ∧
      (m1.conns c).clientInfo =
        { o.decodeClientInfo (m.conns c).clientInfo with Status := StatusOffline } ∧
      (m1.conns c).clientInfo.Status = StatusOffline ∧
      (m1.conns c).clientInfo.DisconnectedAt =
        o.disconnectedAt.getD (m.conns c).clientInfo.DisconnectedAt ∧
      m1.storage = (m.storage.SaveClientInfo (m1.conns c).clientInfo).1 ∧
      ((m.storage.SaveClientInfo (m1.conns c).clientInfo).2 = true →
        m1.storage.GetClientInfo (m1.conns c).clientInfo.ID = some (m1.conns c).clientInfo ∧
        ((m1.conns c).clientInfo.ID = X → m1.GetClient X = ((m1.conns c).clientInfo, true))) ∧
      ((m.storage.SaveClientInfo (m1.conns c).clientInfo).2 = false →
        m1.storage = m.storage) := by
  have hne1 : ¬ msg.MsgType = TypeClientConnect := by rw [hT]; decide
  have hne2 : ¬ msg.MsgType = TypeHeartbeat := by rw [hT]; decide
  have key : ∃ m1, ClientConnection.handleClientMessage m c msg now = .done m1 ∧
      m1.clients = m.clients.erase X ∧
      (m1.conns c).clientInfo =
        { o.decodeClientInfo (m.conns c).clientInfo with Status := StatusOffline } ∧
      m1.storage = (m.storage.SaveClientInfo (m1.conns c).clientInfo).1 := by
    refine ⟨?m1, ?heq, ?_, ?_, ?_⟩
    case heq =>
      unfold ClientConnection.handleClientMessage
      rw [if_neg hne1, if_neg hne2, if_pos hT, hD]
      exact rfl
    · simp [ClientManager.RemoveClient, ClientManager.setConn, hid]
    · simp [ClientManager.RemoveClient, ClientManager.setConn]
    · simp [ClientManager.RemoveClient, ClientManager.setConn]
  obtain ⟨m1, e1, e2, e3, e4⟩ := key
  refine ⟨m1, e1, ?_, e3, ?_, ?_, e4, ?_, ?_⟩
  · rw [e2]; simp
  · rw [e3]
  · rw [e3]; simp [JsonObject.decodeClientInfo]
  · intro hok
    have hs : m1.storage.GetClientInfo (m1.conns c).clientInfo.ID
        = some (m1.conns c).clientInfo := by
      rw [e4]; exact GetClientInfo_SaveClientInfo _ _ hok
    refine ⟨hs, fun hX => ?_⟩
    rw [hX] at hs
    simp [ClientManager.GetClient, e2, hs]
  · intro hno
    rw [e4]
    exact (SaveClientInfo_spec _ _).2 hno

/-- C3 (witness). Session 0 is registered under `A1` and handles a `client_disconnect`. -/
theorem handleClientMessage_client_disconnect_witness :
    ∃ m, hubRun hubInit [.accept 0, .receive 0 (.message sampleConnect) ⟨2000, 0⟩] = .done m ∧
    ∃ m1, ClientConnection.handleClientMessage m 0 sampleDisconnect ⟨62000, 0⟩ = .done m1 ∧
      m1.clients.lookup "A1" = none ∧
      (m1.conns 0).clientInfo =
        { sampleOfflineInfo.toJson.decodeClientInfo
            (m.conns 0).clientInfo with Status := StatusOffline } ∧
      (m1.conns 0).clientInfo.Status = StatusOffline ∧
      (m1.conns 0).clientInfo.DisconnectedAt =
        sampleOfflineInfo.toJson.disconnectedAt.getD
          (m.conns 0).clientInfo.DisconnectedAt ∧
      m1.storage = (m.storage.SaveClientInfo (m1.conns 0).clientInfo).1 ∧
      ((m.storage.SaveClientInfo (m1.conns 0).clientInfo).2 = true →
        m1.storage.GetClientInfo (m1.conns 0).clientInfo.ID = some (m1.conns 0).clientInfo ∧
        ((m1.conns 0).clientInfo.ID = "A1" →
          m1.GetClient "A1" = ((m1.conns 0).clientInfo, true))) ∧
      ((m.storage.SaveClientInfo (m1.conns 0).clientInfo).2 = false →
        m1.storage = m.storage) :=
  ⟨_, rfl, handleClientMessage_client_disconnect _ 0 "A1" sampleDisconnect
    sampleOfflineInfo.toJson ⟨62000, 0⟩ (by decide) (by decide) rfl rfl⟩

/-- C3 (counterexample). Session 0 is registered under `A1` and handles a `client_disconnect`
    envelope carrying an AgentInfo that has no disconnected-at: the info `GetClient("A1")`
    returns afterwards has status `offline` but no disconnected-at timestamp. -/
theorem client_disconnect_without_timestamp :
    ∃ m m1, hubRun hubInit [.accept 0, .receive 0 (.message sampleConnect) ⟨2000, 0⟩] = .done m ∧
      m.clients.lookup "A1" = some 0 ∧
      ClientConnection.handleClientMessage m 0 sampleDisconnect ⟨62000, 0⟩ = .done m1 ∧
      m1.clients.lookup "A1" = none ∧
      (m1.GetClient "A1").2 = true ∧
      (m1.GetClient "A1").1.Status = StatusOffline ∧
      (m1.GetClient "A1").1.DisconnectedAt = none :=
  ⟨_, _, rfl, by decide, rfl, by decide, by decide, by decide, by decide⟩

/-- When the id carries a path separator the record is not written. Session 0 registers
    as `a/b` and handles a `client_disconnect`: both writes fail, for want of a directory
    `clients/a`, the store stays empty, and `GetClient("a/b")` finds nothing. -/
theorem client_disconnect_not_persisted :
    ∃ m, hubRun hubInit [.accept 0, .receive 0 (.message sampleConnectSlash) ⟨2000, 0⟩,
          .receive 0 (.message sampleDisconnectSlash) ⟨62000, 0⟩] = .done m ∧
      m.clients.lookup "a/b" = none ∧
      m.storage.files.toList = [] ∧
      (m.GetClient "a/b").2 = false :=
  ⟨_, rfl, by decide, by decide, by decide⟩

/-! ## The hub's goroutines: handlers statement by statement -/

/-- Running the statements of a handler one after the other is `handleClientMessage`. -/
theorem runStmts_handlerBody (m : ClientManager) (c : ConnId) (msg : ClientMessage)
    (now : Time) :
    runStmts m c (handlerBody msg now) = ClientConnection.handleClientMessage m c msg now := by
  unfold handlerBody ClientConnection.handleClientMessage
  cases hD : msg.Data with
  | other =>
    simp only
    split_ifs <;> rfl
  | object o =>
    simp only
    split_ifs with h1 h2 h3 h4
    · simp only [runStmts, execStmt, Outcome.andThen, ClientManager.setConn,
        Function.update_same, Function.update_idem]
    · simp only [runStmts, execStmt, Outcome.andThen, ClientManager.setConn,
        Function.update_same, Function.update_idem]
    · simp only [runStmts, execStmt, Outcome.andThen, ClientManager.setConn,
        Function.update_same, Function.update_idem]
    · rfl
    · rfl

/-- The statements a connection has pending can be run to their end. -/
theorem Reachable_runStmts (stmts : List Stmt) (h : HubState) (c : ConnId) (m1 : ClientManager)
    (hr : Reachable h) (hp : h.pending c = stmts)
    (hrun : runStmts h.hub c stmts = .done m1) :
    Reachable { hub := m1, pending := Function.update h.pending c [] } := by
  induction stmts generalizing h with
  | nil =>
    simp only [runStmts, Outcome.done.injEq] at hrun
    subst hrun
    have : Function.update h.pending c [] = h.pending := by
      rw [← hp]; exact Function.update_eq_self c h.pending
    rw [this]
    exact hr
  | cons stmt rest ih =>
    simp only [runStmts] at hrun
    cases he : execStmt h.hub c stmt with
    | done m2 =>
      rw [he] at hrun
      simp only [Outcome.andThen] at hrun
      have hstep : hubMove h (.exec c) =
          .done { hub := m2, pending := Function.update h.pending c rest } := by
        simp only [hubMove, hp, he, Outcome.andThen]
      have := ih { hub := m2, pending := Function.update h.pending c rest }
        (Reachable.step (.exec c) hr hstep) (by simp) hrun
      simpa [Function.update_idem] using this
    | panics => rw [he] at hrun; simp [Outcome.andThen] at hrun
    | blocks => rw [he] at hrun; simp [Outcome.andThen] at hrun

/-- An event of the hub that runs without interleaving is a sequence of moves. -/
theorem Reachable_hubStep (h : HubState) (e : HubEvent) (m1 : ClientManager)
    (hr : Reachable h) (hp : ∀ c, h.pending c = [])
    (hs : hubStep h.hub e = .done m1) : Reachable { hub := m1, pending := h.pending } := by
  cases e with
  | accept c =>
    simp only [hubStep, Outcome.done.injEq] at hs
    subst hs
    exact Reachable.step (.accept c) hr rfl
  | receive c r now =>
    simp only [hubStep] at hs
    unfold ClientConnection.receiveLoop at hs
    cases hst : (h.hub.conns c).receiveLoopState with
    | notStarted => rw [hst] at hs; cases hs; exact hr
    | exited => rw [hst] at hs; cases hs; exact hr
    | running d =>
      rw [hst] at hs
      simp only at hs
      by_cases hstop : (h.hub.conns c).stopChanClosed = true
      · rw [if_pos hstop] at hs
        cases hs
        refine Reachable.step (.read c r now) hr ?_
        simp only [hubMove, hp c, hst, hstop, if_true]
      · rw [if_neg hstop] at hs
        cases r with
        | failure =>
          cases hs
          refine Reachable.step (.read c .failure now) hr ?_
          simp only [hubMove, hp c, hst, hstop]
          rfl
        | garbage => cases hs; exact hr
        | message msg =>
          simp only at hs
          have hstep : hubMove h (.read c (.message msg) now) =
              .done { hub := ClientConnection.setClientID h.hub c msg
                      pending := Function.update h.pending c (handlerBody msg now) } := by
            simp only [hubMove, hp c, hst, hstop]
            rfl
          rw [← runStmts_handlerBody] at hs
          have := Reachable_runStmts (handlerBody msg now) _ c m1
            (Reachable.step _ hr hstep) (by simp) hs
          have hq : Function.update h.pending c [] = h.pending := by
            rw [← hp c]; exact Function.update_eq_self c h.pending
          simpa [Function.update_idem, hq] using this

/-- A state reached by events that run without interleaving is reachable. -/
theorem Reachable_hubRun (es : List HubEvent) (h : HubState) (m1 : ClientManager)
    (hr : Reachable h) (hp : ∀ c, h.pending c = [])
    (hs : hubRun h.hub es = .done m1) : Reachable { hub := m1, pending := h.pending } := by
  induction es generalizing h with
  | nil =>
    simp only [hubRun, Outcome.done.injEq] at hs
    subst hs
    exact hr
  | cons e es ih =>
    simp only [hubRun] at hs
    cases he : hubStep h.hub e with
    | done m2 =>
      rw [he] at hs
      simp only [Outcome.andThen] at hs
      exact ih { hub := m2, pending := h.pending } (Reachable_hubStep h e m2 hr hp he) hp hs
    | panics => rw [he] at hs; simp [Outcome.andThen] at hs
    | blocks => rw [he] at hs; simp [Outcome.andThen] at hs

/-- A state reached from start-up by events that run without interleaving is reachable,
    and in it no connection is handling a message. -/
theorem Reachable_of_hubRun (es : List HubEvent) (m : ClientManager)
    (h : hubRun hubInit es = .done m) : Reachable { hub := m, pending := fun _ => [] } :=
  Reachable_hubRun es hubStart m Reachable.init (fun _ => rfl) h

/-! ## Status and registry (C4) -/

/-- The invariant holds at start-up. -/
theorem HubInv_start : HubInv hubStart := by
  refine ⟨?_, ?_, ?_, ?_⟩
  · intro c d h
    simp [hubStart, hubInit, NewClientManager, NewClientConnection] at h
  · intro c h
    exact absurd rfl h
  · intro c h
    simp [hubStart] at h
  · intro k c h
    simp [hubStart, hubInit, NewClientManager] at h

/-- What assigning a new info to a connection leaves unchanged. -/
theorem setInfo_fields (m : ClientManager) (c : ConnId) (info : ClientInfo) :
    (m.setConn c { m.conns c with clientInfo := info }).clients = m.clients ∧
    (∀ p, ((m.setConn c { m.conns c with clientInfo := info }).conns p).stopChanClosed =
      (m.conns p).stopChanClosed) ∧
    (∀ p, ((m.setConn c { m.conns c with clientInfo := info }).conns p).receiveLoopState =
      (m.conns p).receiveLoopState) ∧
    (∀ p, ((m.setConn c { m.conns c with clientInfo := info }).conns p).clientID =
      (m.conns p).clientID) ∧
    (∀ p, p ≠ c → ((m.setConn c { m.conns c with clientInfo := info }).conns p).clientInfo =
      (m.conns p).clientInfo) ∧
    ((m.setConn c { m.conns c with clientInfo := info }).conns c).clientInfo = info := by
  refine ⟨rfl, ?_, ?_, ?_, ?_, ?_⟩
  · intro p
    by_cases hp : p = c
    · subst hp; simp [ClientManager.setConn]
    · simp [ClientManager.setConn, Function.update_noteq hp]
  · intro p
    by_cases hp : p = c
    · subst hp; simp [ClientManager.setConn]
    · simp [ClientManager.setConn, Function.update_noteq hp]
  · intro p
    by_cases hp : p = c
    · subst hp; simp [ClientManager.setConn]
    · simp [ClientManager.setConn, Function.update_noteq hp]
  · intro p hp
    simp [ClientManager.setConn, Function.update_noteq hp]
  · simp [ClientManager.setConn]

/-- A move of connection `c` that leaves the registry, the stop channels and the loop
    states as they are keeps the invariant, when what `c` has left to run still leads it to
    unregister or to the status online. -/
theorem HubInv_local (h : HubState) (c : ConnId) (m1 : ClientManager) (rest : List Stmt)
    (hinv : HubInv h)
    (hc : m1.clients = h.hub.clients)
    (hs : ∀ p, (m1.conns p).stopChanClosed = (h.hub.conns p).stopChanClosed)
    (hl : ∀ p, (m1.conns p).receiveLoopState = (h.hub.conns p).receiveLoopState)
    (hi : ∀ p, (h.hub.conns p).clientID ≠ "" → (m1.conns p).clientID = (h.hub.conns p).clientID)
    (hinfo : ∀ p, p ≠ c → (m1.conns p).clientInfo = (h.hub.conns p).clientInfo)
    (hrun : rest ≠ [] → ∃ d, (h.hub.conns c).receiveLoopState = .running d)
    (hadd : Stmt.addClient ∈ rest →
      statusAfter rest (m1.conns c).clientInfo.Status = StatusOnline)
    (hset : ∀ k, h.hub.clients.lookup k = some c → k ≠ "" →
      Stmt.removeClient ∈ rest ∨
        statusAfter rest (m1.conns c).clientInfo.Status = StatusOnline) :
    HubInv { hub := m1, pending := Function.update h.pending c rest } := by
  obtain ⟨i1, i2, i3, i4⟩ := hinv
  refine ⟨?_, ?_, ?_, ?_⟩
  · intro p d hp
    simp only at hp ⊢
    rw [hl] at hp
    rw [hs]
    exact i1 p d hp
  · intro p hp
    simp only at hp ⊢
    simp only [hl]
    by_cases hpc : p = c
    · subst hpc
      rw [Function.update_same] at hp
      exact hrun hp
    · rw [Function.update_noteq hpc] at hp
      exact i2 p hp
  · intro p hp
    simp only at hp ⊢
    by_cases hpc : p = c
    · subst hpc
      rw [Function.update_same] at hp ⊢
      exact hadd hp
    · rw [Function.update_noteq hpc] at hp ⊢
      rw [hinfo p hpc]
      exact i3 p hp
  · intro k p hp
    simp only at hp ⊢
    rw [hc] at hp
    obtain ⟨a1, a2, a3, a4⟩ := i4 k p hp
    rw [hl, hs]
    refine ⟨a1, a2, a3, ?_⟩
    intro hk
    obtain ⟨b1, b2⟩ := a4 hk
    refine ⟨?_, ?_⟩
    · rw [hi p (by rw [b1]; exact hk)]
      exact b1
    · by_cases hpc : p = c
      · subst hpc
        rw [Function.update_same]
        exact hset k hp hk
      · rw [Function.update_noteq hpc, hinfo p hpc]
        exact b2

/-- A statement other than `RemoveClient` that changes neither the registry
    nor any stop channel, loop state or client id, and whose effect on the status is the
    one `statusAfter` accounts for, keeps the invariant. -/
theorem HubInv_exec_plain (h : HubState) (c : ConnId) (stmt : Stmt) (rest : List Stmt)
    (m1 : ClientManager) (hinv : HubInv h) (hp : h.pending c = stmt :: rest)
    (hne2 : stmt ≠ .removeClient)
    (hc : m1.clients = h.hub.clients)
    (hs : ∀ p, (m1.conns p).stopChanClosed = (h.hub.conns p).stopChanClosed)
    (hl : ∀ p, (m1.conns p).receiveLoopState = (h.hub.conns p).receiveLoopState)
    (hi : ∀ p, (m1.conns p).clientID = (h.hub.conns p).clientID)
    (hinfo : ∀ p, p ≠ c → (m1.conns p).clientInfo = (h.hub.conns p).clientInfo)
    (hstat : statusAfter (stmt :: rest) (h.hub.conns c).clientInfo.Status =
      statusAfter rest (m1.conns c).clientInfo.Status) :
    HubInv { hub := m1, pending := Function.update h.pending c rest } := by
  have hpne : h.pending c ≠ [] := by rw [hp]; simp
  refine HubInv_local h c m1 rest hinv hc hs hl (fun p _ => hi p) hinfo
    (fun _ => hinv.2.1 c hpne) ?_ ?_
  · intro hadd
    rw [← hstat, ← hp]
    exact hinv.2.2.1 c (by rw [hp]; exact List.mem_cons_of_mem _ hadd)
  · intro k hk hne
    rcases ((hinv.2.2.2 k c hk).2.2.2 hne).2 with hrem | hst
    · left
      rw [hp] at hrem
      rcases List.mem_cons.mp hrem with e | e
      · exact absurd e.symm hne2
      · exact e
    · right
      rw [← hstat, ← hp]
      exact hst

/-- `RemoveClient` by a connection handling a message keeps the invariant. -/
theorem HubInv_removeClient (h : HubState) (c : ConnId) (rest : List Stmt) (hinv : HubInv h)
    (hp : h.pending c = .removeClient :: rest) :
    HubInv { hub := h.hub.RemoveClient (h.hub.conns c).clientID
             pending := Function.update h.pending c rest } := by
  have hpne : h.pending c ≠ [] := by rw [hp]; simp
  obtain ⟨i1, i2, i3, i4⟩ := hinv
  refine ⟨i1, ?_, ?_, ?_⟩
  · intro p hq
    simp only at hq ⊢
    by_cases hpc : p = c
    · subst hpc; exact i2 p hpne
    · rw [Function.update_noteq hpc] at hq
      exact i2 p hq
  · intro p hq
    simp only at hq ⊢
    by_cases hpc : p = c
    · subst hpc
      rw [Function.update_same] at hq ⊢
      have := i3 p (by rw [hp]; exact List.mem_cons_of_mem _ hq)
      rw [hp] at this
      exact this
    · rw [Function.update_noteq hpc] at hq ⊢
      exact i3 p hq
  · intro k p hq
    simp only at hq ⊢
    by_cases hkk : k = (h.hub.conns c).clientID
    · subst hkk
      simp [ClientManager.RemoveClient] at hq
    · have hq1 : h.hub.clients.lookup k = some p := by
        simpa [ClientManager.RemoveClient, GoMap.lookup_erase_ne _ hkk] using hq
      obtain ⟨a1, a2, a3, a4⟩ := i4 k p hq1
      refine ⟨a1, a2, a3, ?_⟩
      intro hk
      obtain ⟨b1, b2⟩ := a4 hk
      refine ⟨b1, ?_⟩
      by_cases hpc : p = c
      · subst hpc
        exact absurd b1.symm hkk
      · rw [Function.update_noteq hpc]
        exact b2

/-- An `AddClient` that returns, called by a connection handling a message, keeps the
    invariant: the session it stopped had exited and was stored under no other id. -/
theorem HubInv_addClient (h : HubState) (c : ConnId) (rest : List Stmt) (m1 : ClientManager)
    (hinv : HubInv h) (hp : h.pending c = .addClient :: rest)
    (hA : h.hub.AddClient (h.hub.conns c).clientID c = .done m1) :
    HubInv { hub := m1, pending := Function.update h.pending c rest } := by
  have hpne : h.pending c ≠ [] := by rw [hp]; simp
  obtain ⟨i1, i2, i3, i4⟩ := hinv
  obtain ⟨d, hrun⟩ := i2 c hpne
  have hopen : (h.hub.conns c).stopChanClosed = false := (i1 c d hrun).2
  have honline : statusAfter rest (h.hub.conns c).clientInfo.Status = StatusOnline := by
    have := i3 c (by rw [hp]; exact List.mem_cons_self _ _)
    rw [hp] at this
    exact this
  obtain ⟨e1, -, e3⟩ := AddClient_done _ _ _ _ hA
  -- the stop channels of the connections the registry holds afterwards
  have hstop : ∀ k p, m1.clients.lookup k = some p →
      (m1.conns p).stopChanClosed = (h.hub.conns p).stopChanClosed ∧
      (k ≠ (h.hub.conns c).clientID → h.hub.clients.lookup k = some p) := by
    intro k p hq
    rw [e1] at hq
    unfold ClientManager.AddClient at hA
    split at hA
    · rename_i existing hex
      cases hs : (h.hub.conns existing).Stop with
      | done stopped =>
        rw [hs] at hA
        simp only [Outcome.andThen, Outcome.done.injEq] at hA
        subst hA
        obtain ⟨-, -, -, -, -, -, h7⟩ := Stop_done_fields _ _ hs
        have hce : c ≠ existing := by
          intro hce
          subst hce
          exact h7 d hrun
        have hexited : (h.hub.conns existing).receiveLoopState = .exited := by
          cases hst : (h.hub.conns existing).receiveLoopState with
          | notStarted => exact absurd hst (i4 _ existing hex).1
          | running e => exact absurd hst (h7 e)
          | exited => rfl
        have hk : (h.hub.conns c).clientID ≠ "" := (i4 _ existing hex).2.2.1 hexited
        by_cases hkk : k = (h.hub.conns c).clientID
        · subst hkk
          simp only [GoMap.lookup_insert, Option.some.injEq] at hq
          subst hq
          simp only [Function.update_noteq hce]
          exact ⟨trivial, fun hx => absurd rfl hx⟩
        · simp only [GoMap.lookup_insert_ne _ _ hkk] at hq
          have hpe : p ≠ existing := by
            intro hpe
            subst hpe
            have hk1 : k ≠ "" := (i4 k p hq).2.2.1 hexited
            have x1 := ((i4 k p hq).2.2.2 hk1).1
            have x2 := ((i4 _ p hex).2.2.2 hk).1
            exact hkk (x1.symm.trans x2)
          simp only [Function.update_noteq hpe]
          exact ⟨trivial, fun _ => hq⟩
      | panics => rw [hs] at hA; simp [Outcome.andThen] at hA
      | blocks => rw [hs] at hA; simp [Outcome.andThen] at hA
    · simp only [Outcome.done.injEq] at hA
      subst hA
      refine ⟨rfl, fun hkk => ?_⟩
      simpa [GoMap.lookup_insert_ne _ _ hkk] using hq
  refine ⟨?_, ?_, ?_, ?_⟩
  · intro p e hq
    simp only at hq ⊢
    rw [(e3 p).2.2] at hq
    refine ⟨(i1 p e hq).1, ?_⟩
    -- a running connection is not the one that was stopped
    unfold ClientManager.AddClient at hA
    split at hA
    · rename_i existing hex
      cases hs : (h.hub.conns existing).Stop with
      | done stopped =>
        rw [hs] at hA
        simp only [Outcome.andThen, Outcome.done.injEq] at hA
        subst hA
        obtain ⟨-, -, -, -, -, -, h7⟩ := Stop_done_fields _ _ hs
        have hpe : p ≠ existing := by
          intro hpe
          subst hpe
          exact h7 e hq
        simp only [Function.update_noteq hpe]
        exact (i1 p e hq).2
      | panics => rw [hs] at hA; simp [Outcome.andThen] at hA
      | blocks => rw [hs] at hA; simp [Outcome.andThen] at hA
    · simp only [Outcome.done.injEq] at hA
      subst hA
      exact (i1 p e hq).2
  · intro p hq
    simp only at hq ⊢
    rw [(e3 p).2.2]
    by_cases hpc : p = c
    · subst hpc; exact ⟨d, hrun⟩
    · rw [Function.update_noteq hpc] at hq
      exact i2 p hq
  · intro p hq
    simp only at hq ⊢
    rw [(e3 p).2.1]
    by_cases hpc : p = c
    · subst hpc
      rw [Function.update_same] at hq ⊢
      exact honline
    · rw [Function.update_noteq hpc] at hq ⊢
      exact i3 p hq
  · intro k p hq
    simp only at hq ⊢
    obtain ⟨s1, s2⟩ := hstop k p hq
    rw [(e3 p).2.2, (e3 p).1, (e3 p).2.1, s1]
    by_cases hkk : k = (h.hub.conns c).clientID
    · subst hkk
      rw [e1] at hq
      simp only [GoMap.lookup_insert, Option.some.injEq] at hq
      subst hq
      rw [Function.update_same]
      refine ⟨by rw [hrun]; simp, hopen, (fun hx => by rw [hrun] at hx; cases hx), ?_⟩
      intro _
      exact ⟨rfl, Or.inr honline⟩
    · obtain ⟨a1, a2, a3, a4⟩ := i4 k p (s2 hkk)
      refine ⟨a1, a2, a3, ?_⟩
      intro hk
      obtain ⟨b1, b2⟩ := a4 hk
      refine ⟨b1, ?_⟩
      by_cases hpc : p = c
      · subst hpc
        exact absurd b1.symm hkk
      · rw [Function.update_noteq hpc]
        exact b2

/-- A handler that calls `AddClient` leaves the status online. -/
theorem statusAfter_handlerBody_addClient (msg : ClientMessage) (now : Time)
    (status : ClientStatus) (h : Stmt.addClient ∈ handlerBody msg now) :
    statusAfter (handlerBody msg now) status = StatusOnline := by
  unfold handlerBody at h ⊢
  cases hD : msg.Data with
  | other => rw [hD] at h; simp at h
  | object o =>
    rw [hD] at h
    simp only at h ⊢
    split_ifs at h ⊢ with h1 h2 h3 h4
    · rfl
    · simp at h
    · simp at h
    · simp at h
    · simp at h

/-- A handler started on a status online unregisters the session or leaves the status
    online. -/
theorem statusAfter_handlerBody_online (msg : ClientMessage) (now : Time) :
    Stmt.removeClient ∈ handlerBody msg now ∨
      statusAfter (handlerBody msg now) StatusOnline = StatusOnline := by
  unfold handlerBody
  cases hD : msg.Data with
  | other => right; rfl
  | object o =>
    simp only
    split_ifs with h1 h2 h3 h4
    · right; rfl
    · right; rfl
    · left; simp
    · right; rfl
    · right; rfl

/-- Leaving the receive loop keeps the invariant: the deferred `RemoveClient` removes the
    entry of the empty id. -/
theorem HubInv_exit (h : HubState) (c : ConnId) (d : String) (hinv : HubInv h)
    (hp : h.pending c = []) (hd : (h.hub.conns c).receiveLoopState = .running d) :
    HubInv { h with hub := ClientConnection.receiveLoopExit h.hub c d } := by
  obtain ⟨i1, i2, i3, i4⟩ := hinv
  have hd0 : d = "" := (i1 c d hd).1
  subst hd0
  have hconn : ∀ p, p ≠ c →
      (ClientConnection.receiveLoopExit h.hub c "").conns p = h.hub.conns p := by
    intro p hpc
    simp [ClientConnection.receiveLoopExit, ClientManager.setConn, ClientManager.RemoveClient,
      Function.update_noteq hpc]
  have hself : (ClientConnection.receiveLoopExit h.hub c "").conns c =
      { h.hub.conns c with receiveLoopState := .exited } := by
    simp [ClientConnection.receiveLoopExit, ClientManager.setConn, ClientManager.RemoveClient]
  refine ⟨?_, ?_, ?_, ?_⟩
  · intro p e hq
    simp only at hq ⊢
    by_cases hpc : p = c
    · subst hpc
      rw [hself] at hq
      cases hq
    · rw [hconn p hpc] at hq ⊢
      exact i1 p e hq
  · intro p hq
    simp only at hq ⊢
    have hpc : p ≠ c := by
      intro hpc
      subst hpc
      exact hq hp
    rw [hconn p hpc]
    exact i2 p hq
  · intro p hq
    simp only at hq ⊢
    have hpc : p ≠ c := by
      intro hpc
      subst hpc
      rw [hp] at hq
      simp at hq
    rw [hconn p hpc]
    exact i3 p hq
  · intro k p hq
    simp only at hq ⊢
    have hk : k ≠ "" := by
      intro hk
      subst hk
      simp [ClientConnection.receiveLoopExit, ClientManager.setConn,
        ClientManager.RemoveClient] at hq
    have hq1 : h.hub.clients.lookup k = some p := by
      simpa [ClientConnection.receiveLoopExit, ClientManager.setConn,
        ClientManager.RemoveClient, GoMap.lookup_erase_ne _ hk] using hq
    obtain ⟨a1, a2, a3, a4⟩ := i4 k p hq1
    by_cases hpc : p = c
    · subst hpc
      rw [hself]
      exact ⟨by simp, a2, fun _ => hk, a4⟩
    · rw [hconn p hpc]
      exact ⟨a1, a2, a3, a4⟩

/-- Every move that returns keeps the invariant. -/
theorem HubInv_hubMove (h h1 : HubState) (mv : Move) (hinv : HubInv h)
    (hstep : hubMove h mv = .done h1) : HubInv h1 := by
  cases mv with
  | accept c =>
    simp only [hubMove, Outcome.done.injEq] at hstep
    subst hstep
    obtain ⟨i1, i2, i3, i4⟩ := hinv
    unfold API.handleWebSocket
    split
    · rename_i hns
      have hconn : ∀ p, p ≠ c →
          (h.hub.setConn c NewClientConnection.Start).conns p = h.hub.conns p := by
        intro p hpc
        simp [ClientManager.setConn, Function.update_noteq hpc]
      have hrunning : ∀ p, (∃ d, (h.hub.conns p).receiveLoopState = .running d) → p ≠ c := by
        intro p ⟨d, hd⟩ hpc
        subst hpc
        rw [hns] at hd
        cases hd
      refine ⟨?_, ?_, ?_, ?_⟩
      · intro p e hq
        simp only at hq ⊢
        by_cases hpc : p = c
        · subst hpc
          simp [ClientManager.setConn, ClientConnection.Start, NewClientConnection] at hq ⊢
          exact hq.symm
        · rw [hconn p hpc] at hq ⊢
          exact i1 p e hq
      · intro p hq
        simp only at hq ⊢
        have hpc := hrunning p (i2 p hq)
        rw [hconn p hpc]
        exact i2 p hq
      · intro p hq
        simp only at hq ⊢
        have hpc := hrunning p (i2 p (by intro e; rw [e] at hq; simp at hq))
        rw [hconn p hpc]
        exact i3 p hq
      · intro k p hq
        simp only at hq ⊢
        have hq1 : h.hub.clients.lookup k = some p := hq
        have hpc : p ≠ c := by
          intro hpc
          subst hpc
          exact (i4 k p hq1).1 hns
        rw [hconn p hpc]
        exact i4 k p hq1
    · exact ⟨i1, i2, i3, i4⟩
  | read c r now =>
    simp only [hubMove] at hstep
    cases hp : h.pending c with
    | cons stmt rest => rw [hp] at hstep; cases hstep; exact hinv
    | nil =>
      rw [hp] at hstep
      cases hst : (h.hub.conns c).receiveLoopState with
      | notStarted => rw [hst] at hstep; cases hstep; exact hinv
      | exited => rw [hst] at hstep; cases hstep; exact hinv
      | running d =>
        rw [hst] at hstep
        simp only at hstep
        by_cases hstop : (h.hub.conns c).stopChanClosed = true
        · rw [if_pos hstop] at hstep
          cases hstep
          exact HubInv_exit h c d hinv hp hst
        · rw [if_neg hstop] at hstep
          cases r with
          | failure => cases hstep; exact HubInv_exit h c d hinv hp hst
          | garbage => cases hstep; exact hinv
          | message msg =>
            simp only [Outcome.done.injEq] at hstep
            subst hstep
            obtain ⟨f1, -, f3, f4, f5, -⟩ := setClientID_fields h.hub c msg
            refine HubInv_local h c _ _ hinv f1 f5 f4 ?_ (fun p _ => f3 p)
              (fun _ => ⟨d, hst⟩) ?_ ?_
            · intro p hne
              unfold ClientConnection.setClientID
              split_ifs with hid
              · by_cases hpc : p = c
                · subst hpc; exact absurd hid hne
                · simp [ClientManager.setConn, Function.update_noteq hpc]
              · rfl
            · intro hadd
              exact statusAfter_handlerBody_addClient msg now _ hadd
            · intro k hk hne
              rcases ((hinv.2.2.2 k c hk).2.2.2 hne).2 with hrem | hs
              · rw [hp] at hrem
                simp at hrem
              · rw [hp] at hs
                simp only [statusAfter] at hs
                rw [f3 c, hs]
                exact statusAfter_handlerBody_online msg now
  | exec c =>
    simp only [hubMove] at hstep
    cases hp : h.pending c with
    | nil => rw [hp] at hstep; cases hstep; exact hinv
    | cons stmt rest =>
      rw [hp] at hstep
      simp only at hstep
      cases stmt with
      | unmarshalInfo o =>
        simp only [execStmt, Outcome.andThen, Outcome.done.injEq] at hstep
        subst hstep
        obtain ⟨g1, g2, g3, g4, g5, g6⟩ := setInfo_fields h.hub c
          (o.decodeClientInfo (h.hub.conns c).clientInfo)
        refine HubInv_exec_plain h c _ rest _ hinv hp (by simp) g1 g2 g3 g4 g5 ?_
        rw [g6]
        rfl
      | setStatus status =>
        simp only [execStmt, Outcome.andThen, Outcome.done.injEq] at hstep
        subst hstep
        obtain ⟨g1, g2, g3, g4, g5, g6⟩ := setInfo_fields h.hub c
          { (h.hub.conns c).clientInfo with Status := status }
        refine HubInv_exec_plain h c _ rest _ hinv hp (by simp) g1 g2 g3 g4 g5 ?_
        rw [g6]
        rfl
      | setLastSeen t =>
        simp only [execStmt, Outcome.andThen, Outcome.done.injEq] at hstep
        subst hstep
        obtain ⟨g1, g2, g3, g4, g5, g6⟩ := setInfo_fields h.hub c
          { (h.hub.conns c).clientInfo with LastSeen := t }
        refine HubInv_exec_plain h c _ rest _ hinv hp (by simp) g1 g2 g3 g4 g5 ?_
        rw [g6]
        rfl
      | addClient =>
        simp only [execStmt] at hstep
        cases hA : h.hub.AddClient (h.hub.conns c).clientID c with
        | done m1 =>
          rw [hA] at hstep
          simp only [Outcome.andThen, Outcome.done.injEq] at hstep
          subst hstep
          exact HubInv_addClient h c rest m1 hinv hp hA
        | panics => rw [hA] at hstep; simp [Outcome.andThen] at hstep
        | blocks => rw [hA] at hstep; simp [Outcome.andThen] at hstep
      | saveClientInfo =>
        simp only [execStmt, Outcome.andThen, Outcome.done.injEq] at hstep
        subst hstep
        exact HubInv_exec_plain h c _ rest _ hinv hp (by simp) rfl (fun _ => rfl)
          (fun _ => rfl) (fun _ => rfl) (fun _ _ => rfl) rfl
      | removeClient =>
        simp only [execStmt, Outcome.andThen, Outcome.done.injEq] at hstep
        subst hstep
        exact HubInv_removeClient h c rest hinv hp
      | saveNetworkRequest request =>
        simp only [execStmt, Outcome.andThen, Outcome.done.injEq] at hstep
        subst hstep
        exact HubInv_exec_plain h c _ rest _ hinv hp (by simp) rfl (fun _ => rfl)
          (fun _ => rfl) (fun _ => rfl) (fun _ _ => rfl) rfl

/-- The invariant holds in every reachable state. -/
theorem HubInv_of_Reachable (h : HubState) (hr : Reachable h) : HubInv h := by
  induction hr with
  | init => exact HubInv_start
  | step mv _ hstep ih => exact HubInv_hubMove _ _ mv ih hstep

/-- C4 (amended). In every state the hub reaches from the empty registry and the empty
    store, in any interleaving of its goroutines: for every non-empty agent id `X` that
    the registry holds for a session that is not in the middle of handling a message,
    `GetClient(X)` finds an info and its status is `online`. -/
theorem registered_implies_online (h : HubState) (hr : Reachable h) (X : String) (c : ConnId)
    (hX : X ≠ "") (hreg : h.hub.clients.lookup X = some c) (hidle : h.pending c = []) :
    (h.hub.GetClient X).2 = true ∧ (h.hub.GetClient X).1.Status = StatusOnline := by
  have := ((HubInv_of_Reachable h hr).2.2.2 X c hreg).2.2.2 hX
  rw [hidle] at this
  have hs : (h.hub.conns c).clientInfo.Status = StatusOnline := by
    rcases this.2 with hrem | hs
    · simp at hrem
    · exact hs
  simp [ClientManager.GetClient, hreg, hs]

/-- C4 (witness). -/
theorem registered_implies_online_witness :
    ∃ m, hubRun hubInit [.accept 0, .receive 0 (.message sampleConnect) ⟨2000, 0⟩] = .done m ∧
      (m.GetClient "A1").2 = true ∧ (m.GetClient "A1").1.Status = StatusOnline :=
  ⟨_, rfl, registered_implies_online { hub := _, pending := fun _ => [] }
    (Reachable_of_hubRun [.accept 0, .receive 0 (.message sampleConnect) ⟨2000, 0⟩] _ rfl)
    "A1" 0 (by decide) (by decide) rfl⟩

/-- C4 (counterexample). A session that never registered handles a heartbeat for `A1`: the
    hub is in a reachable state where `GetClient("A1")` returns status `online` although the
    registry holds no session for `A1`. -/
theorem online_without_registration :
    ∃ h, Reachable h ∧ (∀ c, h.pending c = []) ∧
      (h.hub.GetClient "A1").1.Status = StatusOnline ∧
      (h.hub.clients.lookup "A1").isSome = false :=
  ⟨_, Reachable_of_hubRun [.accept 0, .receive 0 (.message sampleHeartbeat) ⟨32000, 0⟩] _ rfl,
    fun _ => rfl, by decide, by decide⟩

/-- Why C4 (amended) speaks of sessions that are not handling a message. Session 0 has
    registered as `A1` and is handling a `client_disconnect`: it has set the status
    `offline` and has not yet called `RemoveClient`. The registry holds `A1`, and
    `GetClient("A1")` returns status `offline`. -/
theorem registered_offline_inside_handler :
    ∃ h, Reachable h ∧ h.hub.clients.lookup "A1" = some 0 ∧
      h.pending 0 = [.saveClientInfo, .removeClient] ∧
      (h.hub.GetClient "A1").2 = true ∧ (h.hub.GetClient "A1").1.Status = StatusOffline :=
  ⟨_, Reachable.step (.exec 0) (Reachable.step (.exec 0)
      (Reachable.step (.read 0 (.message sampleDisconnect) ⟨62000, 0⟩)
        (Reachable_of_hubRun [.accept 0, .receive 0 (.message sampleConnect) ⟨2000, 0⟩] _ rfl)
        rfl) rfl) rfl,
    by decide, by decide, by decide, by decide⟩

/-- Why C4 (amended) speaks of non-empty ids. A session registers with an envelope that
    carries no client id, so it is stored under the empty id; a later `client_disconnect`
    that names `A1` sets its client id to `A1` and removes `A1`. The registry still holds
    the session under the empty id, with status `offline`. -/
theorem empty_id_registered_offline :
    ∃ h, Reachable h ∧ (∀ c, h.pending c = []) ∧ h.hub.clients.lookup "" = some 0 ∧
      (h.hub.GetClient "").1.Status = StatusOffline :=
  ⟨_, Reachable_of_hubRun [.accept 0, .receive 0 (.message sampleConnectNoId) ⟨2000, 0⟩,
      .receive 0 (.message sampleDisconnect) ⟨62000, 0⟩] _ rfl,
    fun _ => rfl, by decide, by decide⟩

/-! ## Listing agents (C5) -/

/-- The entries of `GetClients()`. -/
theorem mem_GetClients (m : ClientManager) (c : ClientInfo) :
    c ∈ m.GetClients ↔
      c ∈ m.onlineClients ∨
      (c ∈ m.storage.GetAllClientInfo ∧ ∀ o ∈ m.onlineClients, o.ID ≠ c.ID) := by
  simp [ClientManager.GetClients, List.mem_append, List.mem_filter]

/-- C5 (amended). When the registered connections' infos carry pairwise distinct ids and the
    stored records carry pairwise distinct ids, `GetClients()` contains no two entries
    with the same id. In every state, its entries are the registered connections' infos and
    the stored records whose id is not the id of a registered connection's info; so an
    entry that has the id of a registered connection's info is such an info. -/
theorem GetClients_distinct_ids (m : ClientManager)
    (hlive : (m.onlineClients.map (fun c => c.ID)).Nodup)
    (hstored : (m.storage.GetAllClientInfo.map (fun c => c.ID)).Nodup) :
    (m.GetClients.map (fun c => c.ID)).Nodup ∧
    (∀ c, c ∈ m.GetClients ↔
      c ∈ m.onlineClients ∨
      (c ∈ m.storage.GetAllClientInfo ∧ ∀ o ∈ m.onlineClients, o.ID ≠ c.ID)) ∧
    (∀ c ∈ m.GetClients, (∃ o ∈ m.onlineClients, o.ID = c.ID) → c ∈ m.onlineClients) := by
  refine ⟨?_, mem_GetClients m, ?_⟩
  · unfold ClientManager.GetClients
    simp only [List.map_append]
    rw [List.nodup_append]
    refine ⟨hlive, ?_, ?_⟩
    · exact hstored.sublist (List.Sublist.map _ (List.filter_sublist _))
    · intro x hx1 hx2
      simp only [List.mem_map, List.mem_filter] at hx1 hx2
      obtain ⟨o, ho, rfl⟩ := hx1
      obtain ⟨c, ⟨_, hc⟩, hid⟩ := hx2
      simp only [Bool.not_eq_true', List.any_eq_false, decide_eq_true_eq] at hc
      exact hc o ho hid.symm
  · intro c hc ⟨o, ho, hid⟩
    rcases (mem_GetClients m c).mp hc with h | ⟨_, h⟩
    · exact h
    · exact absurd hid (h o ho)

/-- C5 (witness). Connection 1 is registered as `B2`, and the store holds the record of `B2`. -/
theorem GetClients_distinct_ids_witness :
    (sampleHub.onlineClients.map (fun c => c.ID)).Nodup ∧
    (sampleHub.storage.GetAllClientInfo.map (fun c => c.ID)).Nodup ∧
    sampleHub.GetClients = [sampleInfoB] ∧
    (sampleHub.GetClients.map (fun c => c.ID)).Nodup :=
  ⟨by decide, by decide, by decide,
    (GetClients_distinct_ids sampleHub (by decide) (by decide)).1⟩

/-- C5 (counterexample). Two sessions register under the envelope ids `k1` and `k2` with
    payloads that both carry the id `A1`: `GetClients()` lists `A1` twice. -/
theorem GetClients_duplicate_id :
    ∃ m, hubRun hubInit [.accept 0, .receive 0 (.message sampleConnectK1) ⟨2000, 0⟩,
          .accept 1, .receive 1 (.message sampleConnectK2) ⟨2500, 0⟩] = .done m ∧
      m.GetClients.map (fun c => c.ID) = ["A1", "A1"] ∧
      ¬ (m.GetClients.map (fun c => c.ID)).Nodup :=
  ⟨_, rfl, by decide, by decide⟩

/-! ## Looking up one agent (C6) -/

/-- C6 (amended). `GetClient(X)` returns the registered connection's info when the registry
    holds `X`; otherwise the record the store reads from the file of `X`, which is the
    info last saved under `X` when that save returned no error; and it reports not-found
    exactly when the registry holds no `X` and the file of `X` cannot be read or does not
    decode. -/
theorem GetClient_spec (m : ClientManager) (X : String) :
    (∀ conn, m.clients.lookup X = some conn →
      m.GetClient X = ((m.conns conn).clientInfo, true)) ∧
    (∀ client, m.clients.lookup X = none → m.storage.GetClientInfo X = some client →
      m.GetClient X = (client, true)) ∧
    (∀ saved : ClientInfo, saved.ID = X → m.clients.lookup X = none →
      (m.storage.SaveClientInfo saved).2 = true →
      ({ m with storage := (m.storage.SaveClientInfo saved).1 }).GetClient X = (saved, true)) ∧
    ((m.GetClient X).2 = false ↔
      m.clients.lookup X = none ∧
      ∀ o, m.storage.ReadFile (m.storage.clientFile X) ≠ some (.json o)) := by
  refine ⟨?_, ?_, ?_, ?_⟩
  · intro conn h
    simp [ClientManager.GetClient, h]
  · intro client h1 h2
    simp [ClientManager.GetClient, h1, h2]
  · intro saved hs h1 hok
    subst hs
    simp [ClientManager.GetClient, h1, GetClientInfo_SaveClientInfo _ _ hok]
  · rw [← GetClientInfo_eq_none_iff]
    unfold ClientManager.GetClient
    cases h1 : m.clients.lookup X with
    | some conn => simp
    | none =>
      cases h2 : m.storage.GetClientInfo X with
      | none => simp
      | some client => simp

/-- C6 (witness). A registered id, an id that is only stored, and an unknown id. -/
theorem GetClient_spec_witness :
    sampleHub.GetClient "B2" = (sampleInfoB, true) ∧
    sampleStoredHub.GetClient "A1" = (sampleOfflineInfo, true) ∧
    (sampleHub.GetClient "A1").2 = false :=
  ⟨(GetClient_spec sampleHub "B2").1 1 (by decide),
   (GetClient_spec sampleStoredHub "A1").2.1 sampleOfflineInfo (by decide) (by decide),
   (GetClient_spec sampleHub "A1").2.2.2.mpr ⟨by decide, by
      intro client h
      have h0 : sampleHub.storage.ReadFile (sampleHub.storage.clientFile "A1") = none := by
        decide
      rw [h0] at h
      cases h⟩⟩

/-- C6 (counterexample). The store holds a record for `A1` whose bytes do not decode, and
    the registry holds no session: `GetClient("A1")` reports not-found although the store
    holds a record for `A1`. -/
theorem GetClient_corrupt_record_not_found :
    sampleCorruptRecordHub.clients.lookup "A1" = none ∧
    sampleCorruptRecordHub.storage.isFile (sampleCorruptRecordHub.storage.clientFile "A1")
      = true ∧
    sampleCorruptRecordHub.storage.ReadFile (sampleCorruptRecordHub.storage.clientFile "A1")
      = some .corrupt ∧
    sampleCorruptRecordHub.GetClient "A1" = (ClientInfo.zero, false) := by
  decide

/-! ## Connect, then heartbeat (C7) -/

/-- When `c` is newly stored under `A1`, carries id `A1`, and no other registered connection's
    info has id `A1`, the entries of `GetClients()` with id `A1` are exactly `c`'s info. -/
theorem GetClients_filter_single (m3 m : ClientManager) (c : ConnId) (A1 : String)
    (ha : m3.clients = m.clients.insert A1 c)
    (hb : m.clients.lookup A1 = none)
    (hc : ∀ k p, m.clients.lookup k = some p → p ≠ c ∧ (m.conns p).clientInfo.ID ≠ A1)
    (hd : ∀ p, p ≠ c → (m3.conns p).clientInfo = (m.conns p).clientInfo)
    (he : (m3.conns c).clientInfo.ID = A1) :
    m3.GetClients.filter (fun x => decide (x.ID = A1)) = [(m3.conns c).clientInfo] := by
  have hon : m3.onlineClients =
      (m3.conns c).clientInfo :: m.clients.toList.map (fun e => (m3.conns e.2).clientInfo) := by
    unfold ClientManager.onlineClients
    rw [ha, GoMap.toList_insert_of_lookup_none _ _ _ hb]
    rfl
  have htail : ∀ x ∈ m.clients.toList.map (fun e => (m3.conns e.2).clientInfo), x.ID ≠ A1 := by
    intro x hx
    obtain ⟨⟨k, p⟩, hkp, rfl⟩ := List.mem_map.mp hx
    have := hc k p ((GoMap.mem_toList _ k p).mp hkp)
    simp only
    rw [hd p this.1]
    exact this.2
  unfold ClientManager.GetClients
  simp only [List.filter_append]
  rw [hon]
  have h1 : List.filter (fun x => decide (x.ID = A1))
      ((m3.conns c).clientInfo :: m.clients.toList.map (fun e => (m3.conns e.2).clientInfo))
      = [(m3.conns c).clientInfo] := by
    rw [List.filter_cons_of_pos (by simpa using he)]
    congr 1
    rw [List.filter_eq_nil_iff]
    intro x hx
    simpa using htail x hx
  rw [h1]
  have h2 : List.filter (fun x => decide (x.ID = A1))
      (List.filter (fun client => !(((m3.conns c).clientInfo ::
          m.clients.toList.map (fun e => (m3.conns e.2).clientInfo)).any
            (fun online => decide (online.ID = client.ID)))) m3.storage.GetAllClientInfo) = [] := by
    rw [List.filter_eq_nil_iff]
    intro x hx
    have := (List.mem_filter.mp hx).2
    simp only [List.any_cons, Bool.not_eq_true', Bool.or_eq_false_iff, decide_eq_false_iff_not]
      at this
    have h3 := this.1
    rw [he] at h3
    simpa using fun h => h3 h.symm
  rw [h2]
  rfl

/-- C7 (amended). A connection is accepted at a fresh pointer `c` of a hub whose registry
    holds no session under `A1` and no session whose info has id `A1`; it handles a
    `client_connect` envelope for `A1` and then a `heartbeat` envelope for `A1` whose payload
    has id `A1`. All three steps return, and afterwards `GetClients()` has exactly one entry
    with id `A1`; its status is `online` and its `LastSeen` is the hub's clock reading `now2`
    taken while handling the heartbeat. -/
theorem connect_then_heartbeat (m : ClientManager) (c : ConnId) (A1 : String)
    (o1 o2 : JsonObject) (ts1 ts2 now1 now2 : Time)
    (hfresh : (m.conns c).receiveLoopState = .notStarted)
    (hreg : ∀ k p, m.clients.lookup k = some p →
      k ≠ A1 ∧ p ≠ c ∧ (m.conns p).clientInfo.ID ≠ A1)
    (h2 : o2.id = some A1) :
    ∃ m3 e,
      hubRun m [.accept c,
        .receive c (.message ⟨TypeClientConnect, A1, ts1, .object o1⟩) now1,
        .receive c (.message ⟨TypeHeartbeat, A1, ts2, .object o2⟩) now2] = .done m3 ∧
      m3.GetClients.filter (fun x => decide (x.ID = A1)) = [e] ∧
      e.Status = StatusOnline ∧ e.LastSeen = now2 := by
  have hnone : m.clients.lookup A1 = none := by
    cases h : m.clients.lookup A1 with
    | none => rfl
    | some p => exact absurd rfl (hreg A1 p h).1
  -- accept
  generalize hma : m.setConn c NewClientConnection.Start = ma
  have e1 : hubStep m (.accept c) = .done ma := by
    simp [hubStep, API.handleWebSocket, hfresh, hma]
  have ma_c : ma.conns c = NewClientConnection.Start := by
    rw [← hma]; simp [ClientManager.setConn]
  have ma_p : ∀ p, p ≠ c → ma.conns p = m.conns p := by
    intro p hp; rw [← hma]; simp [ClientManager.setConn, Function.update_noteq hp]
  have ma_cl : ma.clients = m.clients := by rw [← hma]; rfl
  -- client_connect
  generalize hmc : (⟨TypeClientConnect, A1, ts1, .object o1⟩ : ClientMessage) = mc
  have mc_T : mc.MsgType = TypeClientConnect := by rw [← hmc]
  have mc_D : mc.Data = .object o1 := by rw [← hmc]
  have mc_I : mc.ClientID = A1 := by rw [← hmc]
  generalize hmb : ClientConnection.setClientID ma c mc = mb
  obtain ⟨b1, -, b3, b4, b5, b6⟩ := setClientID_fields ma c mc
  rw [hmb] at b1 b3 b4 b5 b6
  have mb_id : (mb.conns c).clientID = A1 := by
    rw [b6, ma_c]; simp [ClientConnection.Start, NewClientConnection, mc_I]
  have mb_p : ∀ p, p ≠ c → (mb.conns p).clientInfo = (m.conns p).clientInfo := by
    intro p hp; rw [b3 p, ma_p p hp]
  have hnone_b : mb.clients.lookup (mb.conns c).clientID = none := by
    rw [mb_id, b1, ma_cl]; exact hnone
  have e2 := receiveLoop_message ma c mc now1 "" (by rw [ma_c]; rfl) (by rw [ma_c]; rfl)
  rw [hmb, handleClientMessage_connect_fresh mb c mc o1 now1 mc_T mc_D hnone_b] at e2
  generalize hm2 : ({ clients := mb.clients.insert (mb.conns c).clientID c
                      storage := (mb.storage.SaveClientInfo
                        { o1.decodeClientInfo (mb.conns c).clientInfo with
                          Status := StatusOnline, LastSeen := now1 }).1
                      conns := Function.update mb.conns c
                        { mb.conns c with
                          clientInfo := { o1.decodeClientInfo (mb.conns c).clientInfo with
                                          Status := StatusOnline, LastSeen := now1 } } }
                    : ClientManager) = m2 at e2
  have m2_cl : m2.clients = m.clients.insert A1 c := by
    rw [← hm2]; simp only; rw [mb_id, b1, ma_cl]
  have m2_p : ∀ p, p ≠ c → (m2.conns p).clientInfo = (m.conns p).clientInfo := by
    intro p hp; rw [← hm2]; simp only [Function.update_noteq hp]; exact mb_p p hp
  have m2_run : (m2.conns c).receiveLoopState = .running "" := by
    rw [← hm2]; simp only [Function.update_same]; rw [b4 c, ma_c]; rfl
  have m2_open : (m2.conns c).stopChanClosed = false := by
    rw [← hm2]; simp only [Function.update_same]; rw [b5 c, ma_c]; rfl
  -- heartbeat
  generalize hmh : (⟨TypeHeartbeat, A1, ts2, .object o2⟩ : ClientMessage) = mh
  have mh_T : mh.MsgType = TypeHeartbeat := by rw [← hmh]
  have mh_D : mh.Data = .object o2 := by rw [← hmh]
  generalize hmd : ClientConnection.setClientID m2 c mh = md
  obtain ⟨d1, -, d3, -, -, -⟩ := setClientID_fields m2 c mh
  rw [hmd] at d1 d3
  have e3 := receiveLoop_message m2 c mh now2 "" m2_run m2_open
  rw [hmd, handleClientMessage_heartbeat md c mh o2 now2 mh_T mh_D] at e3
  generalize hm3 : ({ clients := md.clients
                      storage := (md.storage.SaveClientInfo
                        { o2.decodeClientInfo (md.conns c).clientInfo with
                          Status := StatusOnline, LastSeen := now2 }).1
                      conns := Function.update md.conns c
                        { md.conns c with
                          clientInfo := { o2.decodeClientInfo (md.conns c).clientInfo with
                                          Status := StatusOnline, LastSeen := now2 } } }
                    : ClientManager) = m3 at e3
  have m3_cl : m3.clients = m.clients.insert A1 c := by
    rw [← hm3]; simp only; rw [d1, m2_cl]
  have m3_p : ∀ p, p ≠ c → (m3.conns p).clientInfo = (m.conns p).clientInfo := by
    intro p hp; rw [← hm3]; simp only [Function.update_noteq hp]; rw [d3 p]; exact m2_p p hp
  have m3_c : (m3.conns c).clientInfo =
      { o2.decodeClientInfo (md.conns c).clientInfo with
        Status := StatusOnline, LastSeen := now2 } := by
    rw [← hm3]; simp only [Function.update_same]
  have m3_id : (m3.conns c).clientInfo.ID = A1 := by
    rw [m3_c]; simp [JsonObject.decodeClientInfo, h2]
  refine ⟨m3, (m3.conns c).clientInfo, ?_, ?_, ?_, ?_⟩
  · simp only [hubRun, e1, Outcome.andThen]
    have e2h : hubStep ma (.receive c (.message mc) now1) = .done m2 := e2
    have e3h : hubStep m2 (.receive c (.message mh) now2) = .done m3 := e3
    rw [e2h]
    simp only [e3h]
  · exact GetClients_filter_single m3 m c A1 m3_cl hnone
      (fun k p h => (hreg k p h).2) m3_p m3_id
  · rw [m3_c]
  · rw [m3_c]

/-- C7 (witness). The hub holds `B2`; a new connection at pointer 0 sends `client_connect`
    and then `heartbeat` for `A1`. -/
theorem connect_then_heartbeat_witness :
    ∃ m3 e,
      hubRun sampleHub [.accept 0,
        .receive 0 (.message ⟨TypeClientConnect, "A1", ⟨1000, 0⟩, .object sampleInfo.toJson⟩)
          ⟨2000, 0⟩,
        .receive 0 (.message ⟨TypeHeartbeat, "A1", ⟨31000, 0⟩, .object sampleInfo.toJson⟩)
          ⟨32000, 0⟩] = .done m3 ∧
      m3.GetClients.filter (fun x => decide (x.ID = "A1")) = [e] ∧
      e.Status = StatusOnline ∧ e.LastSeen = ⟨32000, 0⟩ := by
  refine connect_then_heartbeat sampleHub 0 "A1" sampleInfo.toJson sampleInfo.toJson
    ⟨1000, 0⟩ ⟨31000, 0⟩ ⟨2000, 0⟩ ⟨32000, 0⟩ (by decide) ?_ (by decide)
  intro k p h
  by_cases hk : k = "B2"
  · subst hk
    have hp : p = 1 := by
      have : sampleHub.clients.lookup "B2" = some 1 := by decide
      rw [this] at h
      exact (Option.some.inj h).symm
    subst hp
    exact ⟨by decide, by decide, by decide⟩
  · have : sampleHub.clients.lookup k = none := by
      unfold sampleHub
      simp only
      rw [GoMap.lookup_insert_ne _ _ hk, GoMap.lookup_empty]
    rw [this] at h
    cases h

/-- C7 (counterexample). The heartbeat envelope carries the timestamp 31000 and is handled
    when the hub's clock reads 32000: the one entry for `A1` has `LastSeen` 32000. -/
theorem heartbeat_lastSeen_is_hub_clock :
    ∃ m, hubRun hubInit [.accept 0, .receive 0 (.message sampleConnect) ⟨2000, 0⟩,
          .receive 0 (.message sampleHeartbeat) ⟨32000, 0⟩] = .done m ∧
      m.GetClients = [{ sampleInfo with LastSeen := ⟨32000, 0⟩ }] ∧
      sampleHeartbeat.Timestamp = ⟨31000, 0⟩ ∧
      ∀ e ∈ m.GetClients, e.LastSeen ≠ sampleHeartbeat.Timestamp :=
  ⟨_, rfl, by decide, rfl, by decide⟩

/-! ## Reconnect backoff (C8) -/

/-- A value in the `int64` range is not changed by wrap-around. -/
theorem wrapInt64_of_small (x : Int) (h1 : -(2 ^ 63) ≤ x) (h2 : x < 2 ^ 63) : wrapInt64 x = x := by
  unfold wrapInt64
  omega

/-- The value of `time.Second`. -/
theorem Second_eq : Second = (1000000000 : Int) := rfl

/-- The value of `time.Minute`. -/
theorem Minute_eq : Minute = (60000000000 : Int) := rfl

/-- Between one second and one minute, the next backoff does not shrink and stays in range. -/
theorem nextBackoff_bounds (b : Int) (h1 : Second ≤ b) (h2 : b ≤ Minute) :
    b ≤ nextBackoff b ∧ nextBackoff b ≤ Minute ∧ Second ≤ nextBackoff b := by
  have h1a : (1000000000 : Int) ≤ b := h1
  have h2a : b ≤ (60000000000 : Int) := h2
  have hw : wrapInt64 (b * 2) = b * 2 := wrapInt64_of_small _ (by omega) (by omega)
  have hn : nextBackoff b = if b * 2 > (60000000000 : Int) then (60000000000 : Int) else b * 2 := by
    unfold nextBackoff
    simp only [hw]
    rfl
  rw [hn]
  show b ≤ _ ∧ _ ≤ (60000000000 : Int) ∧ (1000000000 : Int) ≤ _
  split_ifs with h
  · exact ⟨h2a, le_refl _, by omega⟩
  · exact ⟨by omega, by omega, by omega⟩

/-- The sleeps of the retry loop started with backoff `b`: sorted, between `b` and one
    minute; and at most `n` attempts in `n` iterations. -/
theorem retryLoop_sleeps (dial : Nat → Bool) (n i : Nat) (b : Duration)
    (h1 : Second ≤ b) (h2 : b ≤ Minute) :
    (sleeps (retryLoop dial n i b)).Pairwise (fun x y => x ≤ y) ∧
    (∀ d ∈ sleeps (retryLoop dial n i b), b ≤ d ∧ d ≤ Minute) ∧
    connectAttempts (retryLoop dial n i b) ≤ n := by
  induction n generalizing i b with
  | zero => simp [retryLoop, sleeps, connectAttempts]
  | succ n ih =>
    unfold retryLoop
    split_ifs with hd
    · simp [sleeps, connectAttempts]
    · obtain ⟨hb1, hb2, hb3⟩ := nextBackoff_bounds b h1 h2
      obtain ⟨ih1, ih2, ih3⟩ := ih (i + 1) (nextBackoff b) hb3 hb2
      simp only [sleeps, connectAttempts, List.pairwise_cons, List.mem_cons]
      refine ⟨⟨?_, ih1⟩, ?_, by omega⟩
      · intro d hd
        exact le_trans hb1 (ih2 d hd).1
      · intro d hd
        rcases hd with rfl | hd
        · exact ⟨le_refl _, h2⟩
        · exact ⟨le_trans hb1 (ih2 d hd).1, (ih2 d hd).2⟩

/-- C8. In every reconnect episode, whatever the connect attempts return: the backoff waits
    slept between attempts are non-decreasing, every sleep of the episode (the initial
    5 s and the backoff waits) is at most 60 s, and at most 10 connect attempts are made. -/
theorem reconnectEpisode_backoff (dial : Nat → Bool) :
    (backoffWaits dial).Pairwise (fun x y => x ≤ y) ∧
    (∀ d ∈ backoffWaits dial, Second ≤ d ∧ d ≤ 60 * Second) ∧
    (∀ d ∈ sleeps (reconnectEpisode dial), d ≤ 60 * Second) ∧
    connectAttempts (reconnectEpisode dial) ≤ 10 := by
  obtain ⟨h1, h2, h3⟩ := retryLoop_sleeps dial 10 0 Second (le_refl _) (by decide)
  refine ⟨h1, h2, ?_, ?_⟩
  · intro d hd
    simp only [reconnectEpisode, sleeps, List.mem_cons] at hd
    rcases hd with rfl | hd
    · decide
    · exact (h2 d hd).2
  · simpa [reconnectEpisode, connectAttempts] using h3

/-! ## Probe engine: samples per attempt (C9) -/

/-- A callback's error handling appends at most one sample, with the callback's type. -/
theorem recordIfErr_resultChan (st : ProbeState) (target : Target) (uuid : Nat → String)
    (err : Option GoError) (errorType : String) (now : Time) (base : List NetworkRequest)
    (hbase : st.resultChan = base) (hty : errorType ∈ hookErrorTypes) :
    ∃ extra, (st.recordIfErr target uuid err errorType now).resultChan = base ++ extra ∧
      extra.length = (if err.isSome then 1 else 0) ∧
      ∀ s ∈ extra, s.ErrorType ∈ hookErrorTypes := by
  subst hbase
  cases err with
  | none => exact ⟨[], by simp [ProbeState.recordIfErr], by simp, by simp⟩
  | some e =>
    refine ⟨[Monitor.recordError target e errorType (uuid st.uuids) now], rfl, by simp, ?_⟩
    intro s hs
    rw [List.mem_singleton.mp hs]
    exact hty

/-- A callback appends one sample if it is handed an error and none otherwise. -/
theorem traceStep_resultChan (target : Target) (uuid : Nat → String) (st : ProbeState)
    (ev : TraceEvent) :
    ∃ extra, (traceStep target uuid st ev).resultChan = st.resultChan ++ extra ∧
      extra.length = (if ev.hasErr then 1 else 0) ∧
      ∀ s ∈ extra, s.ErrorType ∈ hookErrorTypes := by
  cases ev with
  | DNSStart now => exact ⟨[], by simp [traceStep], by simp [TraceEvent.hasErr], by simp⟩
  | ConnectStart now => exact ⟨[], by simp [traceStep], by simp [TraceEvent.hasErr], by simp⟩
  | TLSHandshakeStart now => exact ⟨[], by simp [traceStep], by simp [TraceEvent.hasErr], by simp⟩
  | GotFirstResponseByte now =>
    refine ⟨[], ?_, by simp [TraceEvent.hasErr], by simp⟩
    simp only [traceStep]
    split_ifs <;> simp
  | DNSDone now err =>
    simp only [traceStep, TraceEvent.hasErr]
    apply recordIfErr_resultChan _ target uuid err "dns" now _ _ (by decide)
    by_cases h : (!st.dnsStart.IsZero) = true
    · rw [if_pos h]
    · rw [if_neg h]
  | ConnectDone now err =>
    simp only [traceStep, TraceEvent.hasErr]
    apply recordIfErr_resultChan _ target uuid err "connect" now _ _ (by decide)
    by_cases h : (!st.connectStart.IsZero) = true
    · rw [if_pos h]
    · rw [if_neg h]
  | TLSHandshakeDone now err =>
    simp only [traceStep, TraceEvent.hasErr]
    apply recordIfErr_resultChan _ target uuid err "tls" now _ _ (by decide)
    by_cases h : (!st.tlsStart.IsZero) = true
    · rw [if_pos h]
    · rw [if_neg h]
  | WroteRequest now err =>
    simp only [traceStep, TraceEvent.hasErr]
    exact recordIfErr_resultChan _ target uuid err "request_write" now _ rfl (by decide)

/-- The callbacks of a request append one sample per error handed to them. -/
theorem foldl_traceStep_resultChan (target : Target) (uuid : Nat → String)
    (events : List TraceEvent) (st : ProbeState) :
    ∃ extra, (events.foldl (traceStep target uuid) st).resultChan = st.resultChan ++ extra ∧
      extra.length = events.countP TraceEvent.hasErr ∧
      ∀ s ∈ extra, s.ErrorType ∈ hookErrorTypes := by
  induction events generalizing st with
  | nil => exact ⟨[], by simp, by simp, by simp⟩
  | cons ev evs ih =>
    obtain ⟨x1, h1, h2, h3⟩ := traceStep_resultChan target uuid st ev
    obtain ⟨x2, k1, k2, k3⟩ := ih (traceStep target uuid st ev)
    refine ⟨x1 ++ x2, ?_, ?_, ?_⟩
    · rw [List.foldl_cons, k1, h1, List.append_assoc]
    · rw [List.length_append, h2, k2, List.countP_cons]
      split_ifs <;> omega
    · intro s hs
      rcases List.mem_append.mp hs with h | h
      · exact h3 s h
      · exact k3 s h

/-- Recording an error does not touch the request's own sample. -/
theorem recordIfErr_result (st : ProbeState) (target : Target) (uuid : Nat → String)
    (err : Option GoError) (errorType : String) (now : Time) :
    (st.recordIfErr target uuid err errorType now).result = st.result := by
  cases err <;> rfl

/-- No callback writes the `ErrorType` of the request's own sample. -/
theorem traceStep_ErrorType (target : Target) (uuid : Nat → String) (st : ProbeState)
    (ev : TraceEvent) :
    (traceStep target uuid st ev).result.ErrorType = st.result.ErrorType := by
  cases ev with
  | DNSStart now => rfl
  | ConnectStart now => rfl
  | TLSHandshakeStart now => rfl
  | GotFirstResponseByte now =>
    simp only [traceStep]
    split_ifs <;> rfl
  | DNSDone now err =>
    simp only [traceStep, recordIfErr_result]
    split_ifs <;> rfl
  | ConnectDone now err =>
    simp only [traceStep, recordIfErr_result]
    split_ifs <;> rfl
  | TLSHandshakeDone now err =>
    simp only [traceStep, recordIfErr_result]
    split_ifs <;> rfl
  | WroteRequest now err =>
    simp only [traceStep, recordIfErr_result]

/-- The callbacks leave the `ErrorType` of the request's own sample as it was. -/
theorem foldl_traceStep_ErrorType (target : Target) (uuid : Nat → String)
    (events : List TraceEvent) (st : ProbeState) :
    (events.foldl (traceStep target uuid) st).result.ErrorType = st.result.ErrorType := by
  induction events generalizing st with
  | nil => rfl
  | cons ev evs ih => rw [List.foldl_cons, ih, traceStep_ErrorType]

/-- What `makeRequest` pushes when `http.NewRequest` succeeds: the samples recorded by the
    callbacks, then the sample of the request itself. -/
theorem makeRequest_shape (target : Target) (uuid : Nat → String) (p : ProbeOutcome)
    (h : p.requestErr = none) :
    ∃ hooks final, Monitor.makeRequest target uuid p = hooks ++ [final] ∧
      hooks.length = p.events.countP TraceEvent.hasErr ∧
      (∀ s ∈ hooks, s.ErrorType ∈ hookErrorTypes) ∧
      final.ErrorType =
        (match p.response with
         | .error e => errorTypeOf e
         | .ok _ => "") := by
  unfold Monitor.makeRequest
  rw [h]
  simp only
  obtain ⟨extra, h1, h2, h3⟩ := foldl_traceStep_resultChan target uuid p.events
    { result := { NetworkRequest.zero with
                  ID := uuid 0, URL := target.URL, Method := "GET", StartTime := p.startNow,
                  TargetName := target.Name },
      dnsStart := Time.zero, connectStart := Time.zero, tlsStart := Time.zero,
      requestStart := Time.zero, responseStart := Time.zero, resultChan := [], uuids := 1 }
  have h4 := foldl_traceStep_ErrorType target uuid p.events
    { result := { NetworkRequest.zero with
                  ID := uuid 0, URL := target.URL, Method := "GET", StartTime := p.startNow,
                  TargetName := target.Name },
      dnsStart := Time.zero, connectStart := Time.zero, tlsStart := Time.zero,
      requestStart := Time.zero, responseStart := Time.zero, resultChan := [], uuids := 1 }
  rw [h1]
  refine ⟨extra, _, by rw [List.nil_append], h2, h3, ?_⟩
  cases hr : p.response with
  | error e => simp only
  | ok code =>
    simp only
    split_ifs
    · simp only [h4]; rfl
    · simp only [h4]; rfl

/-- C9 (amended). One call of `makeRequest` pushes one sample when `http.NewRequest` fails,
    and otherwise one sample plus one more for every trace callback that is handed an
    error; so it pushes exactly one sample exactly when `http.NewRequest` fails or no
    callback is handed an error. -/
theorem makeRequest_sample_count (target : Target) (uuid : Nat → String) (p : ProbeOutcome) :
    (Monitor.makeRequest target uuid p).length =
      (if p.requestErr.isSome then 1 else 1 + p.events.countP TraceEvent.hasErr) ∧
    ((Monitor.makeRequest target uuid p).length = 1 ↔
      (p.requestErr.isSome = true ∨ ∀ ev ∈ p.events, ev.hasErr = false)) := by
  have hlen : (Monitor.makeRequest target uuid p).length =
      (if p.requestErr.isSome then 1 else 1 + p.events.countP TraceEvent.hasErr) := by
    cases h : p.requestErr with
    | some e => simp [Monitor.makeRequest, h]
    | none =>
      obtain ⟨hooks, final, h1, h2, -, -⟩ := makeRequest_shape target uuid p h
      rw [h1, List.length_append, h2]
      simp
      omega
  refine ⟨hlen, ?_⟩
  rw [hlen]
  cases h : p.requestErr with
  | some e => simp
  | none =>
    simp only [Option.isSome_none, Bool.false_eq_true, if_false, false_or]
    rw [show (1 + List.countP TraceEvent.hasErr p.events = 1) ↔
      List.countP TraceEvent.hasErr p.events = 0 by omega]
    rw [List.countP_eq_zero]
    simp

/-- C9 (witness). A success over a fresh connection: no callback is handed an error. -/
theorem makeRequest_sample_count_witness :
    (Monitor.makeRequest sampleTarget sampleUuid sampleSuccess).length = 1 ∧
    (Monitor.makeRequest sampleTarget sampleUuid sampleMalformedURL).length = 1 :=
  ⟨(makeRequest_sample_count sampleTarget sampleUuid sampleSuccess).2.mpr
      (Or.inr (by decide)),
   (makeRequest_sample_count sampleTarget sampleUuid sampleMalformedURL).2.mpr
      (Or.inl (by decide))⟩

/-- C9 (counterexample). The host of the target does not resolve: `DNSDone` is handed the
    error and records a sample, and `makeRequest` pushes its own sample after
    `m.client.Do` fails; one attempt, two samples. -/
theorem makeRequest_dns_failure_two_samples :
    (Monitor.makeRequest sampleTarget sampleUuid sampleDNSFailure).length = 2 ∧
    (Monitor.makeRequest sampleTarget sampleUuid sampleDNSFailure).map (fun s => s.ErrorType)
      = ["dns", "network"] := by
  decide

/-! ## Probe engine: error classification (C10) -/

/-- Started below a limit, the inner loop of `GetNetworkRequests` ends at or below it. -/
theorem scanRequestFiles_length (limit : Int) (files : List (String × FileContent))
    (allRequests : List NetworkRequest) (h : (allRequests.length : Int) < limit) :
    ((scanRequestFiles limit files allRequests).length : Int) ≤ limit := by
  induction files generalizing allRequests with
  | nil => simpa [scanRequestFiles] using le_of_lt h
  | cons f files ih =>
    obtain ⟨name, content⟩ := f
    unfold scanRequestFiles
    split_ifs with hext
    · exact ih allRequests h
    · cases content with
      | corrupt => exact ih allRequests h
      | json o =>
        simp only
        split_ifs with hlim
        · simp only [List.length_append, List.length_singleton, Nat.cast_add, Nat.cast_one]
          omega
        · exact ih _ (by omega)

/-- Started below a limit, the outer loop of `GetNetworkRequests` ends at or below it. -/
theorem scanDateDirs_length (limit : Int) (dirs : List (List (String × FileContent)))
    (allRequests : List NetworkRequest) (h : (allRequests.length : Int) < limit) :
    ((scanDateDirs limit dirs allRequests).length : Int) ≤ limit := by
  induction dirs generalizing allRequests with
  | nil => simpa [scanDateDirs] using le_of_lt h
  | cons files dirs ih =>
    unfold scanDateDirs
    simp only
    split_ifs with hlim
    · exact scanRequestFiles_length limit files allRequests h
    · exact ih _ (by omega)

/-- For a limit of at least one, `GetNetworkRequests` returns at most `limit` samples. -/
theorem GetNetworkRequests_length_le (s : Storage) (clientID : String) (limit : Int)
    (h : 1 ≤ limit) : ((s.GetNetworkRequests clientID limit).length : Int) ≤ limit := by
  unfold Storage.GetNetworkRequests
  exact scanDateDirs_length limit _ [] (by simpa using h)

/-- C11 (evaluation at the failing input). The store holds one sample of agent `A1`, and
    `GetNetworkRequests("A1", 0)` returns it: one sample for a limit of zero. -/
theorem GetNetworkRequests_limit_zero_returns_one :
    sampleRequestStore.GetNetworkRequests "A1" 0 = [sampleRequest] ∧
    ¬ ((sampleRequestStore.GetNetworkRequests "A1" 0).length ≤ 0) := by
  decide

/-! ## Location of a stored sample (C12) -/

/-- What a `MkdirAll` that succeeds has done. -/
theorem MkdirAll_some (s s1 : Storage) (p : Path) (h : s.MkdirAll p = some s1) :
    s1 = { s with dirs := s.dirs ++ p.inits.filter (fun q => !s.isDir q) } := by
  unfold Storage.MkdirAll at h
  split_ifs at h
  cases h
  rfl

/-- What `SaveNetworkRequest` does: when it returns no error the request file holds the
    request, and otherwise no file has changed. It never changes the data directory or the
    lock. -/
theorem SaveNetworkRequest_spec (s : Storage) (clientID : String) (r : NetworkRequest) :
    (s.SaveNetworkRequest clientID r).1.dataDir = s.dataDir ∧
    (s.SaveNetworkRequest clientID r).1.mutex = s.mutex ∧
    ((s.SaveNetworkRequest clientID r).2 = true →
      (s.SaveNetworkRequest clientID r).1.files =
        s.files.insert (s.requestFile clientID r) (.json r.toJson) ∧
      (s.SaveNetworkRequest clientID r).1.isDir (s.requestFile clientID r) = false) ∧
    ((s.SaveNetworkRequest clientID r).2 = false →
      (s.SaveNetworkRequest clientID r).1.files = s.files) := by
  unfold Storage.SaveNetworkRequest Storage.requestFile
  simp only
  cases h1 : s.MkdirAll (s.requestsDir.Join clientID) with
  | none => simp
  | some s1 =>
    have e1 := MkdirAll_some _ _ _ h1
    subst e1
    simp only
    cases h2 : Storage.MkdirAll _ ((s.requestsDir.Join clientID).Join r.StartTime.Format) with
    | none => simp
    | some s2 =>
      have e2 := MkdirAll_some _ _ _ h2
      subst e2
      simp only
      cases h3 : Storage.WriteFile _
          (((s.requestsDir.Join clientID).Join r.StartTime.Format).Join (r.ID ++ ".json"))
          (.json r.toJson) with
      | none => simp
      | some s3 =>
        obtain ⟨e3, -, e5⟩ := WriteFile_some _ _ _ _ h3
        subst e3
        refine ⟨rfl, rfl, fun _ => ⟨rfl, e5⟩, fun h => ?_⟩
        cases h

/-- A sample saved without error is read back from its request file. -/
theorem requestAt_SaveNetworkRequest (s : Storage) (clientID : String) (r : NetworkRequest)
    (h : (s.SaveNetworkRequest clientID r).2 = true) :
    (s.SaveNetworkRequest clientID r).1.requestAt (s.requestFile clientID r) = some r := by
  obtain ⟨hf, hd⟩ := (SaveNetworkRequest_spec s clientID r).2.2.1 h
  unfold Storage.requestAt Storage.ReadFile
  rw [hd, hf]
  simp [decodeNetworkRequest_toJson]

/-- Saving a sample leaves every file but the request file as it was. -/
theorem lookup_SaveNetworkRequest_ne (s : Storage) (clientID : String) (r : NetworkRequest)
    (path : Path) (hp : path ≠ s.requestFile clientID r) :
    (s.SaveNetworkRequest clientID r).1.files.lookup path = s.files.lookup path := by
  obtain ⟨-, -, hok, hno⟩ := SaveNetworkRequest_spec s clientID r
  cases hb : (s.SaveNetworkRequest clientID r).2 with
  | true => rw [(hok hb).1, GoMap.lookup_insert_ne _ _ hp]
  | false => rw [hno hb]

/-- The request file of a client id that is a plain directory name and a sample id
    without separator: `<sample id>.json` in the date directory in the client directory. -/
theorem requestFile_of_plain (s : Storage) (clientID : String) (r : NetworkRequest)
    (h0 : hasSeparator clientID = false) (h1 : clientID ≠ "") (h2 : clientID ≠ ".")
    (h3 : clientID ≠ "..") (hr : hasSeparator r.ID = false) :
    s.requestFile clientID r = s.requestsDir ++ [clientID, r.StartTime.Format, r.ID ++ ".json"] := by
  unfold Storage.requestFile
  rw [Path.Join_of_plain _ _ h0 h1 h2 h3, Path.Join_Format, Path.Join_jsonName _ _ hr]
  simp

/-- C12 (amended). When `SaveNetworkRequest` returns no error, the sample is stored in the
    request file and read back from it unchanged; whether it returns an error or not, no
    other file changes, and on an error no file changes at all. For a client id that is a
    plain directory name and a sample id without path separator, the request file is
    `<sample id>.json` in the directory named by the date, in the directory named by the
    client id, below `requestsDir`. The date is the calendar date of the sample's start
    timestamp in the zone offset the timestamp carries: two samples whose start timestamps
    are the same instant with the same offset get the same date directory. -/
theorem SaveNetworkRequest_location (s : Storage) (clientID : String) (r : NetworkRequest) :
    ((s.SaveNetworkRequest clientID r).2 = true →
      (s.SaveNetworkRequest clientID r).1.requestAt (s.requestFile clientID r) = some r) ∧
    (∀ path, path ≠ s.requestFile clientID r →
      (s.SaveNetworkRequest clientID r).1.files.lookup path = s.files.lookup path) ∧
    ((s.SaveNetworkRequest clientID r).2 = false →
      (s.SaveNetworkRequest clientID r).1.files = s.files) ∧
    (hasSeparator clientID = false → clientID ≠ "" → clientID ≠ "." → clientID ≠ ".." →
      hasSeparator r.ID = false →
      s.requestFile clientID r =
        s.requestsDir ++ [clientID, r.StartTime.Format, r.ID ++ ".json"]) ∧
    r.StartTime.Format =
      (Date.ofDays
        ((r.StartTime.nsec + r.StartTime.offset * 1000000000) / 86400000000000)).format ∧
    (∀ r2 : NetworkRequest, r2.StartTime.nsec = r.StartTime.nsec →
      r2.StartTime.offset = r.StartTime.offset → r2.StartTime.Format = r.StartTime.Format) := by
  refine ⟨requestAt_SaveNetworkRequest s clientID r, lookup_SaveNetworkRequest_ne s clientID r,
    (SaveNetworkRequest_spec s clientID r).2.2.2, requestFile_of_plain s clientID r, rfl, ?_⟩
  · intro r2 h1 h2
    unfold Time.Format Time.Date
    rw [h1, h2]

/-- C12 (witness). -/
theorem SaveNetworkRequest_location_witness :
    ((NewStorage serverDataDir).SaveNetworkRequest "A1" sampleRequest).1.requestAt
      (serverDataDir ++ ["requests", "A1", "2024-02-29", "7d1f0c52.json"])
      = some sampleRequest ∧
    ((NewStorage serverDataDir).SaveNetworkRequest "A1" sampleRequest).1.files.lookup
      (serverDataDir ++ ["requests", "A1", "2024-03-01", "7d1f0c52.json"])
      = (NewStorage serverDataDir).files.lookup
        (serverDataDir ++ ["requests", "A1", "2024-03-01", "7d1f0c52.json"]) ∧
    (NewStorage serverDataDir).requestFile "A1" sampleRequest =
      (NewStorage serverDataDir).requestsDir ++
        ["A1", sampleRequest.StartTime.Format, sampleRequest.ID ++ ".json"] :=
  ⟨(SaveNetworkRequest_location (NewStorage serverDataDir) "A1" sampleRequest).1 (by decide),
   (SaveNetworkRequest_location (NewStorage serverDataDir) "A1" sampleRequest).2.1 _ (by decide),
   (SaveNetworkRequest_location (NewStorage serverDataDir) "A1" sampleRequest).2.2.2.1
     (by decide) (by decide) (by decide) (by decide) (by decide)⟩

/-- C12 (counterexample). Two samples whose start timestamps are the same instant, 23:30 UTC
    on 2024-02-29, one carrying offset zero and one carrying +01:00: the first is stored
    under 2024-02-29, the second under 2024-03-01. -/
theorem same_instant_different_partition :
    sampleRequest.StartTime.nsec = sampleRequestPlusOne.StartTime.nsec ∧
    ((NewStorage serverDataDir).SaveNetworkRequest "A1" sampleRequest).1.requestAt
      (serverDataDir ++ ["requests", "A1", "2024-02-29", "7d1f0c52.json"])
      = some sampleRequest ∧
    ((NewStorage serverDataDir).SaveNetworkRequest "A1" sampleRequestPlusOne).1.requestAt
      (serverDataDir ++ ["requests", "A1", "2024-03-01", "7d1f0c52.json"])
      = some sampleRequestPlusOne ∧
    ((NewStorage serverDataDir).SaveNetworkRequest "A1" sampleRequestPlusOne).1.requestAt
      (serverDataDir ++ ["requests", "A1", "2024-02-29", "7d1f0c52.json"]) = none := by
  decide

/-- Ids that carry a path separator. A sample whose id is `a/b` is not stored: the write
    fails for want of a directory `a`, after the client and date directories have been
    made. A sample of the client id `A1/../B2` is stored in the directory of `B2`. -/
theorem SaveNetworkRequest_with_separator :
    ((NewStorage serverDataDir).SaveNetworkRequest "A1" sampleRequestSlash).2 = false ∧
    ((NewStorage serverDataDir).SaveNetworkRequest "A1" sampleRequestSlash).1.files.toList = [] ∧
    ((NewStorage serverDataDir).SaveNetworkRequest "A1" sampleRequestSlash).1.isDir
      (serverDataDir ++ ["requests", "A1", "2024-02-29"]) = true ∧
    ((NewStorage serverDataDir).SaveNetworkRequest "A1/../B2" sampleRequest).1.requestAt
      (serverDataDir ++ ["requests", "B2", "2024-02-29", "7d1f0c52.json"])
      = some sampleRequest ∧
    ((NewStorage serverDataDir).SaveNetworkRequest "A1/../B2" sampleRequest).1.GetNetworkRequests
      "B2" 10 = [sampleRequest] := by
  decide

/-! ## Round trip of an agent's record (C13) -/

/-- Two ids with the same file name are the same id. -/
theorem jsonFileName_injective (a b : String) (h : a ++ ".json" = b ++ ".json") : a = b := by
  have h1 : (a ++ ".json").data = (b ++ ".json").data := by rw [h]
  simp only [String.data_append] at h1
  exact String.ext (List.append_cancel_right h1)

/-- Saving a record does not change what is read from another file. -/
theorem GetClientInfo_SaveClientInfo_ne (s : Storage) (a : ClientInfo) (X : String)
    (h : s.clientFile X ≠ s.clientFile a.ID) :
    (s.SaveClientInfo a).1.GetClientInfo X = s.GetClientInfo X := by
  cases hb : (s.SaveClientInfo a).2 with
  | false => rw [(SaveClientInfo_spec s a).2 hb]
  | true =>
    rw [((SaveClientInfo_spec s a).1 hb).1]
    have hf : Storage.clientFile
        { s with files := s.files.insert (s.clientFile a.ID) (.json a.toJson) } X
        = s.clientFile X := rfl
    have hd : ∀ q, Storage.isDir
        { s with files := s.files.insert (s.clientFile a.ID) (.json a.toJson) } q
        = s.isDir q := fun _ => rfl
    unfold Storage.GetClientInfo Storage.ReadFile
    rw [hf, hd]
    simp only
    rw [GoMap.lookup_insert_ne _ _ h]

/-- Two ids without separator have the same file only when they are the same id. -/
theorem clientFile_injective (s : Storage) (a b : String) (ha : hasSeparator a = false)
    (hb : hasSeparator b = false) (h : s.clientFile a = s.clientFile b) : a = b := by
  unfold Storage.clientFile at h
  rw [Path.Join_jsonName _ _ ha, Path.Join_jsonName _ _ hb] at h
  have := List.append_cancel_left h
  simp only [List.cons.injEq, and_true] at this
  exact jsonFileName_injective _ _ this

/-- C13 (amended). After a `SaveClientInfo(a)` that returns no error, `GetClientInfo(a.ID)`
    succeeds and returns a record equal to `a`; a later `SaveClientInfo(b)` with the same
    id returns no error either and makes it return `b`; and what is read under an id whose
    file is another file is unchanged, in particular under any other id when neither id
    carries a path separator. -/
theorem SaveClientInfo_roundtrip (s : Storage) (a b : ClientInfo)
    (ha : (s.SaveClientInfo a).2 = true) :
    (s.SaveClientInfo a).1.GetClientInfo a.ID = some a ∧
    (b.ID = a.ID →
      ((s.SaveClientInfo a).1.SaveClientInfo b).2 = true ∧
      ((s.SaveClientInfo a).1.SaveClientInfo b).1.GetClientInfo a.ID = some b) ∧
    (∀ X, s.clientFile X ≠ s.clientFile a.ID →
      (s.SaveClientInfo a).1.GetClientInfo X = s.GetClientInfo X) ∧
    (∀ X, hasSeparator X = false → hasSeparator a.ID = false → X ≠ a.ID →
      (s.SaveClientInfo a).1.GetClientInfo X = s.GetClientInfo X) := by
  refine ⟨GetClientInfo_SaveClientInfo s a ha, ?_,
    fun X h => GetClientInfo_SaveClientInfo_ne s a X h, ?_⟩
  · intro h
    have hok : ((s.SaveClientInfo a).1.SaveClientInfo b).2 = true := by
      obtain ⟨e1, e2, e3⟩ := (SaveClientInfo_spec s a).1 ha
      rw [SaveClientInfo_ok_iff, e1, h]
      exact ⟨e2, e3⟩
    refine ⟨hok, ?_⟩
    rw [← h]
    exact GetClientInfo_SaveClientInfo _ b hok
  · intro X hX hA hne
    exact GetClientInfo_SaveClientInfo_ne s a X
      (fun e => hne (clientFile_injective s X a.ID hX hA e))

/-- C13 (witness). The store holds the record of `B2`; the record of `A1` is saved online,
    then offline. -/
theorem SaveClientInfo_roundtrip_witness :
    (sampleHub.storage.SaveClientInfo sampleInfo).1.GetClientInfo "A1" = some sampleInfo ∧
    ((sampleHub.storage.SaveClientInfo sampleInfo).1.SaveClientInfo sampleOfflineInfo).1.GetClientInfo
      "A1" = some sampleOfflineInfo ∧
    (sampleHub.storage.SaveClientInfo sampleInfo).1.GetClientInfo "B2" = some sampleInfoB :=
  ⟨(SaveClientInfo_roundtrip sampleHub.storage sampleInfo sampleOfflineInfo (by decide)).1,
   ((SaveClientInfo_roundtrip sampleHub.storage sampleInfo sampleOfflineInfo
      (by decide)).2.1 rfl).2,
   ((SaveClientInfo_roundtrip sampleHub.storage sampleInfo sampleOfflineInfo
      (by decide)).2.2.2 "B2" (by decide) (by decide) (by decide)).trans (by decide)⟩

/-- C13 (counterexample). The store holds the record of `A1`. A record with the id `./A1`
    is saved: the save returns no error, and `GetClientInfo("A1")` now returns the record
    of `./A1`, although `./A1` is another id. -/
theorem SaveClientInfo_changes_other_id :
    sampleStoredHub.storage.GetClientInfo "A1" = some sampleOfflineInfo ∧
    sampleInfoDotSlash.ID ≠ "A1" ∧
    (sampleStoredHub.storage.SaveClientInfo sampleInfoDotSlash).2 = true ∧
    (sampleStoredHub.storage.SaveClientInfo sampleInfoDotSlash).1.GetClientInfo "A1"
      = some sampleInfoDotSlash := by
  decide

/-- A record whose id carries a path separator is not written when the directory the path
    names does not exist: the save returns an error and nothing is read under the id. -/
theorem SaveClientInfo_with_separator :
    ((NewStorage serverDataDir).SaveClientInfo sampleInfoSlash).2 = false ∧
    ((NewStorage serverDataDir).SaveClientInfo sampleInfoSlash).1.GetClientInfo "a/b" = none := by
  decide

/-! ## Hub configuration (C14, C15) -/

/-- A free lock is the lock with no reader and no writer. -/
theorem RWMutex.eq_of_free (l : RWMutex) (h : l.free = true) :
    l = { readers := 0, writer := false } := by
  cases l with
  | mk readers writer =>
    simp only [RWMutex.free, Bool.and_eq_true, Bool.not_eq_true', decide_eq_true_eq] at h
    obtain ⟨h1, h2⟩ := h
    subst h1 h2
    rfl

/-- A file that is read exists and is not a directory. -/
theorem ReadFile_eq_some (s : Storage) (p : Path) (content : FileContent)
    (h : s.ReadFile p = some content) :
    s.isDir p = false ∧ s.files.lookup p = some content ∧ s.pathExists p = true := by
  unfold Storage.ReadFile at h
  split_ifs at h with hd
  have hd1 : s.isDir p = false := by simpa using hd
  refine ⟨hd1, h, ?_⟩
  simp [Storage.pathExists, Storage.isFile, h]

/-- With the lock free, `SaveServerConfig` returns and leaves the lock free; it writes the
    configuration when the data directory exists and the configuration path is not a
    directory. -/
theorem SaveServerConfig_of_free (s : Storage) (config : ServerConfig)
    (h : s.mutex.free = true) :
    (s.isDir s.configPath.dropLast = true → s.isDir s.configPath = false →
      s.SaveServerConfig config =
        .done ({ s with files := s.files.insert s.configPath (.json config.toJson) }, true)) ∧
    ∃ s1 ok, s.SaveServerConfig config = .done (s1, ok) ∧ s1.mutex.free = true := by
  have hm := RWMutex.eq_of_free _ h
  cases s with
  | mk dataDir dirs files mutex =>
    simp only at hm
    subst hm
    refine ⟨?_, ?_⟩
    · intro h1 h2
      have h1a : Storage.isDir ⟨dataDir, dirs, files, ⟨0, true⟩⟩
          (Storage.configPath ⟨dataDir, dirs, files, ⟨0, false⟩⟩).dropLast = true := h1
      have h2a : Storage.isDir ⟨dataDir, dirs, files, ⟨0, true⟩⟩
          (Storage.configPath ⟨dataDir, dirs, files, ⟨0, false⟩⟩) = false := h2
      simp [Storage.SaveServerConfig, RWMutex.Lock, Outcome.andThen, Storage.WriteFile, h1a, h2a,
        RWMutex.Unlock]
    · simp only [Storage.SaveServerConfig, RWMutex.Lock, Outcome.andThen]
      simp only [Bool.false_or, Nat.lt_irrefl, decide_False, Bool.false_eq_true, if_false]
      cases hw : Storage.WriteFile ⟨dataDir, dirs, files, ⟨0, true⟩⟩
          (Storage.configPath ⟨dataDir, dirs, files, ⟨0, false⟩⟩) (.json config.toJson) with
      | none => exact ⟨_, _, rfl, rfl⟩
      | some s1 =>
        obtain ⟨e1, -, -⟩ := WriteFile_some _ _ _ _ hw
        subst e1
        exact ⟨_, _, rfl, rfl⟩

/-- With the lock free and a configuration file that decodes, `GetServerConfig` returns
    the decoded configuration and leaves the store as it was. -/
theorem GetServerConfig_of_json (s : Storage) (o : JsonObject) (h : s.mutex.free = true)
    (hc : s.configFile = some (.json o)) :
    s.GetServerConfig = .done (s, .ok (o.decodeServerConfig ServerConfig.zero)) := by
  have hm := RWMutex.eq_of_free _ h
  obtain ⟨-, -, hex⟩ := ReadFile_eq_some _ _ _ hc
  cases s with
  | mk dataDir dirs files mutex =>
    simp only at hm
    subst hm
    have hex1 : Storage.pathExists ⟨dataDir, dirs, files, ⟨1, false⟩⟩
        (Storage.configPath ⟨dataDir, dirs, files, ⟨1, false⟩⟩) = true := hex
    have hc1 : Storage.ReadFile ⟨dataDir, dirs, files, ⟨1, false⟩⟩
        (Storage.configPath ⟨dataDir, dirs, files, ⟨1, false⟩⟩) = some (.json o) := hc
    simp [Storage.GetServerConfig, RWMutex.RLock, Outcome.andThen, hex1, hc1, RWMutex.RUnlock]

/-- With the lock free and something at the configuration path, `GetServerConfig` returns
    and leaves the store as it was. -/
theorem GetServerConfig_of_exists (s : Storage) (h : s.mutex.free = true)
    (hex : s.pathExists s.configPath = true) : ∃ r, s.GetServerConfig = .done (s, r) := by
  have hm := RWMutex.eq_of_free _ h
  cases s with
  | mk dataDir dirs files mutex =>
    simp only at hm
    subst hm
    have hex1 : Storage.pathExists ⟨dataDir, dirs, files, ⟨1, false⟩⟩
        (Storage.configPath ⟨dataDir, dirs, files, ⟨1, false⟩⟩) = true := hex
    cases hrd : Storage.ReadFile ⟨dataDir, dirs, files, ⟨1, false⟩⟩
        (Storage.configPath ⟨dataDir, dirs, files, ⟨1, false⟩⟩) with
    | none =>
      exact ⟨.error "read config.json", by
        simp [Storage.GetServerConfig, RWMutex.RLock, Outcome.andThen, hex1, hrd,
          RWMutex.RUnlock]⟩
    | some content =>
      cases content with
      | corrupt =>
        exact ⟨.error "json: cannot unmarshal", by
          simp [Storage.GetServerConfig, RWMutex.RLock, Outcome.andThen, hex1, hrd,
            RWMutex.RUnlock]⟩
      | json o =>
        exact ⟨.ok (o.decodeServerConfig ServerConfig.zero), by
          simp [Storage.GetServerConfig, RWMutex.RLock, Outcome.andThen, hex1, hrd,
            RWMutex.RUnlock]⟩

/-- With the lock free and nothing at the configuration path, `GetServerConfig` never
    returns: it holds the read lock when `SaveServerConfig` asks for the write lock. -/
theorem GetServerConfig_blocks_of_missing (s : Storage) (h : s.mutex.free = true)
    (hc : s.pathExists s.configPath = false) : s.GetServerConfig = .blocks := by
  have hm := RWMutex.eq_of_free _ h
  cases s with
  | mk dataDir dirs files mutex =>
    simp only at hm
    subst hm
    have hc1 : Storage.pathExists ⟨dataDir, dirs, files, ⟨1, false⟩⟩
        (Storage.configPath ⟨dataDir, dirs, files, ⟨1, false⟩⟩) = false := hc
    simp [Storage.GetServerConfig, RWMutex.RLock, Outcome.andThen, hc1,
      Storage.SaveServerConfig, RWMutex.Lock]

/-- C14 (evaluation at the failing input). On a new store, which has no configuration file,
    `GetServerConfig` never returns, while `SaveServerConfig` with the defaults, called on
    its own, returns and writes them. -/
theorem GetServerConfig_first_run_blocks :
    (NewStorage serverDataDir).configFile = none ∧
    (NewStorage serverDataDir).pathExists (NewStorage serverDataDir).configPath = false ∧
    (NewStorage serverDataDir).GetServerConfig = .blocks ∧
    (NewStorage serverDataDir).SaveServerConfig defaultServerConfig =
      .done ({ NewStorage serverDataDir with
               files := (NewStorage serverDataDir).files.insert
                 (NewStorage serverDataDir).configPath (.json defaultServerConfig.toJson) },
             true) :=
  ⟨by decide, by decide, rfl, rfl⟩

/-- C15 (amended). On a store whose lock is free and whose configuration file does not
    decode, `GetServerConfig` returns an error (with `ServerConfig{}`), and leaves the
    store, the corrupt file included, as it was. -/
theorem GetServerConfig_corrupt (s : Storage) (h : s.mutex.free = true)
    (hc : s.configFile = some .corrupt) :
    ∃ err, s.GetServerConfig = .done (s, .error err) := by
  have hm := RWMutex.eq_of_free _ h
  obtain ⟨-, -, hex⟩ := ReadFile_eq_some _ _ _ hc
  cases s with
  | mk dataDir dirs files mutex =>
    simp only at hm
    subst hm
    have hex1 : Storage.pathExists ⟨dataDir, dirs, files, ⟨1, false⟩⟩
        (Storage.configPath ⟨dataDir, dirs, files, ⟨1, false⟩⟩) = true := hex
    have hc1 : Storage.ReadFile ⟨dataDir, dirs, files, ⟨1, false⟩⟩
        (Storage.configPath ⟨dataDir, dirs, files, ⟨1, false⟩⟩) = some .corrupt := hc
    refine ⟨"json: cannot unmarshal", ?_⟩
    simp [Storage.GetServerConfig, RWMutex.RLock, Outcome.andThen, hex1, hc1, RWMutex.RUnlock]

/-- C15 (witness). -/
theorem GetServerConfig_corrupt_witness :
    ∃ err, sampleCorruptConfigStore.GetServerConfig = .done (sampleCorruptConfigStore, .error err) :=
  GetServerConfig_corrupt sampleCorruptConfigStore rfl (by decide)

/-- C15 (counterexample). The configuration file does not decode: `GetServerConfig` returns
    an error, not the defaults, and the file is still corrupt afterwards. -/
theorem GetServerConfig_corrupt_not_recovered :
    ∃ s err, sampleCorruptConfigStore.GetServerConfig = .done (s, .error err) ∧
      s.configFile = some .corrupt :=
  ⟨_, _, rfl, by decide⟩

/-! ## The agent's outbound queue (C16) -/

/-- `SendMessage` never makes the queue longer than its capacity. -/
theorem SendMessage_length_le (c : Connection) (msgType : String) (data : JsonValue) (now : Time)
    (h : c.sendChan.length ≤ sendChanCap) :
    (c.SendMessage msgType data now).sendChan.length ≤ sendChanCap := by
  unfold Connection.SendMessage
  simp only
  split_ifs with hlt
  · simp only [List.length_append, List.length_singleton]
    omega
  · exact h

/-- `Connect` never makes the queue longer than its capacity. -/
theorem Connect_length_le (c : Connection) (dialOk : Bool) (now : Time)
    (h : c.sendChan.length ≤ sendChanCap) :
    (c.Connect dialOk now).1.sendChan.length ≤ sendChanCap := by
  unfold Connection.Connect
  split_ifs
  · exact h
  · exact h
  · exact SendMessage_length_le _ _ _ _ h

/-- An iteration of a send loop never makes the queue longer. -/
theorem sendLoop_length_le (c : Connection) (branch : SendLoopCase) :
    (c.sendLoop branch).sendChan.length ≤ c.sendChan.length := by
  cases branch with
  | stop =>
    simp only [Connection.sendLoop]
    split_ifs <;> exact le_refl _
  | message writeOk =>
    cases hq : c.sendChan with
    | nil =>
      simp only [Connection.sendLoop, hq]
      split_ifs <;> simp [hq]
    | cons msg rest =>
      simp only [Connection.sendLoop, hq]
      split_ifs <;> simp [hq, Connection.triggerReconnect]
  | heartbeat writeOk now =>
    simp only [Connection.sendLoop]
    split_ifs <;> simp [Connection.triggerReconnect]

/-- An iteration of a receive loop does not touch the queue. -/
theorem receiveLoop_sendChan (c : Connection) (branch : ReceiveLoopCase) :
    (c.receiveLoop branch).sendChan = c.sendChan := by
  cases branch with
  | stop =>
    simp only [Connection.receiveLoop]
    split_ifs <;> rfl
  | idle => rfl
  | read ok =>
    simp only [Connection.receiveLoop]
    split_ifs <;> rfl

/-- No event makes the queue longer than its capacity. -/
theorem agentStep_length_le (c c1 : Connection) (e : AgentEvent)
    (h : c.sendChan.length ≤ sendChanCap) (hstep : agentStep c e = .done c1) :
    c1.sendChan.length ≤ sendChanCap := by
  cases e with
  | initialConnect dialOk now =>
    simp only [agentStep, Outcome.done.injEq] at hstep
    subst hstep
    split_ifs
    · exact Connect_length_le c dialOk now h
    · exact Connect_length_le c dialOk now h
  | takeSignal =>
    simp only [agentStep, Outcome.done.injEq] at hstep
    subst hstep
    split_ifs <;> exact h
  | connect dialOk now =>
    simp only [agentStep, Outcome.done.injEq] at hstep
    subst hstep
    exact Connect_length_le c dialOk now h
  | disconnect now loopsSeeStop =>
    simp only [agentStep, Connection.Disconnect] at hstep
    split_ifs at hstep with h1 h2 h3
    · cases hstep; exact h
    · cases hstep; simp
  | send msgType data now =>
    simp only [agentStep, Outcome.done.injEq] at hstep
    subst hstep
    exact SendMessage_length_le c msgType data now h
  | sender branch =>
    simp only [agentStep, Outcome.done.injEq] at hstep
    subst hstep
    exact le_trans (sendLoop_length_le c branch) h
  | receiver branch =>
    simp only [agentStep, Outcome.done.injEq] at hstep
    subst hstep
    rw [receiveLoop_sendChan]
    exact h

/-- C16. In every state the connection reaches, the queue holds at most 100 messages, and
    `SendMessage`, which always returns, appends the new envelope at the tail when the queue
    holds fewer than 100 and leaves the connection as it is when the queue holds 100. -/
theorem SendMessage_bounded_queue (clientID clientName osInfo : String) (c : Connection)
    (hc : AgentReachable clientID clientName osInfo c)
    (msgType : String) (data : JsonValue) (now : Time) :
    c.sendChan.length ≤ 100 ∧
    (c.sendChan.length < 100 →
      (c.SendMessage msgType data now).sendChan =
        c.sendChan ++ [{ MsgType := msgType, ClientID := c.clientInfo.ID, Timestamp := now,
                         Data := data }]) ∧
    (c.sendChan.length = 100 → c.SendMessage msgType data now = c) ∧
    (c.SendMessage msgType data now).sendChan.length ≤ 100 := by
  have hlen : c.sendChan.length ≤ sendChanCap := by
    induction hc with
    | init => simp [NewConnection]
    | step e _ hstep ih => exact agentStep_length_le _ _ e ih hstep
  refine ⟨hlen, ?_, ?_, SendMessage_length_le c msgType data now hlen⟩
  · intro h
    have h1 : c.sendChan.length < sendChanCap := h
    unfold Connection.SendMessage
    simp only
    rw [if_pos h1]
  · intro h
    have h1 : ¬ c.sendChan.length < sendChanCap := by
      rw [h]
      exact lt_irrefl _
    unfold Connection.SendMessage
    simp only
    rw [if_neg h1]

/-- C16 (witness). The agent has connected, so its queue holds the `client_connect`
    envelope; a sample is sent. -/
theorem SendMessage_bounded_queue_witness :
    ∃ c, agentRun sampleAgent [.initialConnect true ⟨1000, 0⟩] = .done c ∧
      c.sendChan.length ≤ 100 ∧
      (c.sendChan.length < 100 →
        (c.SendMessage TypeNetworkRequest (.object sampleRequest.toJson) ⟨2000, 0⟩).sendChan =
          c.sendChan ++ [{ MsgType := TypeNetworkRequest, ClientID := c.clientInfo.ID,
                           Timestamp := ⟨2000, 0⟩, Data := .object sampleRequest.toJson }]) ∧
      (c.sendChan.length = 100 →
        c.SendMessage TypeNetworkRequest (.object sampleRequest.toJson) ⟨2000, 0⟩ = c) ∧
      (c.SendMessage TypeNetworkRequest (.object sampleRequest.toJson) ⟨2000, 0⟩).sendChan.length
        ≤ 100 :=
  ⟨_, rfl, SendMessage_bounded_queue "A1" "agent-1" "linux/amd64" _
    (AgentReachable.step (.initialConnect true ⟨1000, 0⟩) AgentReachable.init rfl)
    TypeNetworkRequest (.object sampleRequest.toJson) ⟨2000, 0⟩⟩

/-! ## Sender and receiver tasks across a reconnect (C17, C18) -/

/-- When the connection is not connected, `Disconnect` returns at its guard and changes
    nothing: no loop is stopped and no channel is replaced. -/
theorem Disconnect_of_not_connected (c : Connection) (now : Time) (loopsSeeStop : Bool)
    (h : c.connected = false) : c.Disconnect now loopsSeeStop = .done c := by
  unfold Connection.Disconnect
  simp [h]

/-- C17 (evaluation at the failing input). The agent connects; the receiver's read fails, so
    the receiver calls `triggerReconnect` and returns while the sender stays alive; the
    reconnect loop takes the signal, its `Disconnect` returns at the guard because
    `connected` is already false, and its `Connect` succeeds and starts a second sender:
    two senders are alive. -/
theorem reconnect_leaves_two_senders :
    ∃ c, agentRun sampleAgent
        [.initialConnect true ⟨1000, 0⟩, .receiver (.read false), .takeSignal,
         .disconnect ⟨7000, 0⟩ false, .connect true ⟨8000, 0⟩] = .done c ∧
      c.connected = true ∧ c.sendLoops = 2 ∧ c.receiveLoops = 1 :=
  ⟨_, rfl, by decide, by decide, by decide⟩

/-- After a write failure in the sender it is the receiver that stays alive, and the
    reconnect starts a second one. -/
theorem reconnect_leaves_two_receivers :
    ∃ c, agentRun sampleAgent
        [.initialConnect true ⟨1000, 0⟩, .sender (.message false), .takeSignal,
         .disconnect ⟨7000, 0⟩ false, .connect true ⟨8000, 0⟩] = .done c ∧
      c.connected = true ∧ c.sendLoops = 1 ∧ c.receiveLoops = 2 :=
  ⟨_, rfl, by decide, by decide, by decide⟩

/-- C18 (evaluation at the failing input). The agent connects and its `client_connect` is
    written on transport 1; a sample is queued; a heartbeat write fails, so the sender calls
    `triggerReconnect` and returns with the sample still queued; the reconnect loop's
    `Disconnect` returns at the guard, so the queue is not replaced; `Connect` dials
    transport 2 and the new sender writes the queued sample on it. -/
theorem queued_message_written_after_reconnect :
    ∃ c, agentRun sampleAgent
        [.initialConnect true ⟨1000, 0⟩, .sender (.message true),
         .send TypeNetworkRequest (.object sampleRequest.toJson) ⟨3000, 0⟩,
         .sender (.heartbeat false ⟨4000, 0⟩), .takeSignal, .disconnect ⟨9000, 0⟩ false,
         .connect true ⟨10000, 0⟩, .sender (.message true)] = .done c ∧
      c.ws = 2 ∧
      c.wire.getLast? = some (.wrote 2 sampleQueuedSample) ∧
      sampleQueuedSample.Timestamp = ⟨3000, 0⟩ :=
  ⟨_, rfl, by decide, by decide, rfl⟩

/-! ## Disconnect (C19) -/

/-- A `Disconnect` of a connected connection that returns has closed the transport without
    writing anything to it, and has replaced the queue, the disconnect envelope included, by
    an empty one. -/
theorem Disconnect_writes_nothing (c c1 : Connection) (now : Time) (loopsSeeStop : Bool)
    (hc : c.connected = true) (h : c.Disconnect now loopsSeeStop = .done c1) :
    c1.wire = c.wire ++ [.closed c.ws] ∧ c1.sendChan = [] ∧ c1.connected = false := by
  unfold Connection.Disconnect at h
  simp only [hc, Bool.not_true, Bool.false_eq_true, if_false] at h
  split_ifs at h with h1 h2
  cases h
  refine ⟨?_, rfl, rfl⟩
  simp only [Connection.SendMessage]
  split_ifs <;> rfl

/-- C19 (evaluation at the failing input). The agent is connected, its `client_connect` has
    been written and its queue is empty. `Disconnect` queues the `client_disconnect`
    envelope (third fact) and closes the transport while it holds the lock the sender needs: when the
    loops are caught needing that lock it never returns, and when it returns the history
    of the transport is the `client_connect` followed by the close, and the queue is
    empty. The envelope is not written. -/
theorem Disconnect_envelope_never_written :
    ∃ c, agentRun sampleAgent [.initialConnect true ⟨1000, 0⟩, .sender (.message true)]
        = .done c ∧
      c.connected = true ∧ c.sendChan = [] ∧
      (({ c with clientInfo := { c.clientInfo with DisconnectedAt := some ⟨9000, 0⟩,
                                                    Status := StatusOffline } }).SendMessage
          TypeClientDisconnect
          (.object { c.clientInfo with DisconnectedAt := some ⟨9000, 0⟩,
                                       Status := StatusOffline }.toJson)
          ⟨9000, 0⟩).sendChan = [sampleAgentDisconnect] ∧
      c.Disconnect ⟨9000, 0⟩ false = .blocks ∧
      ∃ c1, c.Disconnect ⟨9000, 0⟩ true = .done c1 ∧
        c1.wire = c.wire ++ [.closed 1] ∧
        sampleAgentDisconnect ∉ writtenMessages c1.wire ∧
        c1.sendChan = [] :=
  ⟨_, rfl, by decide, by decide, by decide, by decide, _, rfl, by decide, by decide, by decide⟩

/-! ## Stored samples and their ids (C20) -/

/-- The state after a `network_request` envelope: the decoded sample is saved under the
    session's client id, and the error of the save is dropped. -/
theorem handleClientMessage_network_request (m : ClientManager) (c : ConnId)
    (msg : ClientMessage) (o : JsonObject) (now : Time)
    (hT : msg.MsgType = TypeNetworkRequest) (hD : msg.Data = .object o) :
    ClientConnection.handleClientMessage m c msg now = .done
      { m with storage := (m.storage.SaveNetworkRequest (m.conns c).clientID
                 (o.decodeNetworkRequest NetworkRequest.zero)).1 } := by
  have hne1 : ¬ msg.MsgType = TypeClientConnect := by rw [hT]; decide
  have hne2 : ¬ msg.MsgType = TypeHeartbeat := by rw [hT]; decide
  have hne3 : ¬ msg.MsgType = TypeClientDisconnect := by rw [hT]; decide
  unfold ClientConnection.handleClientMessage
  rw [if_neg hne1, if_neg hne2, if_neg hne3, if_pos hT, hD]

/-- A sample whose id carries a path separator is dropped: session 0 of agent `A1` handles
    an envelope whose sample has the id `a/b`; the save fails, the handler returns all the
    same, and no sample of `A1` is in the store. -/
theorem sample_with_separator_dropped :
    ∃ m, hubRun hubInit [.accept 0, .receive 0 (.message sampleConnect) ⟨2000, 0⟩,
          .receive 0 (.message sampleTelemetrySlash) ⟨3000, 0⟩] = .done m ∧
      m.storage.GetNetworkRequests "A1" 10 = [] ∧
      m.storage.files.toList.map (fun kv => kv.1) = [serverDataDir ++ ["clients", "A1.json"]] :=
  ⟨_, rfl, by decide, by decide⟩

/-! ## The partition of a stored sample (C21) -/

/-- A running receive loop that reads a `network_request` envelope sets the session's
    client id if it has none and saves the decoded sample under the session's client id. -/
theorem receiveLoop_network_request (m : ClientManager) (c : ConnId) (msg : ClientMessage)
    (o : JsonObject) (now : Time) (d : String)
    (hrun : (m.conns c).receiveLoopState = .running d)
    (hopen : (m.conns c).stopChanClosed = false)
    (hT : msg.MsgType = TypeNetworkRequest) (hD : msg.Data = .object o) :
    ClientConnection.receiveLoop m c (.message msg) now = .done
      { ClientConnection.setClientID m c msg with
        storage := (m.storage.SaveNetworkRequest
          (if (m.conns c).clientID = "" then msg.ClientID else (m.conns c).clientID)
          (o.decodeNetworkRequest NetworkRequest.zero)).1 } := by
  rw [receiveLoop_message m c msg now d hrun hopen,
    handleClientMessage_network_request _ c msg o now hT hD]
  obtain ⟨-, h2, -, -, -, h6⟩ := setClientID_fields m c msg
  rw [h2, h6]

/-- C21 (amended). A running session whose stop channel is open reads a `network_request`
    envelope whose payload is a JSON object. The iteration returns; the session's client id
    afterwards is the id the session already had if it had one, whatever the envelope
    names, and the envelope's `ClientID` if it had none; and the store is what
    `SaveNetworkRequest` leaves for that id and the decoded sample. When that save returns
    no error the sample is read back from the request file of that id; and when that id is
    a plain directory name and the sample's id has no path separator, the request file is
    `<sample id>.json` in the date directory in the directory named by that id. -/
theorem receiveLoop_stores_under_session_id (m : ClientManager) (c : ConnId)
    (msg : ClientMessage) (o : JsonObject) (now : Time) (d : String)
    (hrun : (m.conns c).receiveLoopState = .running d)
    (hopen : (m.conns c).stopChanClosed = false)
    (hT : msg.MsgType = TypeNetworkRequest) (hD : msg.Data = .object o) :
    ∃ m1, ClientConnection.receiveLoop m c (.message msg) now = .done m1 ∧
      (m1.conns c).clientID =
        (if (m.conns c).clientID = "" then msg.ClientID else (m.conns c).clientID) ∧
      ((m.conns c).clientID ≠ "" → (m1.conns c).clientID = (m.conns c).clientID) ∧
      ((m.conns c).clientID = "" → (m1.conns c).clientID = msg.ClientID) ∧
      m1.storage = (m.storage.SaveNetworkRequest (m1.conns c).clientID
        (o.decodeNetworkRequest NetworkRequest.zero)).1 ∧
      ((m.storage.SaveNetworkRequest (m1.conns c).clientID
          (o.decodeNetworkRequest NetworkRequest.zero)).2 = true →
        m1.storage.requestAt (m.storage.requestFile (m1.conns c).clientID
          (o.decodeNetworkRequest NetworkRequest.zero))
          = some (o.decodeNetworkRequest NetworkRequest.zero)) ∧
      (hasSeparator (m1.conns c).clientID = false → (m1.conns c).clientID ≠ "" →
        (m1.conns c).clientID ≠ "." → (m1.conns c).clientID ≠ ".." →
        hasSeparator (o.decodeNetworkRequest NetworkRequest.zero).ID = false →
        m.storage.requestFile (m1.conns c).clientID (o.decodeNetworkRequest NetworkRequest.zero)
          = m.storage.requestsDir ++
            [(m1.conns c).clientID,
             (o.decodeNetworkRequest NetworkRequest.zero).StartTime.Format,
             (o.decodeNetworkRequest NetworkRequest.zero).ID ++ ".json"]) := by
  have hid := (setClientID_fields m c msg).2.2.2.2.2
  have hid1 : ((ClientConnection.setClientID m c msg).conns c).clientID =
      (if (m.conns c).clientID = "" then msg.ClientID else (m.conns c).clientID) := hid
  refine ⟨_, receiveLoop_network_request m c msg o now d hrun hopen hT hD, hid, ?_, ?_, ?_, ?_,
    requestFile_of_plain _ _ _⟩
  · intro hne
    show ((ClientConnection.setClientID m c msg).conns c).clientID = _
    rw [hid1, if_neg hne]
  · intro he
    show ((ClientConnection.setClientID m c msg).conns c).clientID = _
    rw [hid1, if_pos he]
  · show (m.storage.SaveNetworkRequest _ _).1
      = (m.storage.SaveNetworkRequest
          ((ClientConnection.setClientID m c msg).conns c).clientID _).1
    rw [hid1]
  · show (m.storage.SaveNetworkRequest
          ((ClientConnection.setClientID m c msg).conns c).clientID _).2 = true →
      Storage.requestAt (m.storage.SaveNetworkRequest _ _).1
        (m.storage.requestFile ((ClientConnection.setClientID m c msg).conns c).clientID _) = _
    rw [hid1]
    exact requestAt_SaveNetworkRequest _ _ _

/-- C21 (witness). Session 0 of a new hub, which has no client id yet, reads a
    `network_request` envelope of `A1`: the sample is read back from its file in the
    directory of `A1`. -/
theorem receiveLoop_stores_under_session_id_witness :
    ∃ m, hubRun hubInit [.accept 0] = .done m ∧
    ∃ m1, ClientConnection.receiveLoop m 0 (.message sampleTelemetry) ⟨2000, 0⟩ = .done m1 ∧
      (m1.conns 0).clientID = "A1" ∧
      m1.storage.requestAt (serverDataDir ++ ["requests", "A1", "2024-02-29", "7d1f0c52.json"])
        = some sampleRequest :=
  ⟨_, rfl,
   (receiveLoop_stores_under_session_id _ 0 sampleTelemetry sampleRequest.toJson ⟨2000, 0⟩
      "" rfl rfl rfl rfl).elim
    (fun m1 h => ⟨m1, h.1, h.2.1, (h.2.2.2.2.2.1 (by rw [h.2.1]; decide)).symm ▸
      (by rw [h.2.1]; rfl)⟩)⟩

/-- C21 (counterexample). Session 0 has registered as `A1` and then reads a
    `network_request` envelope that names `B2` as its originator. The sample is stored in
    the directory of `A1`, and the directory of `B2` holds nothing. -/
theorem telemetry_stored_under_session_id :
    ∃ m, hubRun hubInit [.accept 0, .receive 0 (.message sampleConnect) ⟨2000, 0⟩,
          .receive 0 (.message sampleTelemetryB2) ⟨3000, 0⟩] = .done m ∧
      sampleTelemetryB2.ClientID = "B2" ∧
      m.storage.GetNetworkRequests "B2" 10 = [] ∧
      m.storage.GetNetworkRequests "A1" 10 = [sampleRequest] ∧
      m.storage.requestAt (serverDataDir ++ ["requests", "A1", "2024-02-29", "7d1f0c52.json"])
        = some sampleRequest ∧
      m.storage.requestAt (serverDataDir ++ ["requests", "B2", "2024-02-29", "7d1f0c52.json"])
        = none :=
  ⟨_, rfl, rfl, by decide, by decide, by decide, by decide⟩

/-! ## The waits of an episode in which every attempt fails (C22) -/

/-- The retry loop consults `dial` only for the iterations it runs. -/
theorem retryLoop_congr (dial dial2 : Nat → Bool) (n i : Nat) (b : Duration)
    (h : ∀ j, i ≤ j → j < i + n → dial j = dial2 j) :
    retryLoop dial n i b = retryLoop dial2 n i b := by
  induction n generalizing i b with
  | zero => rfl
  | succ n ih =>
    unfold retryLoop
    rw [h i (le_refl _) (by omega), ih (i + 1) (nextBackoff b) (fun j h1 h2 => h j (by omega) (by omega))]

/-- C22. In a reconnect episode in which each of the ten connect attempts fails, the
    episode is: a sleep of 5 s, `Disconnect`, and then for `k = 0..9` the failed attempt `k`
    followed by a sleep of `min(2^k, 60)` seconds. The sleeps are 5 s and then
    1, 2, 4, 8, 16, 32, 60, 60, 60, 60 s. -/
theorem reconnectEpisode_all_fail (dial : Nat → Bool) (h : ∀ k, k < 10 → dial k = false) :
    reconnectEpisode dial =
      .sleep (5 * Second) :: .disconnect ::
        (List.range 10).flatMap (fun k => [.connect k false, .sleep (min (2 ^ k) 60 * Second)]) ∧
    backoffWaits dial = (List.range 10).map (fun k => min (2 ^ k) 60 * Second) ∧
    sleeps (reconnectEpisode dial) =
      [5, 1, 2, 4, 8, 16, 32, 60, 60, 60, 60].map (fun seconds => seconds * Second) := by
  have hc : retryLoop dial 10 0 Second = retryLoop (fun _ => false) 10 0 Second :=
    retryLoop_congr dial (fun _ => false) 10 0 Second (fun j _ hj => h j (by omega))
  unfold backoffWaits reconnectEpisode
  rw [hc]
  refine ⟨?_, ?_, ?_⟩ <;> decide

/-- C22 (witness). The episode in which no dial succeeds. -/
theorem reconnectEpisode_all_fail_witness :
    reconnectEpisode (fun _ => false) =
      .sleep (5 * Second) :: .disconnect ::
        (List.range 10).flatMap (fun k => [.connect k false, .sleep (min (2 ^ k) 60 * Second)]) ∧
    backoffWaits (fun _ => false) = (List.range 10).map (fun k => min (2 ^ k) 60 * Second) ∧
    sleeps (reconnectEpisode (fun _ => false)) =
      [5, 1, 2, 4, 8, 16, 32, 60, 60, 60, 60].map (fun seconds => seconds * Second) :=
  reconnectEpisode_all_fail (fun _ => false) (fun _ _ => rfl)

/-! ## A session that registers twice (C23) -/

/-- In every state the hub reaches, however the statements of its handlers interleave, no
    session the registry holds has its stop channel closed. -/
theorem registered_not_stopped (h : HubState) (hr : Reachable h) (k : String) (c : ConnId)
    (hreg : h.hub.clients.lookup k = some c) : (h.hub.conns c).stopChanClosed = false :=
  ((HubInv_of_Reachable h hr).2.2.2 k c hreg).2.1

/-- A running session that is stored under its own client id and reads a `client_connect`
    envelope never returns from it: `AddClient` finds the session itself as the existing
    connection and calls its `Stop`, whose `wg.Wait()` waits for the receive loop that is
    making the call. -/
theorem receiveLoop_second_connect_blocks (m : ClientManager) (c : ConnId) (X : String)
    (msg : ClientMessage) (o : JsonObject) (now : Time) (d : String)
    (hX : X ≠ "") (hid : (m.conns c).clientID = X) (hreg : m.clients.lookup X = some c)
    (hrun : (m.conns c).receiveLoopState = .running d)
    (hopen : (m.conns c).stopChanClosed = false)
    (hT : msg.MsgType = TypeClientConnect) (hD : msg.Data = .object o) :
    ClientConnection.receiveLoop m c (.message msg) now = .blocks := by
  have hne : ¬ (m.conns c).clientID = "" := by rw [hid]; exact hX
  have hset : ClientConnection.setClientID m c msg = m := by
    unfold ClientConnection.setClientID
    rw [if_neg hne]
  rw [receiveLoop_message m c msg now d hrun hopen, hset]
  unfold ClientConnection.handleClientMessage
  rw [if_pos hT, hD]
  simp [ClientManager.setConn, ClientManager.AddClient, hid, hreg, ClientConnection.Stop, hopen,
    hrun, Outcome.andThen]

/-- C23 (evaluation at the failing input). Session 0 has registered as `A1`; its receive
    loop is running and its stop channel is open. It reads a second `client_connect`
    envelope, and the iteration never returns: the session is stopped by its own
    registration and waits for itself. -/
theorem second_client_connect_never_returns :
    ∃ m, hubRun hubInit [.accept 0, .receive 0 (.message sampleConnect) ⟨2000, 0⟩] = .done m ∧
      m.clients.lookup "A1" = some 0 ∧
      (m.conns 0).clientID = "A1" ∧
      (m.conns 0).receiveLoopState = .running "" ∧
      (m.conns 0).stopChanClosed = false ∧
      (m.conns 0).Stop = .blocks ∧
      m.AddClient "A1" 0 = .blocks ∧
      hubStep m (.receive 0 (.message sampleConnect) ⟨3000, 0⟩) = .blocks ∧
      hubRun hubInit [.accept 0, .receive 0 (.message sampleConnect) ⟨2000, 0⟩,
        .receive 0 (.message sampleConnect) ⟨3000, 0⟩] = .blocks :=
  ⟨_, rfl, by decide, by decide, by decide, by decide, rfl, rfl, rfl, rfl⟩

/-! ## Start and Stop of the probe engine (C24) -/

/-- A `Stop` that returns was called with the stop channel open, and leaves it closed. -/
theorem Monitor.Stop_done (m m1 : Monitor) (tasksSeeStop : Bool)
    (h : m.Stop tasksSeeStop = .done m1) :
    m.stopChanClosed = false ∧ m1.stopChanClosed = true ∧ m1.tasks = 0 ∧
    m1.targets = m.targets := by
  unfold Monitor.Stop at h
  by_cases h1 : m.stopChanClosed = true
  · rw [if_pos h1] at h
    cases h
  · rw [if_neg h1] at h
    simp only at h
    by_cases h2 : m.tasks = 0 ∨ tasksSeeStop = true
    · rw [if_pos h2] at h
      cases h
      exact ⟨by simpa using h1, rfl, rfl, rfl⟩
    · rw [if_neg h2] at h
      cases h

/-- `Stop` panics exactly when the stop channel is closed already. -/
theorem Monitor.Stop_panics_iff (m : Monitor) (tasksSeeStop : Bool) :
    m.Stop tasksSeeStop = .panics ↔ m.stopChanClosed = true := by
  unfold Monitor.Stop
  by_cases h1 : m.stopChanClosed = true
  · simp [h1]
  · simp only [if_neg h1]
    by_cases h2 : m.tasks = 0 ∨ tasksSeeStop = true
    · rw [if_pos h2]
      simp [h1]
    · rw [if_neg h2]
      simp [h1]

/-- A `Start` that returns leaves a new, open stop channel and one goroutine for each
    enabled target, and every enabled target has a positive ticker period. -/
theorem Monitor.Start_done (m m1 : Monitor) (targets : List Target) (tasksSeeStop : Bool)
    (h : m.Start targets tasksSeeStop = .done m1) :
    m.stopChanClosed = false ∧ m1.stopChanClosed = false ∧ m1.targets = targets ∧
    m1.tasks = (targets.filter (fun target => target.Enabled)).length ∧
    (targets.filter (fun target => target.Enabled)).any
      (fun target => decide (tickerPeriod target ≤ 0)) = false := by
  unfold Monitor.Start at h
  cases hs : m.Stop tasksSeeStop with
  | done m0 =>
    rw [hs] at h
    simp only [Outcome.andThen] at h
    obtain ⟨h1, -, h3, -⟩ := Monitor.Stop_done m m0 tasksSeeStop hs
    cases hp : (targets.filter (fun target => target.Enabled)).any
        (fun target => decide (tickerPeriod target ≤ 0)) with
    | true => rw [hp] at h; simp at h
    | false =>
      rw [hp] at h
      simp only [Bool.false_eq_true, if_false, Outcome.done.injEq] at h
      subst h
      exact ⟨h1, rfl, rfl, by simp [h3], rfl⟩
  | panics => rw [hs] at h; simp [Outcome.andThen] at h
  | blocks => rw [hs] at h; simp [Outcome.andThen] at h

/-- With the stop channel open, goroutines that see the stop signal and a positive ticker
    period for every enabled target, `Start` returns. -/
theorem Monitor.Start_of_open (m : Monitor) (targets : List Target)
    (h : m.stopChanClosed = false)
    (hp : (targets.filter (fun target => target.Enabled)).any
      (fun target => decide (tickerPeriod target ≤ 0)) = false) :
    m.Start targets true = .done
      { targets := targets, stopChanClosed := false
        tasks := (targets.filter (fun target => target.Enabled)).length } := by
  simp only [Monitor.Start, Monitor.Stop, h, Outcome.andThen, Bool.false_eq_true, if_false,
    or_true, if_true, hp, Nat.zero_add]

/-- With the stop channel open and goroutines that see the stop signal, a `Start` with an
    enabled target whose ticker period is not positive panics: `time.NewTicker` panics in
    the goroutine of that target. -/
theorem Monitor.Start_panics_of_period (m : Monitor) (targets : List Target)
    (h : m.stopChanClosed = false)
    (hp : (targets.filter (fun target => target.Enabled)).any
      (fun target => decide (tickerPeriod target ≤ 0)) = true) :
    m.Start targets true = .panics := by
  simp only [Monitor.Start, Monitor.Stop, h, Outcome.andThen, Bool.false_eq_true, if_false,
    or_true, if_true, hp]

/-- A sequence of `Start` calls on a monitor whose stop channel is open, with goroutines
    that see the stop signal and positive ticker periods: each call returns, and the stop
    channel is open afterwards. -/
theorem Monitor.run_Start_only (m : Monitor) (targetLists : List (List Target))
    (h : m.stopChanClosed = false)
    (hp : ∀ targets ∈ targetLists, (targets.filter (fun target => target.Enabled)).any
      (fun target => decide (tickerPeriod target ≤ 0)) = false) :
    ∃ m1, m.run (targetLists.map (fun targets => MonitorCall.Start targets true)) = .done m1 ∧
      m1.stopChanClosed = false := by
  induction targetLists generalizing m with
  | nil => exact ⟨m, rfl, h⟩
  | cons targets rest ih =>
    obtain ⟨m1, h1, h2⟩ := ih
      { targets := targets, stopChanClosed := false
        tasks := (targets.filter (fun target => target.Enabled)).length } rfl
      (fun l hl => hp l (List.mem_cons_of_mem _ hl))
    refine ⟨m1, ?_, h2⟩
    simp only [List.map_cons, Monitor.run, Monitor.call,
      Monitor.Start_of_open m targets h (hp targets (List.mem_cons_self _ _)), Outcome.andThen]
    exact h1

/-- Once a `Stop` has returned, the next call panics, whether it is `Stop` or `Start`:
    it closes the stop channel that `Stop` has closed. -/
theorem Monitor.call_after_Stop_panics (m m1 : Monitor) (tasksSeeStop : Bool)
    (call : MonitorCall) (h : m.Stop tasksSeeStop = .done m1) : m1.call call = .panics := by
  obtain ⟨-, h2, -, -⟩ := Monitor.Stop_done m m1 tasksSeeStop h
  cases call with
  | Start targets b => simp [Monitor.call, Monitor.Start, Monitor.Stop, h2, Outcome.andThen]
  | Stop b => simp [Monitor.call, Monitor.Stop, h2]

/-- C24 (evaluation at the failing input). On a new monitor `Stop` returns; a second `Stop`
    panics, and so does a `Start` after the `Stop`; the same holds when the monitor was
    started before. A `Start` after a `Start` returns. -/
theorem Stop_then_Stop_or_Start_panics :
    NewMonitor.run [.Stop true] = .done { targets := [], stopChanClosed := true, tasks := 0 } ∧
    NewMonitor.run [.Stop true, .Stop true] = .panics ∧
    NewMonitor.run [.Stop true, .Start [sampleTarget] true] = .panics ∧
    NewMonitor.run [.Start [sampleTarget] true, .Stop true, .Stop true] = .panics ∧
    NewMonitor.run [.Start [sampleTarget] true, .Stop true, .Start [sampleTarget] true]
      = .panics ∧
    NewMonitor.run [.Start [sampleTarget] true, .Start [sampleTarget] true, .Stop true]
      = .done { targets := [sampleTarget], stopChanClosed := true, tasks := 0 } := by
  decide

/-! ## The lock of the store (C25) -/

/-- The lock plays no part in what `SaveClientInfo` writes. -/
theorem SaveClientInfo_mutex (s : Storage) (l : RWMutex) (client : ClientInfo) :
    (Storage.SaveClientInfo { s with mutex := l } client).1
      = { (s.SaveClientInfo client).1 with mutex := l } := by
  have hp : Storage.clientFile { s with mutex := l } client.ID = s.clientFile client.ID := rfl
  have h1 : ∀ q, Storage.isDir { s with mutex := l } q = s.isDir q := fun _ => rfl
  unfold Storage.SaveClientInfo Storage.WriteFile
  rw [hp, h1, h1]
  split_ifs <;> rfl

/-- The lock plays no part in what `SaveNetworkRequest` writes. -/
theorem SaveNetworkRequest_mutex (s : Storage) (l : RWMutex) (clientID : String)
    (request : NetworkRequest) :
    (Storage.SaveNetworkRequest { s with mutex := l } clientID request).1
      = { (s.SaveNetworkRequest clientID request).1 with mutex := l } := by
  unfold Storage.SaveNetworkRequest
  simp only
  have hr : Storage.requestsDir { s with mutex := l } = s.requestsDir := rfl
  rw [hr]
  have hm : ∀ (t : Storage) (p : Path), Storage.MkdirAll { t with mutex := l } p
      = (t.MkdirAll p).map (fun t1 => { t1 with mutex := l }) := by
    intro t p
    have h1 : Storage.isFile { t with mutex := l } = t.isFile := rfl
    unfold Storage.MkdirAll
    rw [h1]
    split_ifs <;> rfl
  have hw : ∀ (t : Storage) (p : Path) (content : FileContent),
      Storage.WriteFile { t with mutex := l } p content
      = (t.WriteFile p content).map (fun t1 => { t1 with mutex := l }) := by
    intro t p content
    have h2 : Storage.isDir { t with mutex := l } = t.isDir := rfl
    unfold Storage.WriteFile
    rw [h2]
    split_ifs <;> rfl
  rw [hm]
  cases h1 : s.MkdirAll (s.requestsDir.Join clientID) with
  | none => rfl
  | some s1 =>
    simp only [Option.map_some']
    rw [hm]
    cases h2 : s1.MkdirAll ((s.requestsDir.Join clientID).Join request.StartTime.Format) with
    | none => rfl
    | some s2 =>
      simp only [Option.map_some']
      rw [hw]
      cases h3 : s2.WriteFile
          (((s.requestsDir.Join clientID).Join request.StartTime.Format).Join
            (request.ID ++ ".json")) (.json request.toJson) with
      | none => rfl
      | some s3 => rfl

/-- What each method call does when no lock is held: every method but one returns with the
    lock free again, having done what its body does; `GetServerConfig` returns, leaving
    the store as it was, when there is something at the configuration path, and never
    returns when there is nothing. -/
theorem Storage.call_of_free (s : Storage) (h : s.mutex.free = true) :
    (∀ client, s.call (.SaveClientInfo client) = .done (s.SaveClientInfo client).1) ∧
    (∀ clientID, s.call (.GetClientInfo clientID) = .done s) ∧
    s.call .GetAllClientInfo = .done s ∧
    (∀ clientID request,
      s.call (.SaveNetworkRequest clientID request)
        = .done (s.SaveNetworkRequest clientID request).1) ∧
    (∀ clientID limit, s.call (.GetNetworkRequests clientID limit) = .done s) ∧
    (∀ config, ∃ s1, s.call (.SaveServerConfig config) = .done s1 ∧ s1.mutex.free = true) ∧
    (s.pathExists s.configPath = true → s.call .GetServerConfig = .done s) ∧
    (s.pathExists s.configPath = false → s.call .GetServerConfig = .blocks) := by
  have hm := RWMutex.eq_of_free _ h
  refine ⟨?_, ?_, ?_, ?_, ?_, ?_, ?_, ?_⟩
  · intro client
    have e := SaveClientInfo_mutex s ⟨0, true⟩ client
    have em := (SaveClientInfo_fields s client).2.2
    simp only [Storage.call, Storage.withLock, hm, RWMutex.Lock, Outcome.andThen,
      Bool.false_or, Nat.lt_irrefl, decide_False, Bool.false_eq_true, if_false]
    rw [e]
    simp only [RWMutex.Unlock]
    rw [hm] at em
    congr 1
    rw [← em]
  · intro clientID
    cases s with
    | mk dataDir dirs files mutex =>
      simp only at hm
      subst hm
      rfl
  · cases s with
    | mk dataDir dirs files mutex =>
      simp only at hm
      subst hm
      rfl
  · intro clientID request
    have e := SaveNetworkRequest_mutex s ⟨0, true⟩ clientID request
    have em := (SaveNetworkRequest_spec s clientID request).2.1
    simp only [Storage.call, Storage.withLock, hm, RWMutex.Lock, Outcome.andThen,
      Bool.false_or, Nat.lt_irrefl, decide_False, Bool.false_eq_true, if_false]
    rw [e]
    simp only [RWMutex.Unlock]
    rw [hm] at em
    congr 1
    rw [← em]
  · intro clientID limit
    cases s with
    | mk dataDir dirs files mutex =>
      simp only at hm
      subst hm
      rfl
  · intro config
    obtain ⟨s1, ok, h1, h2⟩ := (SaveServerConfig_of_free s config h).2
    exact ⟨s1, by simp [Storage.call, h1, Outcome.andThen], h2⟩
  · intro hex
    obtain ⟨r, hr⟩ := GetServerConfig_of_exists s h hex
    simp [Storage.call, hr, Outcome.andThen]
  · intro hex
    simp [Storage.call, GetServerConfig_blocks_of_missing s h hex, Outcome.andThen]

/-- Every call but `GetServerConfig` on a store with nothing at the configuration path,
    made with the lock free, returns and leaves the lock free. -/
theorem Storage.call_returns_of_free (s : Storage) (call : StorageCall)
    (h : s.mutex.free = true)
    (hc : call = .GetServerConfig → s.pathExists s.configPath = true) :
    ∃ s1, s.call call = .done s1 ∧ s1.mutex.free = true := by
  obtain ⟨h1, h2, h3, h4, h5, h6, h7, -⟩ := Storage.call_of_free s h
  cases call with
  | SaveClientInfo client =>
    exact ⟨_, h1 client, by rw [(SaveClientInfo_fields s client).2.2]; exact h⟩
  | GetClientInfo clientID => exact ⟨_, h2 clientID, h⟩
  | GetAllClientInfo => exact ⟨_, h3, h⟩
  | SaveNetworkRequest clientID request =>
    exact ⟨_, h4 clientID request, by
      rw [(SaveNetworkRequest_spec s clientID request).2.1]; exact h⟩
  | GetNetworkRequests clientID limit => exact ⟨_, h5 clientID limit, h⟩
  | SaveServerConfig config => exact h6 config
  | GetServerConfig => exact ⟨_, h7 (hc rfl), h⟩

/-- C25 (evaluation at the failing input). On a new store, whose lock is free and which has
    no configuration file, `GetServerConfig` takes a read lock; with that read lock held the
    write lock is not granted, so the `SaveServerConfig` it calls never returns, and neither
    does `GetServerConfig`. -/
theorem GetServerConfig_requests_lock_it_holds :
    (NewStorage serverDataDir).mutex.free = true ∧
    (NewStorage serverDataDir).configFile = none ∧
    (NewStorage serverDataDir).pathExists (NewStorage serverDataDir).configPath = false ∧
    (NewStorage serverDataDir).mutex.RLock = .done { readers := 1, writer := false } ∧
    ({ readers := 1, writer := false } : RWMutex).Lock = .blocks ∧
    ({ NewStorage serverDataDir with
       mutex := { readers := 1, writer := false } }).SaveServerConfig
      defaultServerConfig = .blocks ∧
    (NewStorage serverDataDir).call .GetServerConfig = .blocks :=
  ⟨rfl, by decide, by decide, rfl, rfl, rfl, rfl⟩

end NetworkMonitor
